import Mathlib

/-!
Verification of the Boolean Searcher of `search/searchers/search_boolean.go`
(bleve). The searcher merge-joins up to three child streams (must / should /
mustNot) of document matches into one ordered scored stream.

Shallow embedding conventions:
* Document identifiers are opaque byte-comparable keys in the source
  (`index.IndexInternalID`, compared with `bytes.Compare`); only their total
  order is used, so they are modelled as `Nat`.
* Scores are `float64` in the source; only produced and combined by the
  (external) conjunction scorer, modelled as `Int`.
* `*search.DocumentMatch` is a mutable pooled object; object (pointer)
  identity matters for the `skipReturn` logic and the pool discipline, so
  every match handed out by a child carries a ghost allocation token `tok`
  (a fresh natural number).  Pointer comparison is token comparison, and the
  `DocumentMatchPool` is modelled as the list of tokens that were `Put`.
* Child searchers (leaf term searchers etc.) are outside the excerpt; they
  are modelled from the spec, section 4.1 (Sub-Searcher Contract), as
  cursors over a fixed stream of (id, score) pairs, with optional injected
  failures so that error propagation can be examined.
* Go errors become `Except Nat` (the `Nat` is an opaque error payload);
  a call that fails mid-way still returns the mutated receiver state, as in
  Go, so operations return `result × state` with `result : Except ...`.
-/

/-- One document match handed around between searchers: identifier, score and
a ghost allocation token modelling the identity of the pooled object. -/
structure DocMatch where
  id : Nat
  score : Int
  tok : Nat
deriving DecidableEq

/-- Modelled from the spec, section 4.1: a Sub-Searcher (the leaf searchers
are not part of the excerpt).  It is a cursor over a fixed stream of
(identifier, score) pairs: `pos` counts consumed entries, `exhausted` is set
once a pull has returned end-of-stream, `calls` counts Next/Advance calls and
`failOn = some (k, e)` injects failure `e` on the k-th call.  `minVal` is the
value returned by `Min()` and `closeErr` the result of `Close()`. -/
structure Searcher where
  stream : List (Nat × Int)
  minVal : Nat
  pos : Nat
  exhausted : Bool
  calls : Nat
  failOn : Option (Nat × Nat)
  closeErr : Option Nat
deriving DecidableEq

/-- Identifiers of the fixed stream of a child searcher. -/
def Searcher.ids (c : Searcher) : List Nat :=
  c.stream.map Prod.fst

/-- Whether the next child call is scheduled to fail. -/
def Searcher.failsNow (c : Searcher) : Bool :=
  match c.failOn with
  | some ke => c.calls + 1 = ke.1
  | none => false

/-- Error payload of the scheduled failure. -/
def Searcher.failCode (c : Searcher) : Nat :=
  match c.failOn with
  | some ke => ke.2
  | none => 0

/-- Modelled from the spec, section 4.1: `next()` advances past the current
position and returns the next match in increasing identifier order, or
end-of-stream; calling `next` after end keeps returning end. -/
def Searcher.Next (c : Searcher) (tok : Nat) :
    Except Nat (Option DocMatch) × Searcher × Nat :=
  let c1 : Searcher := { c with calls := c.calls + 1 }
  if c.failsNow then (.error c.failCode, c1, tok)
  else
    match c.stream[c.pos]? with
    | some e => (.ok (some ⟨e.1, e.2, tok⟩), { c1 with pos := c.pos + 1 }, tok + 1)
    | none => (.ok none, { c1 with exhausted := true }, tok)

/-- Linear scan used by `Searcher.Advance`: first entry of `l` (which is the
suffix of the stream starting at index `idx`) whose identifier is at least
`t`, together with its absolute index. -/
def seekList : List (Nat × Int) → Nat → Nat → Option ((Nat × Int) × Nat)
  | [], _, _ => none
  | e :: rest, t, idx =>
    if t ≤ e.1 then some (e, idx) else seekList rest t (idx + 1)

/-- Modelled from the spec, section 4.1: `advance(target)` skips forward to
the first match with identifier at least `target`; if the cursor is already
positioned at or past `target` it returns the current position without
consuming it (a fresh match object at the same entry). After end-of-stream it
keeps returning end. -/
def Searcher.Advance (c : Searcher) (t : Nat) (tok : Nat) :
    Except Nat (Option DocMatch) × Searcher × Nat :=
  let c1 : Searcher := { c with calls := c.calls + 1 }
  if c.failsNow then (.error c.failCode, c1, tok)
  else if c.exhausted then (.ok none, c1, tok)
  else
    match c.stream[c.pos - 1]? with
    | some e =>
      if 0 < c.pos ∧ t ≤ e.1 then
        (.ok (some ⟨e.1, e.2, tok⟩), c1, tok + 1)
      else
        match seekList (c.stream.drop c.pos) t c.pos with
        | some ej =>
            (.ok (some ⟨ej.1.1, ej.1.2, tok⟩), { c1 with pos := ej.2 + 1 }, tok + 1)
        | none =>
            (.ok none, { c1 with pos := c.stream.length, exhausted := true }, tok)
    | none =>
        match seekList (c.stream.drop c.pos) t c.pos with
        | some ej =>
            (.ok (some ⟨ej.1.1, ej.1.2, tok⟩), { c1 with pos := ej.2 + 1 }, tok + 1)
        | none =>
            (.ok none, { c1 with pos := c.stream.length, exhausted := true }, tok)

/-- Modelled from the spec, section 4.3: the Conjunction Scorer
(`search/scorers`, not under src) combines the constituent matches of one
identifier into one aggregate match.  Per section 4.2 the returned composed
match is the driving match itself (it is protected from recycling through
`skipReturn`), so the result reuses the identifier and the allocation token
of the first constituent; the combined score is a deterministic combination
of the constituent scores, modelled as their sum. -/
def scorerScore (cons : List DocMatch) : DocMatch :=
  match cons with
  | c0 :: _ => { id := c0.id, score := (cons.map DocMatch.score).sum, tok := c0.tok }
  | [] => { id := 0, score := 0, tok := 0 }

/-- State of `BooleanSearcher` (search_boolean.go lines 20-34) plus the parts
of the per-query `SearchContext` it uses: `pool` is the list of tokens given
to `ctx.DocumentMatchPool.Put`, `nextTok` the ghost allocation counter.
`inited` is the `initialized` flag of the source. -/
structure BooleanSearcher where
  mustSearcher : Option Searcher
  shouldSearcher : Option Searcher
  mustNotSearcher : Option Searcher
  currMust : Option DocMatch
  currShould : Option DocMatch
  currMustNot : Option DocMatch
  currentID : Option Nat
  inited : Bool
  pool : List Nat
  nextTok : Nat
deriving DecidableEq

/-- A scored result handed to the caller, together with the constituent list
that was passed to the conjunction scorer for it. -/
abbrev ScoredEmit := DocMatch × List DocMatch

/-- The `ctx.DocumentMatchPool.Put` calls of the source, instrumented on the
ghost tokens.  The pool (search/pool.go, outside the excerpt) ignores a nil
put; in the source every put site except the ones in `advanceNextMust` is
guarded by a nil check anyway. -/
def BooleanSearcher.putPool (s : BooleanSearcher) (m : Option DocMatch) :
    BooleanSearcher :=
  match m with
  | some dm => { s with pool := s.pool ++ [dm.tok] }
  | none => s

/-- Go pointer comparison `curr == skipReturn` between two possibly-nil
document matches, on the ghost tokens. -/
def sameObj : Option DocMatch → Option DocMatch → Bool
  | some a, some b => a.tok == b.tok
  | none, none => true
  | _, _ => false

/-- Recomputation of `currentID` from the driving clause (source lines
104-110, 137-143 and 319-325): the must match drives when a must searcher
exists, else the should match drives, else the stream is exhausted. -/
def BooleanSearcher.recomputeCurrentID (s : BooleanSearcher) : BooleanSearcher :=
  match s.mustSearcher, s.currMust with
  | some _, some m => { s with currentID := some m.id }
  | some _, none => { s with currentID := none }
  | none, _ =>
    match s.currShould with
    | some m => { s with currentID := some m.id }
    | none => { s with currentID := none }

/-- `BooleanSearcher.advanceNextMust` (source lines 116-145): pull the next
match of the driving clause, recycling the superseded match unless it is the
one being returned to the caller (`skipReturn`), then recompute `currentID`.
On a child error the source returns before the recomputation, with the
driving current-match field overwritten by the nil the child returned. -/
def BooleanSearcher.advanceNextMust (s : BooleanSearcher)
    (skipReturn : Option DocMatch) : Option Nat × BooleanSearcher :=
  match s.mustSearcher with
  | some c =>
    let s1 := if sameObj s.currMust skipReturn then s else s.putPool s.currMust
    let r := c.Next s1.nextTok
    let s2 := { s1 with mustSearcher := some r.2.1, nextTok := r.2.2 }
    match r.1 with
    | .error e => (some e, { s2 with currMust := none })
    | .ok m => (none, BooleanSearcher.recomputeCurrentID { s2 with currMust := m })
  | none =>
    match s.shouldSearcher with
    | some c =>
      let s1 := if sameObj s.currShould skipReturn then s else s.putPool s.currShould
      let r := c.Next s1.nextTok
      let s2 := { s1 with shouldSearcher := some r.2.1, nextTok := r.2.2 }
      match r.1 with
      | .error e => (some e, { s2 with currShould := none })
      | .ok m => (none, BooleanSearcher.recomputeCurrentID { s2 with currShould := m })
    | none =>
      -- Unreachable from Next/Advance: the loop runs only with a driving
      -- clause present.  The source would dereference a nil shouldSearcher.
      (none, { s with currentID := none })

/-- Must part of `initSearchers` (source lines 74-82). -/
def BooleanSearcher.initMust (s : BooleanSearcher) : Option Nat × BooleanSearcher :=
  match s.mustSearcher with
  | some c =>
    let s1 := if s.currMust.isSome then s.putPool s.currMust else s
    let r := c.Next s1.nextTok
    let s2 := { s1 with mustSearcher := some r.2.1, nextTok := r.2.2 }
    match r.1 with
    | .error e => (some e, { s2 with currMust := none })
    | .ok m => (none, { s2 with currMust := m })
  | none => (none, s)

/-- Should part of `initSearchers` (source lines 84-92). -/
def BooleanSearcher.initShould (s : BooleanSearcher) : Option Nat × BooleanSearcher :=
  match s.shouldSearcher with
  | some c =>
    let s1 := if s.currShould.isSome then s.putPool s.currShould else s
    let r := c.Next s1.nextTok
    let s2 := { s1 with shouldSearcher := some r.2.1, nextTok := r.2.2 }
    match r.1 with
    | .error e => (some e, { s2 with currShould := none })
    | .ok m => (none, { s2 with currShould := m })
  | none => (none, s)

/-- MustNot part of `initSearchers` (source lines 94-102). -/
def BooleanSearcher.initMustNot (s : BooleanSearcher) : Option Nat × BooleanSearcher :=
  match s.mustNotSearcher with
  | some c =>
    let s1 := if s.currMustNot.isSome then s.putPool s.currMustNot else s
    let r := c.Next s1.nextTok
    let s2 := { s1 with mustNotSearcher := some r.2.1, nextTok := r.2.2 }
    match r.1 with
    | .error e => (some e, { s2 with currMustNot := none })
    | .ok m => (none, { s2 with currMustNot := m })
  | none => (none, s)

/-- `BooleanSearcher.initSearchers` (source lines 71-114): pull one match
from each present child, then compute the driving identifier and set the
initialized flag.  On a child error the function returns early, leaving the
flag unset. -/
def BooleanSearcher.initSearchers (s : BooleanSearcher) : Option Nat × BooleanSearcher :=
  match s.initMust with
  | (some e, s1) => (some e, s1)
  | (none, s1) =>
    match s1.initShould with
    | (some e, s2) => (some e, s2)
    | (none, s2) =>
      match s2.initMustNot with
      | (some e, s3) => (some e, s3)
      | (none, s3) => (none, { s3.recomputeCurrentID with inited := true })

/-- Result of the exclusion check of one loop iteration. -/
inductive MNRes where
  | veto
  | clear
  | fail (e : Nat)
deriving DecidableEq

/-- Exclusion check (source lines 181-205): if the must-not match is behind
the candidate, advance it to the candidate; the candidate is vetoed exactly
when the (possibly advanced) must-not match equals it. -/
def BooleanSearcher.mustNotCheck (s : BooleanSearcher) (d : Nat) :
    MNRes × BooleanSearcher :=
  match s.currMustNot with
  | some mn =>
    if mn.id < d then
      let s1 := s.putPool (some mn)
      match s.mustNotSearcher with
      | some c =>
        let r := c.Advance d s1.nextTok
        let s2 := { s1 with mustNotSearcher := some r.2.1, nextTok := r.2.2 }
        match r.1 with
        | .error e => (.fail e, { s2 with currMustNot := none })
        | .ok m =>
          let s3 := { s2 with currMustNot := m }
          match m with
          | some mn2 => if mn2.id = d then (.veto, s3) else (.clear, s3)
          | none => (.clear, s3)
      | none =>
        -- Unreachable: currMustNot is only ever set from mustNotSearcher.
        (.clear, s1)
    else if mn.id = d then (.veto, s)
    else (.clear, s)
  | none => (.clear, s)

/-- Result of one iteration of the Next loop body. -/
inductive StepRes where
  | emit (m : DocMatch) (cons : List DocMatch)
  | cont
  | fail (e : Nat)
deriving DecidableEq

/-- Score the constituents and advance the driving clause, protecting the
returned composed match from recycling (source lines 227-231 and analogues).
On an error from `advanceNextMust` the composed result is dropped and the
error returned, as in the source. -/
def BooleanSearcher.scoreAndAdvance (s : BooleanSearcher) (cons : List DocMatch) :
    StepRes × BooleanSearcher :=
  let rv := scorerScore cons
  match s.advanceNextMust (some rv) with
  | (some e, s1) => (.fail e, s1)
  | (none, s1) => (.emit rv cons, s1)

/-- Constituent list for a bonus (should-aligned) emission: the must match
and the should match when a must clause exists, else the should match alone
(source lines 218-226 and 246-254). -/
def consFor (currMust : Option DocMatch) (sh : DocMatch) : List DocMatch :=
  match currMust with
  | some m => [m, sh]
  | none => [sh]

/-- Emission on the must clause alone (source lines 233-242 and 261-270):
`cons[0] = s.currMust`.  With no must clause this branch is unreachable (the
candidate would equal the should match); the source would hand a nil
constituent to the scorer. -/
def BooleanSearcher.mustOnly (s : BooleanSearcher) : StepRes × BooleanSearcher :=
  match s.currMust with
  | some m => s.scoreAndAdvance [m]
  | none => (.cont, s)

/-- Should alignment and emission decision (source lines 207-271).  Returns
`cont` exactly when the candidate fails to qualify and control falls through
to line 273. -/
def BooleanSearcher.shouldPart (s : BooleanSearcher) (d : Nat) :
    StepRes × BooleanSearcher :=
  match s.currShould with
  | some sh =>
    if sh.id < d then
      let s1 := s.putPool (some sh)
      match s.shouldSearcher with
      | some c =>
        let r := c.Advance d s1.nextTok
        let s2 := { s1 with shouldSearcher := some r.2.1, nextTok := r.2.2 }
        match r.1 with
        | .error e => (.fail e, { s2 with currShould := none })
        | .ok m =>
          let s3 := { s2 with currShould := m }
          match m with
          | some sh2 =>
            if sh2.id = d then s3.scoreAndAdvance (consFor s3.currMust sh2)
            else if r.2.1.minVal = 0 then s3.mustOnly
            else (.cont, s3)
          | none =>
            if r.2.1.minVal = 0 then s3.mustOnly
            else (.cont, s3)
      | none =>
        -- Unreachable: currShould is only ever set from shouldSearcher.
        (.cont, s1)
    else if sh.id = d then
      s.scoreAndAdvance (consFor s.currMust sh)
    else
      match s.shouldSearcher with
      | some c => if c.minVal = 0 then s.mustOnly else (.cont, s)
      | none => s.mustOnly
  | none =>
    match s.shouldSearcher with
    | some c => if c.minVal = 0 then s.mustOnly else (.cont, s)
    | none => s.mustOnly

/-- One iteration of the Next loop body (source lines 181-276) for candidate
`d`: exclusion check, then veto-advance or the should part, with the
fall-through `advanceNextMust` of line 273 on a non-qualifying candidate. -/
def BooleanSearcher.nextBody (s : BooleanSearcher) (d : Nat) :
    StepRes × BooleanSearcher :=
  match s.mustNotCheck d with
  | (.fail e, s1) => (.fail e, s1)
  | (.veto, s1) =>
    match s1.advanceNextMust none with
    | (some e, s2) => (.fail e, s2)
    | (none, s2) => (.cont, s2)
  | (.clear, s1) =>
    match s1.shouldPart d with
    | (.fail e, s2) => (.fail e, s2)
    | (.emit m cons, s2) => (.emit m cons, s2)
    | (.cont, s2) =>
      match s2.advanceNextMust none with
      | (some e, s3) => (.fail e, s3)
      | (none, s3) => (.cont, s3)

/-- Termination measure of the Next loop: it is zero on an exhausted stream
and otherwise bounds the number of remaining iterations by the unconsumed
part of the driving stream. -/
def BooleanSearcher.loopMeasure (s : BooleanSearcher) : Nat :=
  match s.currentID with
  | none => 0
  | some _ =>
    1 + (match s.mustSearcher with
      | some c => c.stream.length - c.pos
      | none =>
        match s.shouldSearcher with
        | some c => c.stream.length - c.pos
        | none => 0)

/-- The `for s.currentID != nil` loop of `Next` (source lines 180-277),
written with explicit fuel so that it stays structurally recursive; fuel
`loopMeasure` is always sufficient (the zero-fuel fallback coincides with
the exhausted case). -/
def BooleanSearcher.nextLoop :
    Nat → BooleanSearcher → Except Nat (Option ScoredEmit) × BooleanSearcher
  | 0, s => (.ok none, s)
  | fuel + 1, s =>
    match s.currentID with
    | none => (.ok none, s)
    | some d =>
      match s.nextBody d with
      | (.fail e, s1) => (.error e, s1)
      | (.emit m cons, s1) => (.ok (some (m, cons)), s1)
      | (.cont, s1) => BooleanSearcher.nextLoop fuel s1

/-- `BooleanSearcher.Next` (source lines 168-279): lazy initialization, then
the merge-join loop until a qualifying candidate is emitted or the driving
stream is exhausted. -/
def BooleanSearcher.Next (s : BooleanSearcher) :
    Except Nat (Option ScoredEmit) × BooleanSearcher :=
  if s.inited then BooleanSearcher.nextLoop s.loopMeasure s
  else
    match s.initSearchers with
    | (some e, s1) => (.error e, s1)
    | (none, s1) => BooleanSearcher.nextLoop s1.loopMeasure s1

/-- Must part of `Advance` (source lines 291-299). -/
def BooleanSearcher.advMust (s : BooleanSearcher) (t : Nat) :
    Option Nat × BooleanSearcher :=
  match s.mustSearcher with
  | some c =>
    let s1 := if s.currMust.isSome then s.putPool s.currMust else s
    let r := c.Advance t s1.nextTok
    let s2 := { s1 with mustSearcher := some r.2.1, nextTok := r.2.2 }
    match r.1 with
    | .error e => (some e, { s2 with currMust := none })
    | .ok m => (none, { s2 with currMust := m })
  | none => (none, s)

/-- Should part of `Advance` (source lines 300-308). -/
def BooleanSearcher.advShould (s : BooleanSearcher) (t : Nat) :
    Option Nat × BooleanSearcher :=
  match s.shouldSearcher with
  | some c =>
    let s1 := if s.currShould.isSome then s.putPool s.currShould else s
    let r := c.Advance t s1.nextTok
    let s2 := { s1 with shouldSearcher := some r.2.1, nextTok := r.2.2 }
    match r.1 with
    | .error e => (some e, { s2 with currShould := none })
    | .ok m => (none, { s2 with currShould := m })
  | none => (none, s)

/-- MustNot part of `Advance` (source lines 309-317). -/
def BooleanSearcher.advMustNot (s : BooleanSearcher) (t : Nat) :
    Option Nat × BooleanSearcher :=
  match s.mustNotSearcher with
  | some c =>
    let s1 := if s.currMustNot.isSome then s.putPool s.currMustNot else s
    let r := c.Advance t s1.nextTok
    let s2 := { s1 with mustNotSearcher := some r.2.1, nextTok := r.2.2 }
    match r.1 with
    | .error e => (some e, { s2 with currMustNot := none })
    | .ok m => (none, { s2 with currMustNot := m })
  | none => (none, s)

/-- `BooleanSearcher.Advance` (source lines 281-328): initialize if needed,
reposition every present child at `t`, recompute the driving identifier and
delegate to `Next`. -/
def BooleanSearcher.Advance (s : BooleanSearcher) (t : Nat) :
    Except Nat (Option ScoredEmit) × BooleanSearcher :=
  match (if s.inited then (none, s) else s.initSearchers) with
  | (some e, s1) => (.error e, s1)
  | (none, s1) =>
    match s1.advMust t with
    | (some e, s2) => (.error e, s2)
    | (none, s2) =>
      match s2.advShould t with
      | (some e, s3) => (.error e, s3)
      | (none, s3) =>
        match s3.advMustNot t with
        | (some e, s4) => (.error e, s4)
        | (none, s4) => s4.recomputeCurrentID.Next

/-- `BooleanSearcher.Min` (source lines 365-367): always zero, whatever the
children report. -/
def BooleanSearcher.Min (_ : BooleanSearcher) : Nat := 0

/-- Clause tags used to record which children `Close` reached. -/
inductive Clause where
  | must
  | should
  | mustNot
deriving DecidableEq

/-- `BooleanSearcher.Close` (source lines 343-363): close must, then should,
then must-not, returning at the first child error without closing the later
children.  The returned list records, in order, the children whose `Close`
was invoked. -/
def BooleanSearcher.Close (s : BooleanSearcher) : Option Nat × List Clause :=
  match s.mustSearcher with
  | some c =>
    match c.closeErr with
    | some e => (some e, [Clause.must])
    | none =>
      match s.shouldSearcher with
      | some c2 =>
        match c2.closeErr with
        | some e => (some e, [Clause.must, Clause.should])
        | none =>
          match s.mustNotSearcher with
          | some c3 =>
            match c3.closeErr with
            | some e => (some e, [Clause.must, Clause.should, Clause.mustNot])
            | none => (none, [Clause.must, Clause.should, Clause.mustNot])
          | none => (none, [Clause.must, Clause.should])
      | none =>
        match s.mustNotSearcher with
        | some c3 =>
          match c3.closeErr with
          | some e => (some e, [Clause.must, Clause.mustNot])
          | none => (none, [Clause.must, Clause.mustNot])
        | none => (none, [Clause.must])
  | none =>
    match s.shouldSearcher with
    | some c2 =>
      match c2.closeErr with
      | some e => (some e, [Clause.should])
      | none =>
        match s.mustNotSearcher with
        | some c3 =>
          match c3.closeErr with
          | some e => (some e, [Clause.should, Clause.mustNot])
          | none => (none, [Clause.should, Clause.mustNot])
        | none => (none, [Clause.should])
    | none =>
      match s.mustNotSearcher with
      | some c3 =>
        match c3.closeErr with
        | some e => (some e, [Clause.mustNot])
        | none => (none, [Clause.mustNot])
      | none => (none, [])

/-- Length of the driving stream, used to size iteration fuel. -/
def BooleanSearcher.driveLen (s : BooleanSearcher) : Nat :=
  match s.mustSearcher with
  | some c => c.stream.length
  | none =>
    match s.shouldSearcher with
    | some c => c.stream.length
    | none => 0

/-- Repeated `Next` collecting the emitted results, stopping at end-of-stream
or on an error; the final state is returned alongside. -/
def BooleanSearcher.runFrom :
    Nat → BooleanSearcher → List ScoredEmit × BooleanSearcher
  | 0, s => ([], s)
  | fuel + 1, s =>
    match s.Next with
    | (.ok (some r), s1) =>
      let rs := BooleanSearcher.runFrom fuel s1
      (r :: rs.1, rs.2)
    | (.ok none, s1) => ([], s1)
    | (.error _, s1) => ([], s1)

/-- Full iteration of the searcher to exhaustion (fuel `driveLen + 2` always
suffices: each emission consumes one entry of the driving stream). -/
def BooleanSearcher.runAll (s : BooleanSearcher) :
    List ScoredEmit × BooleanSearcher :=
  BooleanSearcher.runFrom (s.driveLen + 2) s

/-- Repeated `Next` until a result with identifier at least `x` is returned
(that result is the value), or end-of-stream / error. -/
def BooleanSearcher.nextUntil :
    Nat → BooleanSearcher → Nat → Except Nat (Option ScoredEmit) × BooleanSearcher
  | 0, s, _ => (.ok none, s)
  | fuel + 1, s, x =>
    match s.Next with
    | (.ok (some r), s1) =>
      if x ≤ r.1.id then (.ok (some r), s1)
      else BooleanSearcher.nextUntil fuel s1 x
    | (.ok none, s1) => (.ok none, s1)
    | (.error e, s1) => (.error e, s1)

/-- A freshly constructed boolean searcher over the given children
(`NewBooleanSearcher`, source lines 36-48, minus the scoring plumbing which
is modelled separately). -/
def mkSearcher (mc sc nc : Option Searcher) : BooleanSearcher :=
  { mustSearcher := mc, shouldSearcher := sc, mustNotSearcher := nc,
    currMust := none, currShould := none, currMustNot := none,
    currentID := none, inited := false, pool := [], nextTok := 0 }

/-- A fresh child cursor over a fixed stream. -/
def mkChild (stream : List (Nat × Int)) (minVal : Nat) : Searcher :=
  { stream := stream, minVal := minVal, pos := 0, exhausted := false,
    calls := 0, failOn := none, closeErr := none }

/-! ## Functional specification layer

The merge-join is characterized against pure functions of the fixed child
streams: the driving candidates, the veto test, the should gate and the
composed score. -/

/-- Whether `d` is in the must-not stream (false when that clause is
absent). -/
def mustNotMemB (s : BooleanSearcher) (d : Nat) : Bool :=
  match s.mustNotSearcher with
  | some c => decide (d ∈ c.ids)
  | none => false

/-- The should gate: an absent should clause, a should match at `d`, or a
zero minimum lets the candidate through. -/
def gateB (s : BooleanSearcher) (d : Nat) : Bool :=
  match s.shouldSearcher with
  | some c => decide (d ∈ c.ids) || decide (c.minVal = 0)
  | none => true

/-- A driving candidate qualifies when it is not vetoed and passes the
should gate. -/
def passB (s : BooleanSearcher) (d : Nat) : Bool :=
  !mustNotMemB s d && gateB s d

/-- The driving candidates still ahead of the cursor: the current driving
identifier followed by the unconsumed driving stream. -/
def candList (s : BooleanSearcher) : List Nat :=
  match s.currentID with
  | none => []
  | some d =>
    d :: (match s.mustSearcher with
      | some c => c.ids.drop c.pos
      | none =>
        match s.shouldSearcher with
        | some c => c.ids.drop c.pos
        | none => [])

/-- Identifiers the searcher will emit from this state on, per the
specification. -/
def specOut (s : BooleanSearcher) : List Nat :=
  (candList s).filter (passB s)

/-- Score attached to identifier `d` in a fixed stream (0 when absent). -/
def scoreOf (l : List (Nat × Int)) (d : Nat) : Int :=
  match l.find? (fun e => e.1 == d) with
  | some e => e.2
  | none => 0

/-- The constituent (identifier, score) pairs the scorer receives for an
emission at `d`: must and should when the should stream matches, otherwise
the driving clause alone. -/
def specCons (s : BooleanSearcher) (d : Nat) : List (Nat × Int) :=
  match s.mustSearcher, s.shouldSearcher with
  | some mc, some c =>
    if d ∈ c.ids then [(d, scoreOf mc.stream d), (d, scoreOf c.stream d)]
    else [(d, scoreOf mc.stream d)]
  | some mc, none => [(d, scoreOf mc.stream d)]
  | none, some c => [(d, scoreOf c.stream d)]
  | none, none => []

/-- Composed score of an emission at `d`. -/
def specScore (s : BooleanSearcher) (d : Nat) : Int :=
  ((specCons s d).map Prod.snd).sum

/-! ## Invariants -/

/-- Well-formed child: strictly increasing identifiers, no injected
failures, cursor within bounds, exhausted only at the end. -/
def Searcher.Wfc (c : Searcher) : Prop :=
  c.ids.Pairwise (· < ·) ∧ c.failOn = none ∧ c.pos ≤ c.stream.length ∧
    (c.exhausted = true → c.pos = c.stream.length)

/-- Fresh well-formed child: cursor at the start. -/
def Searcher.Fresh (c : Searcher) : Prop :=
  c.ids.Pairwise (· < ·) ∧ c.failOn = none ∧ c.pos = 0 ∧ c.exhausted = false

/-- Consistency of a current-match field with its child cursor: absent child
means no match; an exhausted pull means the flag is set; a live match is the
entry just before the cursor. -/
def CurOK : Option Searcher → Option DocMatch → Prop
  | none, cur => cur = none
  | some c, none => c.exhausted = true
  | some c, some m =>
      0 < c.pos ∧ c.stream[c.pos - 1]? = some (m.id, m.score) ∧
        c.exhausted = false

/-- Number of stream entries definitively consumed (skipped past, rather
than held in the current match). -/
def spent (c : Searcher) (cur : Option DocMatch) : Nat :=
  if cur.isSome then c.pos - 1 else c.pos

/-- All definitively consumed entries are below `d`. -/
def belowAll (c : Searcher) (cur : Option DocMatch) (d : Nat) : Prop :=
  ∀ k, k < spent c cur → ∀ e, c.stream[k]? = some e → e.1 < d

/-- Current match of the driving clause. -/
def driveCur (s : BooleanSearcher) : Option DocMatch :=
  match s.mustSearcher with
  | some _ => s.currMust
  | none => s.currShould

/-- Reachable-state invariant of an initialized boolean searcher over
well-formed, non-failing children. -/
structure BInv (s : BooleanSearcher) : Prop where
  inited : s.inited = true
  wfMust : ∀ c, s.mustSearcher = some c → c.Wfc
  wfShould : ∀ c, s.shouldSearcher = some c → c.Wfc
  wfMustNot : ∀ c, s.mustNotSearcher = some c → c.Wfc
  curMust : CurOK s.mustSearcher s.currMust
  curShould : CurOK s.shouldSearcher s.currShould
  curMustNot : CurOK s.mustNotSearcher s.currMustNot
  cid : s.currentID = (driveCur s).map DocMatch.id
  belowShould : ∀ d, s.currentID = some d → ∀ c, s.shouldSearcher = some c →
      belowAll c s.currShould d
  belowMustNot : ∀ d, s.currentID = some d → ∀ c, s.mustNotSearcher = some c →
      belowAll c s.currMustNot d

/-- Ghost tokens of the matches currently held live in the cursor fields. -/
def liveToks (s : BooleanSearcher) : List Nat :=
  (s.currMust.map DocMatch.tok).toList ++ (s.currShould.map DocMatch.tok).toList ++
    (s.currMustNot.map DocMatch.tok).toList

/-- Pool accounting: given the tokens `emitted` to the caller so far, every
allocated token is exactly once in the pool, emitted, or held live. -/
def acct (s : BooleanSearcher) (emitted : List Nat) : Prop :=
  (s.pool ++ emitted ++ liveToks s).Perm (List.range s.nextTok)

/-- Configuration of a child searcher: everything except the mutable cursor
state. -/
def Searcher.cfg (c : Searcher) : List (Nat × Int) × Nat × Option (Nat × Nat) × Option Nat :=
  (c.stream, c.minVal, c.failOn, c.closeErr)

/-- Two boolean-searcher states with the same children configurations. -/
def cfgEq (s s' : BooleanSearcher) : Prop :=
  s'.mustSearcher.map Searcher.cfg = s.mustSearcher.map Searcher.cfg ∧
  s'.shouldSearcher.map Searcher.cfg = s.shouldSearcher.map Searcher.cfg ∧
  s'.mustNotSearcher.map Searcher.cfg = s.mustNotSearcher.map Searcher.cfg

/-! ## Child-searcher lemmas -/

theorem Searcher.next_of_some {c : Searcher} (hf : c.failOn = none) {e : Nat × Int}
    (he : c.stream[c.pos]? = some e) (tok : Nat) :
    c.Next tok = (.ok (some ⟨e.1, e.2, tok⟩),
      { c with calls := c.calls + 1, pos := c.pos + 1 }, tok + 1) := by
  simp [Searcher.Next, Searcher.failsNow, hf, he]

theorem Searcher.next_of_none {c : Searcher} (hf : c.failOn = none)
    (he : c.stream[c.pos]? = none) (tok : Nat) :
    c.Next tok = (.ok none, { c with calls := c.calls + 1, exhausted := true }, tok) := by
  simp [Searcher.Next, Searcher.failsNow, hf, he]

theorem seekList_none (t : Nat) :
    ∀ (l : List (Nat × Int)) (idx : Nat), seekList l t idx = none →
      ∀ (k : Nat) (e : Nat × Int), l[k]? = some e → e.1 < t := by
  intro l
  induction l with
  | nil => intro idx h k e hk; simp at hk
  | cons hd tl ih =>
    intro idx h k e hk
    by_cases hle : t ≤ hd.1
    · simp [seekList, hle] at h
    · simp only [seekList, if_neg hle] at h
      cases k with
      | zero =>
        simp only [List.getElem?_cons_zero, Option.some.injEq] at hk
        subst hk; omega
      | succ k => exact ih (idx + 1) h k e (by simpa using hk)

theorem seekList_some (t : Nat) {ej : (Nat × Int) × Nat} :
    ∀ (l : List (Nat × Int)) (idx : Nat), seekList l t idx = some ej →
    idx ≤ ej.2 ∧ l[ej.2 - idx]? = some ej.1 ∧ t ≤ ej.1.1 ∧
      ∀ k, k < ej.2 - idx → ∀ e, l[k]? = some e → e.1 < t := by
  intro l
  induction l with
  | nil => intro idx h; simp [seekList] at h
  | cons hd tl ih =>
    intro idx h
    by_cases hle : t ≤ hd.1
    · simp only [seekList, if_pos hle, Option.some.injEq] at h
      subst h
      refine ⟨le_refl _, ?_, hle, ?_⟩ <;> simp
    · simp only [seekList, if_neg hle] at h
      obtain ⟨h1, h2, h3, h4⟩ := ih (idx + 1) h
      refine ⟨by omega, ?_, h3, ?_⟩
      · have hidx : ej.2 - idx = (ej.2 - (idx + 1)) + 1 := by omega
        rw [hidx]
        simpa using h2
      · intro k hk e hke
        cases k with
        | zero =>
          simp only [List.getElem?_cons_zero, Option.some.injEq] at hke
          subst hke; omega
        | succ k =>
          refine h4 k (by omega) e (by simpa using hke)

theorem Searcher.advance_exhausted {c : Searcher} (hf : c.failOn = none)
    (hx : c.exhausted = true) (t tok : Nat) :
    c.Advance t tok = (.ok none, { c with calls := c.calls + 1 }, tok) := by
  simp [Searcher.Advance, Searcher.failsNow, hf, hx]

theorem Searcher.advance_clamp {c : Searcher} (hf : c.failOn = none)
    (hx : c.exhausted = false) {e : Nat × Int}
    (he : c.stream[c.pos - 1]? = some e) (hpos : 0 < c.pos) {t : Nat}
    (ht : t ≤ e.1) (tok : Nat) :
    c.Advance t tok = (.ok (some ⟨e.1, e.2, tok⟩),
      { c with calls := c.calls + 1 }, tok + 1) := by
  simp [Searcher.Advance, Searcher.failsNow, hf, hx, he, hpos, ht]

theorem Searcher.advance_seek_some {c : Searcher} {t : Nat} (hf : c.failOn = none)
    (hx : c.exhausted = false)
    (h : ∀ e, c.stream[c.pos - 1]? = some e → e.1 < t)
    {ej : (Nat × Int) × Nat}
    (hs : seekList (c.stream.drop c.pos) t c.pos = some ej) (tok : Nat) :
    c.Advance t tok = (.ok (some ⟨ej.1.1, ej.1.2, tok⟩),
      { c with calls := c.calls + 1, pos := ej.2 + 1 }, tok + 1) := by
  unfold Searcher.Advance
  simp only [Searcher.failsNow, hf, hx]
  match hme : c.stream[c.pos - 1]? with
  | some e =>
    have hnc : ¬(0 < c.pos ∧ t ≤ e.1) := by
      rintro ⟨-, hte⟩
      exact absurd hte (by simpa using (h e hme).not_le)
    simp [hme, hnc, hs]
  | none => simp [hme, hs]

theorem Searcher.advance_seek_none {c : Searcher} {t : Nat} (hf : c.failOn = none)
    (hx : c.exhausted = false)
    (h : ∀ e, c.stream[c.pos - 1]? = some e → e.1 < t)
    (hs : seekList (c.stream.drop c.pos) t c.pos = none) (tok : Nat) :
    c.Advance t tok = (.ok none,
      { c with calls := c.calls + 1, pos := c.stream.length, exhausted := true },
      tok) := by
  unfold Searcher.Advance
  simp only [Searcher.failsNow, hf, hx]
  match hme : c.stream[c.pos - 1]? with
  | some e =>
    have hnc : ¬(0 < c.pos ∧ t ≤ e.1) := by
      rintro ⟨-, hte⟩
      exact absurd hte (by simpa using (h e hme).not_le)
    simp [hme, hnc, hs]
  | none => simp [hme, hs]

/-! ## Sorted-stream helpers -/

theorem mem_ids_iff {c : Searcher} {d : Nat} :
    d ∈ c.ids ↔ ∃ (k : Nat) (e : Nat × Int), c.stream[k]? = some e ∧ e.1 = d := by
  constructor
  · intro h
    obtain ⟨k, hk, hval⟩ := List.getElem_of_mem h
    have hk2 : k < c.stream.length := by simpa [Searcher.ids] using hk
    refine ⟨k, c.stream.get ⟨k, hk2⟩, ?_, ?_⟩
    · exact List.getElem?_eq_getElem hk2
    · simpa [Searcher.ids] using hval
  · rintro ⟨k, e, hk, rfl⟩
    have hmem : e ∈ c.stream := List.getElem?_mem hk
    exact List.mem_map_of_mem Prod.fst hmem

theorem sorted_entry_lt {c : Searcher} (hs : c.ids.Pairwise (· < ·))
    {i j : Nat} (hij : i < j) {e1 e2 : Nat × Int}
    (h1 : c.stream[i]? = some e1) (h2 : c.stream[j]? = some e2) :
    e1.1 < e2.1 := by
  rw [List.pairwise_iff_getElem] at hs
  have hi : i < c.stream.length := (List.getElem?_eq_some.mp h1).1
  have hj : j < c.stream.length := (List.getElem?_eq_some.mp h2).1
  have := hs i j (by simpa [Searcher.ids] using hi) (by simpa [Searcher.ids] using hj) hij
  have e1v : c.stream[i] = e1 := by
    have := List.getElem?_eq_some.mp h1
    exact this.2
  have e2v : c.stream[j] = e2 := (List.getElem?_eq_some.mp h2).2
  simpa [Searcher.ids, e1v, e2v] using this

theorem find_eq_of_sorted :
    ∀ (l : List (Nat × Int)), (l.map Prod.fst).Pairwise (· < ·) →
      ∀ (k : Nat) (d : Nat) (sc : Int), l[k]? = some (d, sc) →
        l.find? (fun e => e.1 == d) = some (d, sc) := by
  intro l
  induction l with
  | nil => intro _ k d sc h; simp at h
  | cons hd tl ih =>
    intro hp k d sc h
    rcases List.pairwise_cons.mp hp with ⟨hhd, htl⟩
    by_cases hde : hd.1 = d
    · cases k with
      | zero =>
        simp only [List.getElem?_cons_zero, Option.some.injEq] at h
        subst h
        simp
      | succ k =>
        exfalso
        have hmem : (d, sc) ∈ tl := List.getElem?_mem (by simpa using h)
        have : hd.1 < d := hhd d (by simpa using List.mem_map_of_mem Prod.fst hmem)
        omega
    · cases k with
      | zero =>
        simp only [List.getElem?_cons_zero, Option.some.injEq] at h
        rw [h] at hde
        simp at hde
      | succ k =>
        rw [List.find?_cons_of_neg _ (by simpa using hde)]
        exact ih htl k d sc (by simpa using h)

/-- Entries of a sorted stream before a cursor that sits above `d`, together
with everything past the cursor, cannot contain `d`: `d` is not in the
stream at all. -/
theorem not_mem_of_cursor_gt {c : Searcher} (hs : c.ids.Pairwise (· < ·))
    {e : Nat × Int} (he : c.stream[c.pos - 1]? = some e) {d : Nat}
    (hb : ∀ k, k < c.pos - 1 → ∀ e2, c.stream[k]? = some e2 → e2.1 < d)
    (hgt : d < e.1) : d ∉ c.ids := by
  rw [mem_ids_iff]
  rintro ⟨k, e2, hk, rfl⟩
  rcases lt_trichotomy k (c.pos - 1) with hlt | heq | hgt2
  · exact absurd (hb k hlt e2 hk) (by omega)
  · subst heq
    rw [hk] at he
    cases he
    omega
  · have := sorted_entry_lt hs hgt2 he hk
    omega

theorem belowAll_mono {c : Searcher} {cur : Option DocMatch} {d d2 : Nat}
    (h : belowAll c cur d) (hd : d ≤ d2) : belowAll c cur d2 := by
  intro k hk e he
  exact lt_of_lt_of_le (h k hk e he) hd

/-- Advancing a well-formed child cursor to a candidate `d` strictly above
its current match: the resulting match (if any) is the first stream entry at
or past `d`, it detects membership of `d` exactly, and every definitively
consumed entry stays below `d`. -/
theorem Searcher.align {c : Searcher} {m : DocMatch} {d : Nat}
    (hwf : c.Wfc) (hcur : CurOK (some c) (some m))
    (hbelow : belowAll c (some m) d) (hlt : m.id < d) (tok : Nat) :
    ∃ (cur2 : Option DocMatch) (c2 : Searcher) (tok2 : Nat),
      c.Advance d tok = (.ok cur2, c2, tok2) ∧
      c2.stream = c.stream ∧ c2.minVal = c.minVal ∧ c2.failOn = c.failOn ∧
      c2.closeErr = c.closeErr ∧ c.pos ≤ c2.pos ∧
      c2.Wfc ∧ CurOK (some c2) cur2 ∧ belowAll c2 cur2 d ∧
      (∀ m2, cur2 = some m2 → d ≤ m2.id ∧ (m2.id = d ↔ d ∈ c.ids) ∧
          (m2.id = d → m2.score = scoreOf c.stream d) ∧ m2.tok = tok) ∧
      (cur2 = none → d ∉ c.ids) ∧
      tok2 = (if cur2.isSome then tok + 1 else tok) := by
  obtain ⟨hsort, hfail, hposle, hexh⟩ := hwf
  obtain ⟨hpos, hent, hx⟩ := hcur
  have hlt1 : ∀ e, c.stream[c.pos - 1]? = some e → e.1 < d := by
    intro e he
    rw [hent] at he
    cases he
    exact hlt
  match hseek : seekList (c.stream.drop c.pos) d c.pos with
  | some ej =>
    obtain ⟨hij, hget, hge, hskip⟩ := seekList_some d _ _ hseek
    rw [List.getElem?_drop] at hget
    have hgetabs : c.stream[ej.2]? = some ej.1 := by
      rwa [Nat.add_sub_cancel' hij] at hget
    have hejlen : ej.2 < c.stream.length := (List.getElem?_eq_some.mp hgetabs).1
    have hskipabs : ∀ k, c.pos ≤ k → k < ej.2 → ∀ e, c.stream[k]? = some e → e.1 < d := by
      intro k h1 h2 e he
      refine hskip (k - c.pos) (by omega) e ?_
      rw [List.getElem?_drop, Nat.add_sub_cancel' h1]
      exact he
    have hbelow2 : belowAll { c with calls := c.calls + 1, pos := ej.2 + 1 }
        (some ⟨ej.1.1, ej.1.2, tok⟩) d := by
      intro k hk e he
      simp [spent] at hk
      simp only at he
      rcases lt_trichotomy k (c.pos - 1) with h1 | h1 | h1
      · exact hbelow k (by simpa [spent] using h1) e he
      · subst h1
        exact hlt1 e he
      · exact hskipabs k (by omega) (by omega) e he
    refine ⟨some ⟨ej.1.1, ej.1.2, tok⟩,
      { c with calls := c.calls + 1, pos := ej.2 + 1 }, tok + 1,
      Searcher.advance_seek_some hfail hx hlt1 hseek tok, rfl, rfl, rfl, rfl,
      by show c.pos ≤ ej.2 + 1; omega, ?_, ?_, hbelow2, ?_, by simp, by simp⟩
    · refine ⟨hsort, hfail, ?_, ?_⟩
      · show ej.2 + 1 ≤ c.stream.length
        omega
      · intro hcx
        exact absurd hcx (by simp [hx])
    · refine ⟨by show 0 < ej.2 + 1; omega, ?_, hx⟩
      simpa using hgetabs
    · rintro m2 hm2
      cases hm2
      refine ⟨hge, ⟨?_, ?_⟩, ?_, rfl⟩
      · intro hid
        rw [mem_ids_iff]
        exact ⟨ej.2, ej.1, hgetabs, hid⟩
      · intro hmem
        rcases mem_ids_iff.mp hmem with ⟨k, e, hk, rfl⟩
        by_contra hne
        have hkj : ej.2 < k := by
          rcases lt_trichotomy k ej.2 with h1 | h1 | h1
          · rcases lt_trichotomy k (c.pos - 1) with h2 | h2 | h2
            · exact absurd (hbelow k (by simpa [spent] using h2) e hk) (by omega)
            · subst h2
              rw [hk] at hent
              cases hent
              omega
            · exact absurd (hskipabs k (by omega) h1 e hk) (by omega)
          · subst h1
            rw [hk] at hgetabs
            cases hgetabs
            simp at hne
          · exact h1
        have := sorted_entry_lt hsort hkj hgetabs hk
        omega
      · intro hid
        have hid2 : ej.1.1 = d := hid
        have hgd : c.stream[ej.2]? = some (d, ej.1.2) := by
          rw [← hid2]
          simpa using hgetabs
        have hfind := find_eq_of_sorted c.stream hsort ej.2 d ej.1.2 hgd
        simp [scoreOf, hfind]
  | none =>
    have hall : ∀ (k : Nat) (e : Nat × Int), (c.stream.drop c.pos)[k]? = some e → e.1 < d :=
      seekList_none d _ _ hseek
    have hallabs : ∀ k, c.pos ≤ k → ∀ e, c.stream[k]? = some e → e.1 < d := by
      intro k h1 e he
      refine hall (k - c.pos) e ?_
      rw [List.getElem?_drop, Nat.add_sub_cancel' h1]
      exact he
    have hbelow2 : belowAll
        { c with calls := c.calls + 1, pos := c.stream.length, exhausted := true }
        none d := by
      intro k hk e he
      simp [spent] at hk
      simp only at he
      rcases lt_trichotomy k (c.pos - 1) with h1 | h1 | h1
      · exact hbelow k (by simpa [spent] using h1) e he
      · subst h1
        exact hlt1 e he
      · exact hallabs k (by omega) e he
    refine ⟨none,
      { c with calls := c.calls + 1, pos := c.stream.length, exhausted := true },
      tok,
      Searcher.advance_seek_none hfail hx hlt1 hseek tok, rfl, rfl, rfl, rfl,
      by show c.pos ≤ c.stream.length; omega, ?_, by simp [CurOK], hbelow2,
      by simp, ?_, by simp⟩
    · exact ⟨hsort, hfail, by simp, by simp⟩
    · intro _
      rw [mem_ids_iff]
      rintro ⟨k, e, hk, rfl⟩
      rcases lt_trichotomy k (c.pos - 1) with h1 | h1 | h1
      · exact absurd (hbelow k (by simpa [spent] using h1) e hk) (by omega)
      · subst h1
        rw [hk] at hent
        cases hent
        omega
      · exact absurd (hallabs k (by omega) e hk) (by omega)

/-! ## advanceNextMust characterization -/

theorem advanceNextMust_must_some {s : BooleanSearcher} {c : Searcher}
    {m : DocMatch} (hms : s.mustSearcher = some c) (hcm : s.currMust = some m)
    (hf : c.failOn = none) {e : Nat × Int} (he : c.stream[c.pos]? = some e)
    (sk : Option DocMatch) :
    s.advanceNextMust sk = (none,
      { s with
          mustSearcher := some { c with calls := c.calls + 1, pos := c.pos + 1 }
          currMust := some ⟨e.1, e.2, s.nextTok⟩
          currentID := some e.1
          pool := if sameObj (some m) sk then s.pool else s.pool ++ [m.tok]
          nextTok := s.nextTok + 1 }) := by
  by_cases hso : sameObj (some m) sk
  · simp only [BooleanSearcher.advanceNextMust, hms, hcm, hso, if_true,
      Searcher.next_of_some hf he, BooleanSearcher.recomputeCurrentID]
  · simp only [BooleanSearcher.advanceNextMust, hms, hcm, hso, if_false,
      Bool.false_eq_true, BooleanSearcher.putPool,
      Searcher.next_of_some hf he, BooleanSearcher.recomputeCurrentID]

theorem advanceNextMust_must_none {s : BooleanSearcher} {c : Searcher}
    {m : DocMatch} (hms : s.mustSearcher = some c) (hcm : s.currMust = some m)
    (hf : c.failOn = none) (he : c.stream[c.pos]? = none)
    (sk : Option DocMatch) :
    s.advanceNextMust sk = (none,
      { s with
          mustSearcher := some { c with calls := c.calls + 1, exhausted := true }
          currMust := none
          currentID := none
          pool := if sameObj (some m) sk then s.pool else s.pool ++ [m.tok] }) := by
  by_cases hso : sameObj (some m) sk
  · simp only [BooleanSearcher.advanceNextMust, hms, hcm, hso, if_true,
      Searcher.next_of_none hf he, BooleanSearcher.recomputeCurrentID]
  · simp only [BooleanSearcher.advanceNextMust, hms, hcm, hso, if_false,
      Bool.false_eq_true, BooleanSearcher.putPool,
      Searcher.next_of_none hf he, BooleanSearcher.recomputeCurrentID]

theorem advanceNextMust_should_some {s : BooleanSearcher} {c : Searcher}
    {m : DocMatch} (hms : s.mustSearcher = none)
    (hss : s.shouldSearcher = some c) (hcm : s.currShould = some m)
    (hf : c.failOn = none) {e : Nat × Int} (he : c.stream[c.pos]? = some e)
    (sk : Option DocMatch) :
    s.advanceNextMust sk = (none,
      { s with
          shouldSearcher := some { c with calls := c.calls + 1, pos := c.pos + 1 }
          currShould := some ⟨e.1, e.2, s.nextTok⟩
          currentID := some e.1
          pool := if sameObj (some m) sk then s.pool else s.pool ++ [m.tok]
          nextTok := s.nextTok + 1 }) := by
  by_cases hso : sameObj (some m) sk
  · simp only [BooleanSearcher.advanceNextMust, hms, hss, hcm, hso, if_true,
      Searcher.next_of_some hf he, BooleanSearcher.recomputeCurrentID]
  · simp only [BooleanSearcher.advanceNextMust, hms, hss, hcm, hso, if_false,
      Bool.false_eq_true, BooleanSearcher.putPool,
      Searcher.next_of_some hf he, BooleanSearcher.recomputeCurrentID]

theorem advanceNextMust_should_none {s : BooleanSearcher} {c : Searcher}
    {m : DocMatch} (hms : s.mustSearcher = none)
    (hss : s.shouldSearcher = some c) (hcm : s.currShould = some m)
    (hf : c.failOn = none) (he : c.stream[c.pos]? = none)
    (sk : Option DocMatch) :
    s.advanceNextMust sk = (none,
      { s with
          shouldSearcher := some { c with calls := c.calls + 1, exhausted := true }
          currShould := none
          currentID := none
          pool := if sameObj (some m) sk then s.pool else s.pool ++ [m.tok] }) := by
  by_cases hso : sameObj (some m) sk
  · simp only [BooleanSearcher.advanceNextMust, hms, hss, hcm, hso, if_true,
      Searcher.next_of_none hf he, BooleanSearcher.recomputeCurrentID]
  · simp only [BooleanSearcher.advanceNextMust, hms, hss, hcm, hso, if_false,
      Bool.false_eq_true, BooleanSearcher.putPool,
      Searcher.next_of_none hf he, BooleanSearcher.recomputeCurrentID]

/-! ## Exclusion-check phase -/

theorem mustNotCheck_spec {s : BooleanSearcher} {d : Nat} (hinv : BInv s)
    (hd : s.currentID = some d) :
    ∃ s', s.mustNotCheck d =
        ((if mustNotMemB s d then MNRes.veto else MNRes.clear), s') ∧
      s'.mustSearcher = s.mustSearcher ∧ s'.shouldSearcher = s.shouldSearcher ∧
      s'.currMust = s.currMust ∧ s'.currShould = s.currShould ∧
      s'.currentID = s.currentID ∧ s'.inited = s.inited ∧
      s'.mustNotSearcher.map Searcher.cfg = s.mustNotSearcher.map Searcher.cfg ∧
      (∀ c2, s'.mustNotSearcher = some c2 → c2.Wfc) ∧
      CurOK s'.mustNotSearcher s'.currMustNot ∧
      (∀ c2, s'.mustNotSearcher = some c2 → belowAll c2 s'.currMustNot d) ∧
      (∀ E, acct s E → acct s' E) := by
  match hmn : s.currMustNot with
  | none =>
    refine ⟨s, ?_, rfl, rfl, rfl, rfl, rfl, rfl, rfl,
      fun c2 h => hinv.wfMustNot c2 h, hmn ▸ hinv.curMustNot,
      fun c2 h => hmn ▸ hinv.belowMustNot d hd c2 h, fun E h => h⟩
    have hmem : mustNotMemB s d = false := by
      unfold mustNotMemB
      match hns : s.mustNotSearcher with
      | none => rfl
      | some c =>
        have hcur := hinv.curMustNot
        rw [hns, hmn] at hcur
        have hwf := hinv.wfMustNot c hns
        obtain ⟨hsort, hfail, hple, hexh⟩ := hwf
        have hplen : c.pos = c.stream.length := hexh hcur
        have hbel := hinv.belowMustNot d hd c hns
        rw [hmn] at hbel
        simp only [decide_eq_false_iff_not]
        rw [mem_ids_iff]
        rintro ⟨k, e, hk, rfl⟩
        have hklen : k < c.stream.length := (List.getElem?_eq_some.mp hk).1
        have := hbel k (by simp [spent]; omega) e hk
        omega
    rw [hmem]
    simp [BooleanSearcher.mustNotCheck, hmn]
  | some mn =>
    have hcur := hinv.curMustNot
    match hns : s.mustNotSearcher with
    | none =>
      rw [hns, hmn] at hcur
      exact absurd hcur (by simp [CurOK])
    | some c =>
      rw [hns, hmn] at hcur
      obtain ⟨hpos, hent, hx⟩ := hcur
      have hwf := hinv.wfMustNot c hns
      have hbel : belowAll c (some mn) d := by
        have := hinv.belowMustNot d hd c hns
        rwa [hmn] at this
      have hmemid : mn.id ∈ c.ids := mem_ids_iff.mpr ⟨c.pos - 1, _, hent, rfl⟩
      rcases lt_trichotomy mn.id d with h1 | h1 | h1
      · -- advance the must-not searcher to the candidate
        obtain ⟨cur2, c2, tok2, hadv, hstr, hmin, hfl, hcl, hposle, hwf2, hcur2,
          hbel2, hsome2, hnone2, htok2⟩ :=
          Searcher.align hwf (by exact ⟨hpos, hent, hx⟩) hbel h1 s.nextTok
        have hmemIff : mustNotMemB s d = decide (d ∈ c.ids) := by
          unfold mustNotMemB
          rw [hns]
        refine ⟨{ s with
            mustNotSearcher := some c2
            currMustNot := cur2
            pool := s.pool ++ [mn.tok]
            nextTok := tok2 }, ?_, rfl, rfl, rfl, rfl, rfl, rfl, ?_, ?_, ?_, ?_, ?_⟩
        · simp only [BooleanSearcher.mustNotCheck, hmn, h1, if_true,
            BooleanSearcher.putPool, hns]
          show (match (c.Advance d s.nextTok).1 with
            | Except.error e => _
            | Except.ok m => _) = _
          rw [hadv]
          match hcu : cur2 with
          | some mn2 =>
            simp only
            by_cases hid : mn2.id = d
            · have : d ∈ c.ids := ((hsome2 mn2 rfl).2.1).mp hid
              rw [hmemIff]
              simp [this, hid]
            · have : ¬(d ∈ c.ids) := by
                intro hmem
                exact hid (((hsome2 mn2 rfl).2.1).mpr hmem)
              rw [hmemIff]
              simp [this, hid]
          | none =>
            have : ¬(d ∈ c.ids) := hnone2 rfl
            rw [hmemIff]
            simp [this]
        · simp [hns, Searcher.cfg, hstr, hmin, hfl, hcl]
        · rintro c2x hc2x
          cases hc2x
          exact hwf2
        · exact hcur2
        · rintro c2x hc2x
          cases hc2x
          exact hbel2
        · intro E hacct
          unfold acct liveToks at hacct ⊢
          rw [List.perm_iff_count] at hacct ⊢
          intro a
          have hc := hacct a
          match hcu : cur2 with
          | some mn2 =>
            have htk : mn2.tok = s.nextTok := (hsome2 mn2 rfl).2.2.2
            simp only [Option.isSome_some, if_true] at htok2
            subst htok2
            simp [hmn, htk, List.range_succ, List.count_append,
              List.count_cons] at hc ⊢
            omega
          | none =>
            simp only [Option.isSome_none, Bool.false_eq_true, if_false] at htok2
            subst htok2
            simp [hmn, List.count_append, List.count_cons] at hc ⊢
            omega
      · -- the must-not match already equals the candidate: veto
        have hmem : mustNotMemB s d = true := by
          unfold mustNotMemB
          rw [hns]
          simpa using h1 ▸ hmemid
        refine ⟨s, ?_, rfl, rfl, rfl, rfl, rfl, rfl, ?_, ?_, ?_, ?_, fun E h => h⟩
        · rw [hmem]
          simp [BooleanSearcher.mustNotCheck, hmn, h1]
        · rw [hns]
        · intro c2 h
          exact hinv.wfMustNot c2 h
        · rw [hns, hmn]
          exact ⟨hpos, hent, hx⟩
        · intro c2 h
          have hb2 := hinv.belowMustNot d hd c2 h
          rw [hmn] at hb2 ⊢
          exact hb2
      · -- the must-not match is past the candidate: clear
        have hmem : mustNotMemB s d = false := by
          unfold mustNotMemB
          rw [hns]
          simp only [decide_eq_false_iff_not]
          refine not_mem_of_cursor_gt hwf.1 hent ?_ h1
          intro k hk e2 hke
          exact hbel k (by simp [spent]; omega) e2 hke
        have hn1 : ¬ mn.id < d := by omega
        have hn2 : ¬ mn.id = d := by omega
        refine ⟨s, ?_, rfl, rfl, rfl, rfl, rfl, rfl, ?_, ?_, ?_, ?_, fun E h => h⟩
        · rw [hmem]
          simp [BooleanSearcher.mustNotCheck, hmn, hn1, hn2]
        · rw [hns]
        · intro c2 h
          exact hinv.wfMustNot c2 h
        · rw [hns, hmn]
          exact ⟨hpos, hent, hx⟩
        · intro c2 h
          have hb2 := hinv.belowMustNot d hd c2 h
          rw [hmn] at hb2 ⊢
          exact hb2

/-! ## Driving-clause advance phase -/

theorem driveCur_must {s : BooleanSearcher} {c : Searcher}
    (hms : s.mustSearcher = some c) : driveCur s = s.currMust := by
  unfold driveCur
  rw [hms]

theorem driveCur_none {s : BooleanSearcher}
    (hms : s.mustSearcher = none) : driveCur s = s.currShould := by
  unfold driveCur
  rw [hms]

theorem cid_drive {s : BooleanSearcher} (hinv : BInv s) {d : Nat}
    (hd : s.currentID = some d) :
    ∃ m0, driveCur s = some m0 ∧ m0.id = d := by
  have hc := hinv.cid
  rw [hd] at hc
  match hdc : driveCur s with
  | some m0 =>
    rw [hdc] at hc
    simp at hc
    exact ⟨m0, rfl, by omega⟩
  | none =>
    rw [hdc] at hc
    simp at hc

theorem advanceDriving_spec {s1 : BooleanSearcher} {d : Nat} (hinv : BInv s1)
    (hd : s1.currentID = some d) (sk : Option DocMatch) :
    ∃ m0 s', driveCur s1 = some m0 ∧ m0.id = d ∧
      s1.advanceNextMust sk = (none, s') ∧ BInv s' ∧ cfgEq s1 s' ∧
      candList s' = (candList s1).tail ∧
      (sameObj (some m0) sk = true → ∀ E, acct s1 E → acct s' (E ++ [m0.tok])) ∧
      (sameObj (some m0) sk = false → ∀ E, acct s1 E → acct s' E) := by
  obtain ⟨m0, hdrv, hm0⟩ := cid_drive hinv hd
  refine ⟨m0, ?_⟩
  match hms : s1.mustSearcher with
  | some c =>
    have hcm : s1.currMust = some m0 := by rw [← driveCur_must hms]; exact hdrv
    obtain ⟨hsort, hfail, hple, hexh⟩ := hinv.wfMust c hms
    have hcur := hinv.curMust
    rw [hms, hcm] at hcur
    obtain ⟨hpos, hent, hx⟩ := hcur
    match he : c.stream[c.pos]? with
    | some e =>
      have helen : c.pos < c.stream.length := (List.getElem?_eq_some.mp he).1
      have hlt : d < e.1 := by
        have := sorted_entry_lt hsort (by omega : c.pos - 1 < c.pos) hent he
        omega
      refine ⟨_, hdrv, hm0, advanceNextMust_must_some hms hcm hfail he sk,
        ?_, ?_, ?_, ?_, ?_⟩
      · refine
          { inited := hinv.inited
            cid := rfl
            wfMust := ?_
            wfShould := fun c2 h => hinv.wfShould c2 h
            wfMustNot := fun c2 h => hinv.wfMustNot c2 h
            curMust := ?_
            curShould := hinv.curShould
            curMustNot := hinv.curMustNot
            belowShould := ?_
            belowMustNot := ?_ }
        · rintro c2 hc2
          cases hc2
          exact ⟨hsort, hfail, by simp; omega, by simp [hx]⟩
        · exact ⟨by simp, by simpa using he, hx⟩
        · rintro d2 hd2 c2 hc2
          simp only [Option.some.injEq] at hd2
          subst hd2
          exact belowAll_mono (hinv.belowShould d hd c2 hc2) (by omega)
        · rintro d2 hd2 c2 hc2
          simp only [Option.some.injEq] at hd2
          subst hd2
          exact belowAll_mono (hinv.belowMustNot d hd c2 hc2) (by omega)
      · exact ⟨by simp [Searcher.cfg, hms], rfl, rfl⟩
      · have hidlen : c.pos < c.ids.length := by simpa [Searcher.ids] using helen
        have hig : c.ids[c.pos]? = some e.1 := by
          simp [Searcher.ids, List.getElem?_map, he]
        have higv : c.ids[c.pos] = e.1 := (List.getElem?_eq_some.mp hig).2
        have hdrop : c.ids.drop c.pos = e.1 :: c.ids.drop (c.pos + 1) := by
          rw [← List.getElem_cons_drop c.ids c.pos hidlen, higv]
        simp only [candList, hd, hms, List.tail_cons]
        rw [hdrop]
        simp [Searcher.ids]
      · intro hso E hacct
        unfold acct liveToks at hacct ⊢
        rw [List.perm_iff_count] at hacct ⊢
        intro a
        have hc := hacct a
        rw [hcm] at hc
        simp [hso, List.range_succ, List.count_append, List.count_cons] at hc ⊢
        omega
      · intro hso E hacct
        unfold acct liveToks at hacct ⊢
        rw [List.perm_iff_count] at hacct ⊢
        intro a
        have hc := hacct a
        rw [hcm] at hc
        simp [hso, List.range_succ, List.count_append, List.count_cons] at hc ⊢
        omega
    | none =>
      have helen : c.stream.length ≤ c.pos := by
        by_contra hcon
        push_neg at hcon
        rw [List.getElem?_eq_getElem hcon] at he
        cases he
      refine ⟨_, hdrv, hm0, advanceNextMust_must_none hms hcm hfail he sk,
        ?_, ?_, ?_, ?_, ?_⟩
      · refine
          { inited := hinv.inited
            cid := rfl
            wfMust := ?_
            wfShould := fun c2 h => hinv.wfShould c2 h
            wfMustNot := fun c2 h => hinv.wfMustNot c2 h
            curMust := ?_
            curShould := hinv.curShould
            curMustNot := hinv.curMustNot
            belowShould := ?_
            belowMustNot := ?_ }
        · rintro c2 hc2
          cases hc2
          exact ⟨hsort, hfail, by simpa using hple, by simp; omega⟩
        · show CurOK (some _) none
          simp [CurOK]
        · rintro d2 hd2 c2 hc2; cases hd2
        · rintro d2 hd2 c2 hc2; cases hd2
      · exact ⟨by simp [Searcher.cfg, hms], rfl, rfl⟩
      · simp only [candList, hd, hms, List.tail_cons]
        rw [List.drop_eq_nil_of_le (by simpa [Searcher.ids] using helen)]
      · intro hso E hacct
        unfold acct liveToks at hacct ⊢
        rw [List.perm_iff_count] at hacct ⊢
        intro a
        have hc := hacct a
        rw [hcm] at hc
        simp [hso, List.count_append, List.count_cons] at hc ⊢
        omega
      · intro hso E hacct
        unfold acct liveToks at hacct ⊢
        rw [List.perm_iff_count] at hacct ⊢
        intro a
        have hc := hacct a
        rw [hcm] at hc
        simp [hso, List.count_append, List.count_cons] at hc ⊢
        omega
  | none =>
    have hcm : s1.currShould = some m0 := by rw [← driveCur_none hms]; exact hdrv
    have hcurM : s1.currMust = none := by
      have := hinv.curMust
      rw [hms] at this
      exact this
    match hss : s1.shouldSearcher with
    | none =>
      have hcur := hinv.curShould
      rw [hss, hcm] at hcur
      exact absurd hcur (by simp [CurOK])
    | some c =>
      obtain ⟨hsort, hfail, hple, hexh⟩ := hinv.wfShould c hss
      have hcur := hinv.curShould
      rw [hss, hcm] at hcur
      obtain ⟨hpos, hent, hx⟩ := hcur
      match he : c.stream[c.pos]? with
      | some e =>
        have helen : c.pos < c.stream.length := (List.getElem?_eq_some.mp he).1
        have hlt : d < e.1 := by
          have := sorted_entry_lt hsort (by omega : c.pos - 1 < c.pos) hent he
          omega
        refine ⟨_, hdrv, hm0,
          advanceNextMust_should_some hms hss hcm hfail he sk, ?_, ?_, ?_, ?_, ?_⟩
        · refine
            { inited := hinv.inited
              cid := by simp [driveCur, hms]
              wfMust := ?_
              wfShould := ?_
              wfMustNot := fun c2 h => hinv.wfMustNot c2 h
              curMust := ?_
              curShould := ?_
              curMustNot := hinv.curMustNot
              belowShould := ?_
              belowMustNot := ?_ }
          · intro c2 h; rw [hms] at h; cases h
          · rintro c2 hc2
            cases hc2
            exact ⟨hsort, hfail, by simp; omega, by simp [hx]⟩
          · show CurOK s1.mustSearcher s1.currMust
            rw [hms, hcurM]
            rfl
          · exact ⟨by simp, by simpa using he, hx⟩
          · rintro d2 hd2 c2 hc2
            simp only [Option.some.injEq] at hd2
            cases hc2
            intro k hk e2 hke
            simp [spent] at hk
            rcases lt_trichotomy k (c.pos - 1) with h1 | h1 | h1
            · have hb := hinv.belowShould d hd c hss
              rw [hcm] at hb
              have := hb k (by simp [spent]; omega) e2 hke
              omega
            · subst h1
              rw [hke] at hent
              cases hent
              omega
            · omega
          · rintro d2 hd2 c2 hc2
            simp only [Option.some.injEq] at hd2
            subst hd2
            exact belowAll_mono (hinv.belowMustNot d hd c2 hc2) (by omega)
        · exact ⟨rfl, by simp [Searcher.cfg, hss], rfl⟩
        · have hidlen : c.pos < c.ids.length := by simpa [Searcher.ids] using helen
          have hig : c.ids[c.pos]? = some e.1 := by
            simp [Searcher.ids, List.getElem?_map, he]
          have higv : c.ids[c.pos] = e.1 := (List.getElem?_eq_some.mp hig).2
          have hdrop : c.ids.drop c.pos = e.1 :: c.ids.drop (c.pos + 1) := by
            rw [← List.getElem_cons_drop c.ids c.pos hidlen, higv]
          simp only [candList, hd, hms, hss, List.tail_cons]
          rw [hdrop]
          simp [Searcher.ids]
        · intro hso E hacct
          unfold acct liveToks at hacct ⊢
          rw [List.perm_iff_count] at hacct ⊢
          intro a
          have hc := hacct a
          rw [hcm] at hc
          simp [hso, List.range_succ, List.count_append, List.count_cons] at hc ⊢
          omega
        · intro hso E hacct
          unfold acct liveToks at hacct ⊢
          rw [List.perm_iff_count] at hacct ⊢
          intro a
          have hc := hacct a
          rw [hcm] at hc
          simp [hso, List.range_succ, List.count_append, List.count_cons] at hc ⊢
          omega
      | none =>
        have helen : c.stream.length ≤ c.pos := by
          by_contra hcon
          push_neg at hcon
          rw [List.getElem?_eq_getElem hcon] at he
          cases he
        refine ⟨_, hdrv, hm0,
          advanceNextMust_should_none hms hss hcm hfail he sk, ?_, ?_, ?_, ?_, ?_⟩
        · refine
            { inited := hinv.inited
              cid := by simp [driveCur, hms]
              wfMust := ?_
              wfShould := ?_
              wfMustNot := fun c2 h => hinv.wfMustNot c2 h
              curMust := ?_
              curShould := ?_
              curMustNot := hinv.curMustNot
              belowShould := ?_
              belowMustNot := ?_ }
          · intro c2 h; rw [hms] at h; cases h
          · rintro c2 hc2
            cases hc2
            exact ⟨hsort, hfail, by simpa using hple, by simp; omega⟩
          · show CurOK s1.mustSearcher s1.currMust
            rw [hms, hcurM]
            rfl
          · show CurOK (some _) none
            simp [CurOK]
          · rintro d2 hd2 c2 hc2; cases hd2
          · rintro d2 hd2 c2 hc2; cases hd2
        · exact ⟨rfl, by simp [Searcher.cfg, hss], rfl⟩
        · simp only [candList, hd, hms, hss, List.tail_cons]
          rw [List.drop_eq_nil_of_le (by simpa [Searcher.ids] using helen)]
        · intro hso E hacct
          unfold acct liveToks at hacct ⊢
          rw [List.perm_iff_count] at hacct ⊢
          intro a
          have hc := hacct a
          rw [hcm] at hc
          simp [hso, List.count_append, List.count_cons] at hc ⊢
          omega
        · intro hso E hacct
          unfold acct liveToks at hacct ⊢
          rw [List.perm_iff_count] at hacct ⊢
          intro a
          have hc := hacct a
          rw [hcm] at hc
          simp [hso, List.count_append, List.count_cons] at hc ⊢
          omega

/-! ## Configuration congruence helpers -/

theorem cfg_opt_cases {a b : Option Searcher}
    (h : a.map Searcher.cfg = b.map Searcher.cfg) :
    (a = none ∧ b = none) ∨
      (∃ ca cb, a = some ca ∧ b = some cb ∧ ca.stream = cb.stream ∧
        ca.minVal = cb.minVal ∧ ca.failOn = cb.failOn ∧ ca.closeErr = cb.closeErr) := by
  cases a with
  | none =>
    cases b with
    | none => exact Or.inl ⟨rfl, rfl⟩
    | some cb => simp at h
  | some ca =>
    cases b with
    | none => simp at h
    | some cb =>
      simp only [Option.map_some', Option.some.injEq, Searcher.cfg,
        Prod.mk.injEq] at h
      exact Or.inr ⟨ca, cb, rfl, rfl, h.1, h.2.1, h.2.2.1, h.2.2.2⟩

theorem cfgEq_refl (s : BooleanSearcher) : cfgEq s s := ⟨rfl, rfl, rfl⟩

theorem cfgEq_trans {s1 s2 s3 : BooleanSearcher} (h1 : cfgEq s1 s2)
    (h2 : cfgEq s2 s3) : cfgEq s1 s3 := by
  obtain ⟨a1, b1, c1⟩ := h1
  obtain ⟨a2, b2, c2⟩ := h2
  exact ⟨a2.trans a1, b2.trans b1, c2.trans c1⟩

theorem ids_of_stream_eq {ca cb : Searcher} (h : ca.stream = cb.stream) :
    ca.ids = cb.ids := by
  unfold Searcher.ids
  rw [h]

theorem passB_congr {s s' : BooleanSearcher} (h : cfgEq s s') (d : Nat) :
    passB s' d = passB s d := by
  obtain ⟨hm, hs, hn⟩ := h
  rcases cfg_opt_cases hn with ⟨h1, h2⟩ | ⟨ca, cb, h1, h2, hst, -⟩
  · rcases cfg_opt_cases hs with ⟨g1, g2⟩ | ⟨da, db, g1, g2, gst, gmin, -⟩
    · simp [passB, mustNotMemB, gateB, h1, h2, g1, g2]
    · simp only [passB, mustNotMemB, gateB, h1, h2, g1, g2]
      rw [ids_of_stream_eq gst, gmin]
  · rcases cfg_opt_cases hs with ⟨g1, g2⟩ | ⟨da, db, g1, g2, gst, gmin, -⟩
    · simp only [passB, mustNotMemB, gateB, h1, h2, g1, g2]
      rw [ids_of_stream_eq hst]
    · simp only [passB, mustNotMemB, gateB, h1, h2, g1, g2]
      rw [ids_of_stream_eq hst, ids_of_stream_eq gst, gmin]

theorem specCons_congr {s s' : BooleanSearcher} (h : cfgEq s s') (d : Nat) :
    specCons s' d = specCons s d := by
  obtain ⟨hm, hs, hn⟩ := h
  rcases cfg_opt_cases hm with ⟨h1, h2⟩ | ⟨ca, cb, h1, h2, hst, -⟩
  · rcases cfg_opt_cases hs with ⟨g1, g2⟩ | ⟨da, db, g1, g2, gst, gmin, -⟩
    · simp [specCons, h1, h2, g1, g2]
    · simp only [specCons, h1, h2, g1, g2]
      rw [gst]
  · rcases cfg_opt_cases hs with ⟨g1, g2⟩ | ⟨da, db, g1, g2, gst, gmin, -⟩
    · simp only [specCons, h1, h2, g1, g2]
      rw [hst]
    · simp only [specCons, h1, h2, g1, g2]
      rw [ids_of_stream_eq gst, gst, hst]

theorem specScore_congr {s s' : BooleanSearcher} (h : cfgEq s s') (d : Nat) :
    specScore s' d = specScore s d := by
  unfold specScore
  rw [specCons_congr h]

theorem scoreOf_of_entry {c : Searcher} (hsort : c.ids.Pairwise (· < ·))
    {k : Nat} {d : Nat} {sc : Int} (h : c.stream[k]? = some (d, sc)) :
    scoreOf c.stream d = sc := by
  have := find_eq_of_sorted c.stream hsort k d sc h
  simp [scoreOf, this]

/-! ## Invariant transport helpers -/

theorem driveCur_congr {s s1 : BooleanSearcher}
    (hfm : s1.mustSearcher = s.mustSearcher) (hfcm : s1.currMust = s.currMust)
    (hfcs : s1.currShould = s.currShould) : driveCur s1 = driveCur s := by
  unfold driveCur
  rw [hfm, hfcm, hfcs]

/-- Rebuild the invariant after an operation that only touched the must-not
cursor. -/
theorem BInv_transport_mustNot {s s1 : BooleanSearcher}
    (hfm : s1.mustSearcher = s.mustSearcher)
    (hfs : s1.shouldSearcher = s.shouldSearcher)
    (hfcm : s1.currMust = s.currMust) (hfcs : s1.currShould = s.currShould)
    (hfci : s1.currentID = s.currentID) (hfii : s1.inited = s.inited)
    (hinv : BInv s)
    (hwf1 : ∀ c, s1.mustNotSearcher = some c → c.Wfc)
    (hcur1 : CurOK s1.mustNotSearcher s1.currMustNot)
    (hbel1 : ∀ d2, s1.currentID = some d2 → ∀ c, s1.mustNotSearcher = some c →
      belowAll c s1.currMustNot d2) : BInv s1 := by
  refine
    { inited := by rw [hfii]; exact hinv.inited
      wfMust := fun c h => hinv.wfMust c (by rw [← hfm]; exact h)
      wfShould := fun c h => hinv.wfShould c (by rw [← hfs]; exact h)
      wfMustNot := hwf1
      curMust := by rw [hfm, hfcm]; exact hinv.curMust
      curShould := by rw [hfs, hfcs]; exact hinv.curShould
      curMustNot := hcur1
      cid := by rw [hfci, driveCur_congr hfm hfcm hfcs]; exact hinv.cid
      belowShould := ?_
      belowMustNot := hbel1 }
  intro d2 hd2 c hc
  rw [hfcs]
  refine hinv.belowShould d2 ?_ c ?_
  · rw [← hfci]; exact hd2
  · rw [← hfs]; exact hc

/-- Rebuild the invariant after an operation that only touched the should
cursor, in a state driven by a must clause. -/
theorem BInv_transport_should {s s1 : BooleanSearcher} {cm : Searcher}
    (hmp : s.mustSearcher = some cm)
    (hfm : s1.mustSearcher = s.mustSearcher)
    (hfn : s1.mustNotSearcher = s.mustNotSearcher)
    (hfcm : s1.currMust = s.currMust) (hfcn : s1.currMustNot = s.currMustNot)
    (hfci : s1.currentID = s.currentID) (hfii : s1.inited = s.inited)
    (hinv : BInv s)
    (hwfS : ∀ c, s1.shouldSearcher = some c → c.Wfc)
    (hcurS : CurOK s1.shouldSearcher s1.currShould)
    (hbelS : ∀ d2, s1.currentID = some d2 → ∀ c, s1.shouldSearcher = some c →
      belowAll c s1.currShould d2) : BInv s1 := by
  refine
    { inited := by rw [hfii]; exact hinv.inited
      wfMust := fun c h => hinv.wfMust c (by rw [← hfm]; exact h)
      wfShould := hwfS
      wfMustNot := fun c h => hinv.wfMustNot c (by rw [← hfn]; exact h)
      curMust := by rw [hfm, hfcm]; exact hinv.curMust
      curShould := hcurS
      curMustNot := by rw [hfn, hfcn]; exact hinv.curMustNot
      cid := ?_
      belowShould := hbelS
      belowMustNot := ?_ }
  · rw [hfci, driveCur_must (by rw [hfm, hmp]), hfcm,
      ← driveCur_must hmp]
    exact hinv.cid
  · intro d2 hd2 c hc
    rw [hfcn]
    refine hinv.belowMustNot d2 ?_ c ?_
    · rw [← hfci]; exact hd2
    · rw [← hfn]; exact hc

/-- Scoring a constituent list headed by the driving match and advancing the
driving clause. -/
theorem scoreAndAdvance_spec {s3 : BooleanSearcher} {d : Nat} (hinv : BInv s3)
    (hd3 : s3.currentID = some d) {m0 : DocMatch} (hdrv : driveCur s3 = some m0)
    {cons : List DocMatch} (hhead : cons.head? = some m0) :
    ∃ s', s3.scoreAndAdvance cons = (.emit (scorerScore cons) cons, s') ∧
      BInv s' ∧ cfgEq s3 s' ∧ candList s' = (candList s3).tail ∧
      (∀ E, acct s3 E → acct s' (E ++ [m0.tok])) := by
  obtain ⟨m1, s', hdrv1, hm1, hadv, hinv1, hcfg1, hcand1, hso1, _⟩ :=
    advanceDriving_spec hinv hd3 (some (scorerScore cons))
  rw [hdrv] at hdrv1
  cases hdrv1
  have htokeq : (scorerScore cons).tok = m0.tok := by
    match cons, hhead with
    | m0 :: rest, hhead =>
      simp only [List.head?_cons, Option.some.injEq] at hhead
      subst hhead
      simp [scorerScore]
  have hso : sameObj (some m0) (some (scorerScore cons)) = true := by
    simp [sameObj, htokeq]
  refine ⟨s', ?_, hinv1, hcfg1, hcand1, hso1 hso⟩
  unfold BooleanSearcher.scoreAndAdvance
  simp only [hadv]

/-- Emission of a should-aligned (bonus) candidate from a state whose should
cursor sits exactly on the candidate. -/
theorem bonus_emit_spec {s3 : BooleanSearcher} {d : Nat} (hinv : BInv s3)
    (hd3 : s3.currentID = some d) {sh2 : DocMatch} (hcs3 : s3.currShould = some sh2)
    (hid : sh2.id = d) :
    ∃ m s', s3.scoreAndAdvance (consFor s3.currMust sh2) =
        (.emit m (consFor s3.currMust sh2), s') ∧
      m.id = d ∧ m.score = specScore s3 d ∧
      (consFor s3.currMust sh2).map (fun x => (x.id, x.score)) = specCons s3 d ∧
      BInv s' ∧ cfgEq s3 s' ∧ candList s' = (candList s3).tail ∧
      (∀ E, acct s3 E → acct s' (E ++ [m.tok])) := by
  obtain ⟨cS, hss3⟩ : ∃ c, s3.shouldSearcher = some c := by
    match hss : s3.shouldSearcher with
    | some c => exact ⟨c, rfl⟩
    | none =>
      have := hinv.curShould
      rw [hss, hcs3] at this
      exact absurd this (by simp [CurOK])
  have hcurS := hinv.curShould
  rw [hss3, hcs3] at hcurS
  obtain ⟨hposS, hentS, hxS⟩ := hcurS
  have hsortS := (hinv.wfShould cS hss3).1
  have hmem : d ∈ cS.ids := by
    rw [← hid]
    exact mem_ids_iff.mpr ⟨cS.pos - 1, _, hentS, rfl⟩
  have hentS2 : cS.stream[cS.pos - 1]? = some (d, sh2.score) := by
    rw [← hid]
    exact hentS
  have hscS : scoreOf cS.stream d = sh2.score := scoreOf_of_entry hsortS hentS2
  match hms3 : s3.mustSearcher with
  | some cm =>
    obtain ⟨m0, hdrv, hm0⟩ := cid_drive hinv hd3
    have hcm3 : s3.currMust = some m0 := by rw [← driveCur_must hms3]; exact hdrv
    have hcurM := hinv.curMust
    rw [hms3, hcm3] at hcurM
    obtain ⟨hposM, hentM, hxM⟩ := hcurM
    have hentM2 : cm.stream[cm.pos - 1]? = some (d, m0.score) := by
      rw [← hm0]
      exact hentM
    have hscM : scoreOf cm.stream d = m0.score :=
      scoreOf_of_entry (hinv.wfMust cm hms3).1 hentM2
    have hcons : consFor s3.currMust sh2 = [m0, sh2] := by
      rw [hcm3]
      rfl
    have hhead0 : (consFor s3.currMust sh2).head? = some m0 := by
      rw [hcons]
      rfl
    obtain ⟨s', hsa, hinv1, hcfg1, hcand1, hacct1⟩ :=
      scoreAndAdvance_spec hinv hd3 hdrv hhead0
    refine ⟨scorerScore (consFor s3.currMust sh2), s', hsa, ?_, ?_, ?_,
      hinv1, hcfg1, hcand1, ?_⟩
    · rw [hcons]
      simp [scorerScore, hm0]
    · rw [hcons]
      simp only [specScore, specCons, hms3, hss3, hmem, if_pos]
      simp [scorerScore, hscM, hscS]
    · rw [hcons]
      simp only [specCons, hms3, hss3, hmem, if_pos]
      simp [hm0, hid, hscM, hscS]
    · intro E ha
      have := hacct1 E ha
      have htok : (scorerScore (consFor s3.currMust sh2)).tok = m0.tok := by
        rw [hcons]
        rfl
      rw [htok]
      exact this
  | none =>
    obtain ⟨m0, hdrv, hm0⟩ := cid_drive hinv hd3
    have hcm3 : s3.currShould = some m0 := by rw [← driveCur_none hms3]; exact hdrv
    rw [hcs3] at hcm3
    cases hcm3
    have hcons : consFor s3.currMust sh2 = [sh2] := by
      have hcmn := hinv.curMust
      rw [hms3] at hcmn
      rw [hcmn]
      rfl
    have hhead0 : (consFor s3.currMust sh2).head? = some sh2 := by
      rw [hcons]
      rfl
    obtain ⟨s', hsa, hinv1, hcfg1, hcand1, hacct1⟩ :=
      scoreAndAdvance_spec hinv hd3 hdrv hhead0
    refine ⟨scorerScore (consFor s3.currMust sh2), s', hsa, ?_, ?_, ?_,
      hinv1, hcfg1, hcand1, ?_⟩
    · rw [hcons]
      simp [scorerScore, hid]
    · rw [hcons]
      simp only [specScore, specCons, hms3, hss3]
      simp [scorerScore, hscS]
    · rw [hcons]
      simp only [specCons, hms3, hss3]
      simp [hid, hscS]
    · intro E ha
      have := hacct1 E ha
      have htok : (scorerScore (consFor s3.currMust sh2)).tok = sh2.tok := by
        rw [hcons]
        rfl
      rw [htok]
      exact this

/-- Emission of a candidate on the must clause alone, when the should clause
is absent or optional and does not align. -/
theorem mustOnly_emit_spec {s3 : BooleanSearcher} {d : Nat} (hinv : BInv s3)
    (hd3 : s3.currentID = some d) {cm : Searcher} (hmp : s3.mustSearcher = some cm)
    (hgate : ∀ c, s3.shouldSearcher = some c → d ∉ c.ids) :
    ∃ m0 m s', s3.currMust = some m0 ∧
      s3.mustOnly = (.emit m [m0], s') ∧
      m.id = d ∧ m.score = specScore s3 d ∧
      ([m0].map (fun x => (x.id, x.score))) = specCons s3 d ∧
      m.tok = m0.tok ∧
      BInv s' ∧ cfgEq s3 s' ∧ candList s' = (candList s3).tail ∧
      (∀ E, acct s3 E → acct s' (E ++ [m0.tok])) := by
  obtain ⟨m0, hdrv, hm0⟩ := cid_drive hinv hd3
  have hcm3 : s3.currMust = some m0 := by rw [← driveCur_must hmp]; exact hdrv
  have hcurM := hinv.curMust
  rw [hmp, hcm3] at hcurM
  obtain ⟨hposM, hentM, hxM⟩ := hcurM
  have hentM2 : cm.stream[cm.pos - 1]? = some (d, m0.score) := by
    rw [← hm0]
    exact hentM
  have hscM : scoreOf cm.stream d = m0.score :=
    scoreOf_of_entry (hinv.wfMust cm hmp).1 hentM2
  have hhead0 : ([m0] : List DocMatch).head? = some m0 := rfl
  obtain ⟨s', hsa, hinv1, hcfg1, hcand1, hacct1⟩ :=
    scoreAndAdvance_spec hinv hd3 hdrv hhead0
  refine ⟨m0, scorerScore [m0], s', hcm3, ?_, ?_, ?_, ?_, rfl, hinv1, hcfg1,
    hcand1, hacct1⟩
  · unfold BooleanSearcher.mustOnly
    rw [hcm3]
    exact hsa
  · simp [scorerScore, hm0]
  · match hss : s3.shouldSearcher with
    | some c =>
      have hnm := hgate c hss
      simp only [specScore, specCons, hmp, hss, hnm, if_neg]
      simp [scorerScore, hscM]
    | none =>
      simp only [specScore, specCons, hmp, hss]
      simp [scorerScore, hscM]
  · match hss : s3.shouldSearcher with
    | some c =>
      have hnm := hgate c hss
      simp only [specCons, hmp, hss, hnm, if_neg]
      simp [hm0, hscM]
    | none =>
      simp only [specCons, hmp, hss]
      simp [hm0, hscM]

/-- Definitional reduction of the should-alignment branch (source lines
208-243) once the child advance result is known. -/
theorem shouldPart_adv_eq {s1 : BooleanSearcher} {d : Nat} {sh : DocMatch}
    {c : Searcher} (hcs : s1.currShould = some sh) (hlt : sh.id < d)
    (hss : s1.shouldSearcher = some c) {cur2 : Option DocMatch} {c2 : Searcher}
    {tok2 : Nat} (hadv : c.Advance d s1.nextTok = (.ok cur2, c2, tok2)) :
    s1.shouldPart d =
      (match cur2 with
        | some sh2 =>
          if sh2.id = d then
            BooleanSearcher.scoreAndAdvance
              { s1 with
                  shouldSearcher := some c2
                  currShould := cur2
                  pool := s1.pool ++ [sh.tok]
                  nextTok := tok2 }
              (consFor s1.currMust sh2)
          else if c2.minVal = 0 then
            BooleanSearcher.mustOnly
              { s1 with
                  shouldSearcher := some c2
                  currShould := cur2
                  pool := s1.pool ++ [sh.tok]
                  nextTok := tok2 }
          else (.cont,
            { s1 with
                shouldSearcher := some c2
                currShould := cur2
                pool := s1.pool ++ [sh.tok]
                nextTok := tok2 })
        | none =>
          if c2.minVal = 0 then
            BooleanSearcher.mustOnly
              { s1 with
                  shouldSearcher := some c2
                  currShould := cur2
                  pool := s1.pool ++ [sh.tok]
                  nextTok := tok2 }
          else (.cont,
            { s1 with
                shouldSearcher := some c2
                currShould := cur2
                pool := s1.pool ++ [sh.tok]
                nextTok := tok2 })) := by
  simp only [BooleanSearcher.shouldPart, hcs, hlt, if_true, BooleanSearcher.putPool,
    hss, hadv]
  cases cur2 <;> rfl

/-- One iteration of the Next loop body on a qualifying or non-qualifying
candidate: a candidate that fails the veto or gate is skipped with the
driving clause advanced; a qualifying candidate is emitted with the
specified constituents and score. -/
theorem nextBody_spec {s : BooleanSearcher} {d : Nat} (hinv : BInv s)
    (hd : s.currentID = some d) :
    (passB s d = false → ∃ s4, s.nextBody d = (.cont, s4) ∧ BInv s4 ∧
        cfgEq s s4 ∧ candList s4 = (candList s).tail ∧
        (∀ E, acct s E → acct s4 E)) ∧
    (passB s d = true → ∃ m cons s4, s.nextBody d = (.emit m cons, s4) ∧
        m.id = d ∧ m.score = specScore s d ∧
        cons.map (fun x => (x.id, x.score)) = specCons s d ∧
        BInv s4 ∧ cfgEq s s4 ∧ candList s4 = (candList s).tail ∧
        (∀ E, acct s E → acct s4 (E ++ [m.tok]))) := by
  obtain ⟨s1, hmnc, hfm, hfs, hfcm, hfcs, hfci, hfii, hncfg, hwfN, hcurN, hbelN,
    hacct01⟩ := mustNotCheck_spec hinv hd
  have hd1 : s1.currentID = some d := by rw [hfci]; exact hd
  have hinv1 : BInv s1 :=
    BInv_transport_mustNot hfm hfs hfcm hfcs hfci hfii hinv hwfN hcurN
      (fun d2 hd2 c hc => by
        rw [hd1] at hd2
        injection hd2 with hh
        subst hh
        exact hbelN c hc)
  have hcfg01 : cfgEq s s1 := ⟨by rw [hfm], by rw [hfs], hncfg⟩
  have hcand01 : candList s1 = candList s := by
    unfold candList
    rw [hfci, hfm, hfs]
  cases hmem : mustNotMemB s d with
  | true =>
    have hpf : passB s d = false := by simp [passB, hmem]
    obtain ⟨m0, s2, hdrv, hm0, hadv, hinv2, hcfg2, hcand2, _, hacctF⟩ :=
      advanceDriving_spec hinv1 hd1 none
    constructor
    · intro _
      refine ⟨s2, ?_, hinv2, cfgEq_trans hcfg01 hcfg2,
        by rw [hcand2, hcand01], fun E ha => hacctF rfl E (hacct01 E ha)⟩
      simp only [BooleanSearcher.nextBody, hmnc, hmem, if_true, hadv]
    · intro hpt
      rw [hpf] at hpt
      cases hpt
  | false =>
    have hstep : s.nextBody d = (match s1.shouldPart d with
        | (.fail e, s2) => (.fail e, s2)
        | (.emit m cons, s2) => (.emit m cons, s2)
        | (.cont, s2) =>
          match s2.advanceNextMust none with
          | (some e, s3) => (.fail e, s3)
          | (none, s3) => (.cont, s3)) := by
      simp only [BooleanSearcher.nextBody, hmnc, hmem, Bool.false_eq_true,
        if_false]
    have hpassg : passB s d = gateB s d := by simp [passB, hmem]
    have packCont : ∀ s2 : BooleanSearcher, BInv s2 → s2.currentID = some d →
        cfgEq s1 s2 → candList s2 = candList s1 → (∀ E, acct s1 E → acct s2 E) →
        s1.shouldPart d = (.cont, s2) →
        ∃ s4, s.nextBody d = (.cont, s4) ∧ BInv s4 ∧ cfgEq s s4 ∧
          candList s4 = (candList s).tail ∧ (∀ E, acct s E → acct s4 E) := by
      intro s2 hinv2 hd2 hcfg12 hcand12 hacct12 hsp
      obtain ⟨m0, s4, hdrv, hm0, hadv, hinv4, hcfg4, hcand4, _, hacctF⟩ :=
        advanceDriving_spec hinv2 hd2 none
      refine ⟨s4, ?_, hinv4, cfgEq_trans (cfgEq_trans hcfg01 hcfg12) hcfg4,
        by rw [hcand4, hcand12, hcand01],
        fun E ha => hacctF rfl E (hacct12 E (hacct01 E ha))⟩
      simp only [hstep, hsp, hadv]
    match hcs : s1.currShould with
    | some sh =>
      obtain ⟨cS, hss1⟩ : ∃ c, s1.shouldSearcher = some c := by
        match hss : s1.shouldSearcher with
        | some c => exact ⟨c, rfl⟩
        | none =>
          have := hinv1.curShould
          rw [hss, hcs] at this
          exact absurd this (by simp [CurOK])
      have hssS : s.shouldSearcher = some cS := by rw [← hfs]; exact hss1
      have hcurS := hinv1.curShould
      rw [hss1, hcs] at hcurS
      obtain ⟨hposS, hentS, hxS⟩ := hcurS
      have hwfS := hinv1.wfShould cS hss1
      have hbelS : belowAll cS (some sh) d := by
        have := hinv1.belowShould d hd1 cS hss1
        rwa [hcs] at this
      rcases lt_trichotomy sh.id d with hlt | heq | hgt
      · -- branch A: advance the should cursor to the candidate
        obtain ⟨cm, hmA⟩ : ∃ cm, s1.mustSearcher = some cm := by
          match hms1 : s1.mustSearcher with
          | some cm => exact ⟨cm, rfl⟩
          | none =>
            have hc := hinv1.cid
            rw [hd1, driveCur_none hms1, hcs] at hc
            simp at hc
            omega
        obtain ⟨cur2, c2, tok2, hadvC, hstr2, hmin2, hfl2, hcl2, hposle2, hwf2,
          hcur2, hbel2, hsome2, hnone2, htok2⟩ :=
          Searcher.align hwfS ⟨hposS, hentS, hxS⟩ hbelS hlt s1.nextTok
        have hspA := shouldPart_adv_eq hcs hlt hss1 hadvC
        obtain ⟨s3, hs3def⟩ : ∃ s3 : BooleanSearcher, s3 =
            { s1 with
                shouldSearcher := some c2
                currShould := cur2
                pool := s1.pool ++ [sh.tok]
                nextTok := tok2 } := ⟨_, rfl⟩
        rw [← hs3def] at hspA
        have hd3 : s3.currentID = some d := by rw [hs3def]; exact hd1
        have hmp3 : s3.mustSearcher = some cm := by rw [hs3def]; exact hmA
        have hss3 : s3.shouldSearcher = some c2 := by rw [hs3def]
        have hcs3 : s3.currShould = cur2 := by rw [hs3def]
        have hcm13 : s3.currMust = s1.currMust := by rw [hs3def]
        have hinv3 : BInv s3 :=
          BInv_transport_should hmA (by rw [hs3def]) (by rw [hs3def]) hcm13
            (by rw [hs3def]) (by rw [hs3def]) (by rw [hs3def]) hinv1
            (fun c' hc' => by
              rw [hss3] at hc'
              injection hc' with hh
              subst hh
              exact hwf2)
            (by rw [hss3, hcs3]; exact hcur2)
            (fun d2 hd2 c' hc' => by
              rw [hd3] at hd2
              injection hd2 with hh
              subst hh
              rw [hss3] at hc'
              injection hc' with hh2
              subst hh2
              rw [hcs3]
              exact hbel2)
        have hcfg13 : cfgEq s1 s3 := by
          refine ⟨by rw [hs3def], ?_, by rw [hs3def]⟩
          rw [hs3def]
          show (some c2).map Searcher.cfg = s1.shouldSearcher.map Searcher.cfg
          rw [hss1]
          simp [Searcher.cfg, hstr2, hmin2, hfl2, hcl2]
        have hcand13 : candList s3 = candList s1 := by
          rw [hs3def]
          simp only [candList, hd1, hmA]
        have hacct13 : ∀ E, acct s1 E → acct s3 E := by
          intro E ha
          rw [hs3def]
          unfold acct liveToks at ha ⊢
          rw [List.perm_iff_count] at ha ⊢
          intro a
          have hc := ha a
          rw [hcs] at hc
          match hcu2 : cur2 with
          | some sh2 =>
            have htk : sh2.tok = s1.nextTok := (hsome2 sh2 rfl).2.2.2
            simp only [Option.isSome_some, if_true] at htok2
            rw [htok2]
            simp [htk, List.range_succ, List.count_append,
              List.count_cons] at hc ⊢
            omega
          | none =>
            simp only [Option.isSome_none, Bool.false_eq_true, if_false] at htok2
            rw [htok2]
            simp [List.count_append, List.count_cons] at hc ⊢
            omega
        match hcu2 : cur2 with
        | some sh2 =>
          have hcs3s : s3.currShould = some sh2 := hcs3
          by_cases hid2 : sh2.id = d
          · -- bonus emission after alignment
            have hmemS : d ∈ cS.ids := ((hsome2 sh2 rfl).2.1).mp hid2
            have hgT : gateB s d = true := by simp [gateB, hssS, hmemS]
            have hpt : passB s d = true := by rw [hpassg, hgT]
            obtain ⟨m, s4, hsa, hmid, hmsc, hconsm, hinv4, hcfg4, hcand4,
              hacct4⟩ := bonus_emit_spec hinv3 hd3 hcs3s hid2
            rw [hcm13] at hsa hconsm
            constructor
            · intro hpfX
              rw [hpt] at hpfX
              cases hpfX
            · intro _
              have hcfg03 : cfgEq s s3 := cfgEq_trans hcfg01 hcfg13
              have hspE : s1.shouldPart d =
                  (.emit m (consFor s1.currMust sh2), s4) := by
                rw [hspA]
                simp only [hid2, if_true]
                exact hsa
              refine ⟨m, consFor s1.currMust sh2, s4, ?_, hmid,
                by rw [hmsc, specScore_congr hcfg03],
                by rw [hconsm, specCons_congr hcfg03],
                hinv4, cfgEq_trans hcfg03 hcfg4,
                by rw [hcand4, hcand13, hcand01],
                fun E ha => hacct4 E (hacct13 E (hacct01 E ha))⟩
              simp only [hstep, hspE]
          · have hnmem : d ∉ cS.ids :=
              fun hm => hid2 (((hsome2 sh2 rfl).2.1).mpr hm)
            by_cases hmin0 : c2.minVal = 0
            · have hgT : gateB s d = true := by
                have hcm0 : cS.minVal = 0 := by rw [← hmin2]; exact hmin0
                simp [gateB, hssS, hcm0]
              have hpt : passB s d = true := by rw [hpassg, hgT]
              obtain ⟨m0, m, s4, hcm4, hmo, hmid, hmsc, hconsm, hmtok, hinv4,
                hcfg4, hcand4, hacct4⟩ :=
                mustOnly_emit_spec hinv3 hd3 hmp3
                  (fun c' hc' => by
                    rw [hss3] at hc'
                    injection hc' with hh
                    subst hh
                    rw [ids_of_stream_eq hstr2]
                    exact hnmem)
              constructor
              · intro hpfX
                rw [hpt] at hpfX
                cases hpfX
              · intro _
                have hcfg03 : cfgEq s s3 := cfgEq_trans hcfg01 hcfg13
                have hspE : s1.shouldPart d = (.emit m [m0], s4) := by
                  rw [hspA]
                  simp only [hid2, if_false, hmin0, if_true]
                  exact hmo
                refine ⟨m, [m0], s4, ?_, hmid,
                  by rw [hmsc, specScore_congr hcfg03],
                  by rw [hconsm, specCons_congr hcfg03],
                  hinv4, cfgEq_trans hcfg03 hcfg4,
                  by rw [hcand4, hcand13, hcand01],
                  fun E ha => by
                    rw [hmtok]
                    exact hacct4 E (hacct13 E (hacct01 E ha))⟩
                simp only [hstep, hspE]
            · have hgF : gateB s d = false := by
                have hcm0 : cS.minVal ≠ 0 := by rw [← hmin2]; exact hmin0
                simp [gateB, hssS, hnmem, hcm0]
              have hpf : passB s d = false := by rw [hpassg, hgF]
              constructor
              · intro _
                refine packCont s3 hinv3 hd3 hcfg13 hcand13 hacct13 ?_
                rw [hspA]
                simp only [hid2, if_false, hmin0]
              · intro hpt
                rw [hpf] at hpt
                cases hpt
        | none =>
          have hnmem : d ∉ cS.ids := hnone2 rfl
          by_cases hmin0 : c2.minVal = 0
          · have hgT : gateB s d = true := by
              have hcm0 : cS.minVal = 0 := by rw [← hmin2]; exact hmin0
              simp [gateB, hssS, hcm0]
            have hpt : passB s d = true := by rw [hpassg, hgT]
            obtain ⟨m0, m, s4, hcm4, hmo, hmid, hmsc, hconsm, hmtok, hinv4,
              hcfg4, hcand4, hacct4⟩ :=
              mustOnly_emit_spec hinv3 hd3 hmp3
                (fun c' hc' => by
                  rw [hss3] at hc'
                  injection hc' with hh
                  subst hh
                  rw [ids_of_stream_eq hstr2]
                  exact hnmem)
            constructor
            · intro hpfX
              rw [hpt] at hpfX
              cases hpfX
            · intro _
              have hcfg03 : cfgEq s s3 := cfgEq_trans hcfg01 hcfg13
              have hspE : s1.shouldPart d = (.emit m [m0], s4) := by
                rw [hspA]
                simp only [hmin0, if_true]
                exact hmo
              refine ⟨m, [m0], s4, ?_, hmid,
                by rw [hmsc, specScore_congr hcfg03],
                by rw [hconsm, specCons_congr hcfg03],
                hinv4, cfgEq_trans hcfg03 hcfg4,
                by rw [hcand4, hcand13, hcand01],
                fun E ha => by
                  rw [hmtok]
                  exact hacct4 E (hacct13 E (hacct01 E ha))⟩
              simp only [hstep, hspE]
          · have hgF : gateB s d = false := by
              have hcm0 : cS.minVal ≠ 0 := by rw [← hmin2]; exact hmin0
              simp [gateB, hssS, hnmem, hcm0]
            have hpf : passB s d = false := by rw [hpassg, hgF]
            constructor
            · intro _
              refine packCont s3 hinv3 hd3 hcfg13 hcand13 hacct13 ?_
              rw [hspA]
              simp only [hmin0, if_false]
            · intro hpt
              rw [hpf] at hpt
              cases hpt
      · -- branch B: the should cursor already sits on the candidate
        have hmemS : d ∈ cS.ids := by
          rw [← heq]
          exact mem_ids_iff.mpr ⟨cS.pos - 1, _, hentS, rfl⟩
        have hgT : gateB s d = true := by simp [gateB, hssS, hmemS]
        have hpt : passB s d = true := by rw [hpassg, hgT]
        obtain ⟨m, s4, hsa, hmid, hmsc, hconsm, hinv4, hcfg4, hcand4, hacct4⟩ :=
          bonus_emit_spec hinv1 hd1 hcs heq
        have hnlt : ¬ sh.id < d := by omega
        constructor
        · intro hpfX
          rw [hpt] at hpfX
          cases hpfX
        · intro _
          have hspE : s1.shouldPart d =
              (.emit m (consFor s1.currMust sh), s4) := by
            simp only [BooleanSearcher.shouldPart, hcs]
            rw [if_neg hnlt, if_pos heq]
            exact hsa
          refine ⟨m, consFor s1.currMust sh, s4, ?_, hmid,
            by rw [hmsc, specScore_congr hcfg01],
            by rw [hconsm, specCons_congr hcfg01],
            hinv4, cfgEq_trans hcfg01 hcfg4,
            by rw [hcand4, hcand01],
            fun E ha => hacct4 E (hacct01 E ha)⟩
          simp only [hstep, hspE]
      · -- branch C: the should cursor is past the candidate
        have hnmem : d ∉ cS.ids := by
          refine not_mem_of_cursor_gt hwfS.1 hentS ?_ hgt
          intro k hk e2 hke
          exact hbelS k (by simp [spent]; omega) e2 hke
        obtain ⟨cm, hmA⟩ : ∃ cm, s1.mustSearcher = some cm := by
          match hms1 : s1.mustSearcher with
          | some cm => exact ⟨cm, rfl⟩
          | none =>
            have hc := hinv1.cid
            rw [hd1, driveCur_none hms1, hcs] at hc
            simp at hc
            omega
        have hnlt : ¬ sh.id < d := by omega
        have hneq : ¬ sh.id = d := by omega
        by_cases hmin0 : cS.minVal = 0
        · have hgT : gateB s d = true := by simp [gateB, hssS, hmin0]
          have hpt : passB s d = true := by rw [hpassg, hgT]
          obtain ⟨m0, m, s4, hcm4, hmo, hmid, hmsc, hconsm, hmtok, hinv4,
            hcfg4, hcand4, hacct4⟩ :=
            mustOnly_emit_spec hinv1 hd1 hmA
              (fun c' hc' => by
                rw [hss1] at hc'
                injection hc' with hh
                subst hh
                exact hnmem)
          constructor
          · intro hpfX
            rw [hpt] at hpfX
            cases hpfX
          · intro _
            have hspE : s1.shouldPart d = (.emit m [m0], s4) := by
              simp only [BooleanSearcher.shouldPart, hcs]
              rw [if_neg hnlt, if_neg hneq]
              simp only [hss1]
              rw [if_pos hmin0]
              exact hmo
            refine ⟨m, [m0], s4, ?_, hmid,
              by rw [hmsc, specScore_congr hcfg01],
              by rw [hconsm, specCons_congr hcfg01],
              hinv4, cfgEq_trans hcfg01 hcfg4,
              by rw [hcand4, hcand01],
              fun E ha => by
                rw [hmtok]
                exact hacct4 E (hacct01 E ha)⟩
            simp only [hstep, hspE]
        · have hgF : gateB s d = false := by simp [gateB, hssS, hnmem, hmin0]
          have hpf : passB s d = false := by rw [hpassg, hgF]
          constructor
          · intro _
            refine packCont s1 hinv1 hd1 (cfgEq_refl s1) rfl (fun E h => h) ?_
            simp only [BooleanSearcher.shouldPart, hcs]
            rw [if_neg hnlt, if_neg hneq]
            simp only [hss1]
            rw [if_neg hmin0]
          · intro hpt
            rw [hpf] at hpt
            cases hpt
    | none =>
      obtain ⟨cm, hmA⟩ : ∃ cm, s1.mustSearcher = some cm := by
        match hms1 : s1.mustSearcher with
        | some cm => exact ⟨cm, rfl⟩
        | none =>
          have hc := hinv1.cid
          rw [hd1, driveCur_none hms1, hcs] at hc
          simp at hc
      match hss1 : s1.shouldSearcher with
      | some cS =>
        have hssS : s.shouldSearcher = some cS := by rw [← hfs]; exact hss1
        have hwfS := hinv1.wfShould cS hss1
        have hxS : cS.exhausted = true := by
          have := hinv1.curShould
          rwa [hss1, hcs] at this
        have hplen : cS.pos = cS.stream.length := hwfS.2.2.2 hxS
        have hnmem : d ∉ cS.ids := by
          have hbelS := hinv1.belowShould d hd1 cS hss1
          rw [hcs] at hbelS
          rw [mem_ids_iff]
          rintro ⟨k, e, hk, rfl⟩
          have hklen : k < cS.stream.length := (List.getElem?_eq_some.mp hk).1
          have := hbelS k (by simp [spent]; omega) e hk
          omega
        by_cases hmin0 : cS.minVal = 0
        · have hgT : gateB s d = true := by simp [gateB, hssS, hmin0]
          have hpt : passB s d = true := by rw [hpassg, hgT]
          obtain ⟨m0, m, s4, hcm4, hmo, hmid, hmsc, hconsm, hmtok, hinv4,
            hcfg4, hcand4, hacct4⟩ :=
            mustOnly_emit_spec hinv1 hd1 hmA
              (fun c' hc' => by
                rw [hss1] at hc'
                injection hc' with hh
                subst hh
                exact hnmem)
          constructor
          · intro hpfX
            rw [hpt] at hpfX
            cases hpfX
          · intro _
            have hspE : s1.shouldPart d = (.emit m [m0], s4) := by
              simp only [BooleanSearcher.shouldPart, hcs, hss1]
              rw [if_pos hmin0]
              exact hmo
            refine ⟨m, [m0], s4, ?_, hmid,
              by rw [hmsc, specScore_congr hcfg01],
              by rw [hconsm, specCons_congr hcfg01],
              hinv4, cfgEq_trans hcfg01 hcfg4,
              by rw [hcand4, hcand01],
              fun E ha => by
                rw [hmtok]
                exact hacct4 E (hacct01 E ha)⟩
            simp only [hstep, hspE]
        · have hgF : gateB s d = false := by simp [gateB, hssS, hnmem, hmin0]
          have hpf : passB s d = false := by rw [hpassg, hgF]
          constructor
          · intro _
            refine packCont s1 hinv1 hd1 (cfgEq_refl s1) rfl (fun E h => h) ?_
            simp only [BooleanSearcher.shouldPart, hcs, hss1]
            rw [if_neg hmin0]
          · intro hpt
            rw [hpf] at hpt
            cases hpt
      | none =>
        have hssS : s.shouldSearcher = none := by rw [← hfs]; exact hss1
        have hgT : gateB s d = true := by simp [gateB, hssS]
        have hpt : passB s d = true := by rw [hpassg, hgT]
        obtain ⟨m0, m, s4, hcm4, hmo, hmid, hmsc, hconsm, hmtok, hinv4,
          hcfg4, hcand4, hacct4⟩ :=
          mustOnly_emit_spec hinv1 hd1 hmA
            (fun c' hc' => by rw [hss1] at hc'; cases hc')
        constructor
        · intro hpfX
          rw [hpt] at hpfX
          cases hpfX
        · intro _
          have hspE : s1.shouldPart d = (.emit m [m0], s4) := by
            simp only [BooleanSearcher.shouldPart, hcs, hss1]
            exact hmo
          refine ⟨m, [m0], s4, ?_, hmid,
            by rw [hmsc, specScore_congr hcfg01],
            by rw [hconsm, specCons_congr hcfg01],
            hinv4, cfgEq_trans hcfg01 hcfg4,
            by rw [hcand4, hcand01],
            fun E ha => by
              rw [hmtok]
              exact hacct4 E (hacct01 E ha)⟩
          simp only [hstep, hspE]

/-! ## Loop characterization -/

theorem loopMeasure_eq_candLen (s : BooleanSearcher) :
    s.loopMeasure = (candList s).length := by
  unfold BooleanSearcher.loopMeasure candList
  match s.currentID with
  | none => rfl
  | some d =>
    simp only [List.length_cons]
    match s.mustSearcher with
    | some c => simp [Searcher.ids]; omega
    | none =>
      match s.shouldSearcher with
      | some c => simp [Searcher.ids]; omega
      | none => rfl

theorem candList_cons {s : BooleanSearcher} {d : Nat}
    (hd : s.currentID = some d) : candList s = d :: (candList s).tail := by
  unfold candList
  rw [hd]
  rfl

theorem candList_nil {s : BooleanSearcher} (hd : s.currentID = none) :
    candList s = [] := by
  unfold candList
  rw [hd]

theorem currentID_of_candList_nil {s : BooleanSearcher}
    (h : candList s = []) : s.currentID = none := by
  match hd : s.currentID with
  | none => rfl
  | some d => rw [candList_cons hd] at h; cases h

theorem nextLoop_spec : ∀ (n : Nat) (s : BooleanSearcher) (E : List Nat),
    (candList s).length ≤ n → BInv s → acct s E →
    (specOut s = [] →
      ∃ s4, BooleanSearcher.nextLoop n s = (.ok none, s4) ∧ BInv s4 ∧
        acct s4 E ∧ cfgEq s s4 ∧ s4.currentID = none) ∧
    (∀ d rest, specOut s = d :: rest →
      ∃ m cons s4, BooleanSearcher.nextLoop n s = (.ok (some (m, cons)), s4) ∧
        m.id = d ∧ m.score = specScore s d ∧
        cons.map (fun x => (x.id, x.score)) = specCons s d ∧
        BInv s4 ∧ acct s4 (E ++ [m.tok]) ∧ cfgEq s s4 ∧ specOut s4 = rest ∧
        (candList s4).length < (candList s).length) := by
  intro n
  induction n with
  | zero =>
    intro s E hfuel hinv hacct
    have hnil : candList s = [] := by
      cases hc : candList s with
      | nil => rfl
      | cons a l => rw [hc] at hfuel; simp at hfuel
    have hcid := currentID_of_candList_nil hnil
    have hso : specOut s = [] := by unfold specOut; rw [hnil]; rfl
    constructor
    · intro _
      exact ⟨s, rfl, hinv, hacct, cfgEq_refl s, hcid⟩
    · intro d rest hdr
      rw [hso] at hdr
      cases hdr
  | succ n ih =>
    intro s E hfuel hinv hacct
    match hcid : s.currentID with
    | none =>
      have hnil : candList s = [] := candList_nil hcid
      have hso : specOut s = [] := by unfold specOut; rw [hnil]; rfl
      constructor
      · intro _
        refine ⟨s, ?_, hinv, hacct, cfgEq_refl s, hcid⟩
        simp only [BooleanSearcher.nextLoop, hcid]
      · intro d rest hdr
        rw [hso] at hdr
        cases hdr
    | some d =>
      have hcons := candList_cons hcid
      obtain ⟨hcont, hemit⟩ := nextBody_spec hinv hcid
      have hsoeq : specOut s = (candList s).filter (passB s) := rfl
      cases hpass : passB s d with
      | false =>
        obtain ⟨s4, hbody, hinv4, hcfg4, hcand4, hacct4⟩ := hcont hpass
        have hso4 : specOut s4 = specOut s := by
          unfold specOut
          rw [hcand4]
          calc ((candList s).tail).filter (passB s4)
              = ((candList s).tail).filter (passB s) := by
                apply List.filter_congr
                intro x _
                exact passB_congr hcfg4 x
            _ = (candList s).filter (passB s) := by
                conv_rhs => rw [hcons]
                rw [List.filter_cons]
                simp [hpass]
        have hlen4 : (candList s4).length < (candList s).length := by
          rw [hcand4, hcons]
          simp
        have hstep : BooleanSearcher.nextLoop (n + 1) s =
            BooleanSearcher.nextLoop n s4 := by
          simp only [BooleanSearcher.nextLoop, hcid, hbody]
        obtain ⟨ih1, ih2⟩ := ih s4 E (by omega) hinv4 (hacct4 E hacct)
        constructor
        · intro hso
          obtain ⟨sF, hl, hi, ha, hc, hn⟩ := ih1 (by rw [hso4, hso])
          exact ⟨sF, by rw [hstep]; exact hl, hi, ha, cfgEq_trans hcfg4 hc, hn⟩
        · intro d2 rest hdr
          obtain ⟨m, cons, sF, hl, hm1, hm2, hm3, hi, ha, hc, hsoF, hlF⟩ :=
            ih2 d2 rest (by rw [hso4, hdr])
          refine ⟨m, cons, sF, by rw [hstep]; exact hl, hm1, ?_, ?_, hi, ha,
            cfgEq_trans hcfg4 hc, hsoF, by omega⟩
          · rw [hm2, specScore_congr hcfg4]
          · rw [hm3, specCons_congr hcfg4]
      | true =>
        obtain ⟨m, cons, s4, hbody, hm1, hm2, hm3, hinv4, hcfg4, hcand4,
          hacct4⟩ := hemit hpass
        have hsohead : specOut s = d :: ((candList s).tail).filter (passB s) := by
          rw [hsoeq]
          conv_lhs => rw [hcons]
          rw [List.filter_cons]
          simp [hpass]
        have hso4 : specOut s4 = ((candList s).tail).filter (passB s) := by
          unfold specOut
          rw [hcand4]
          apply List.filter_congr
          intro x _
          exact passB_congr hcfg4 x
        have hstep : BooleanSearcher.nextLoop (n + 1) s =
            (.ok (some (m, cons)), s4) := by
          simp only [BooleanSearcher.nextLoop, hcid, hbody]
        constructor
        · intro hso
          rw [hso] at hsohead
          cases hsohead
        · intro d2 rest hdr
          rw [hsohead] at hdr
          injection hdr with hda hdb
          subst hda
          refine ⟨m, cons, s4, hstep, hm1, hm2, hm3, hinv4, hacct4 E hacct,
            hcfg4, by rw [hso4, hdb], ?_⟩
          rw [hcand4, hcons]
          simp

/-! ## Initialization -/

theorem recompute_eq (s : BooleanSearcher) :
    s.recomputeCurrentID = { s with currentID := (driveCur s).map DocMatch.id } := by
  unfold BooleanSearcher.recomputeCurrentID driveCur
  match hms : s.mustSearcher with
  | some c =>
    match hcm : s.currMust with
    | some m => rfl
    | none => rfl
  | none =>
    match hcs : s.currShould with
    | some m => rfl
    | none => rfl

/-- Relation between a child slot before and after its `initSearchers` pull:
the child is absent, or produced its first entry, or was empty. -/
def SlotInit (copt c1opt : Option Searcher) (cur : Option DocMatch)
    (t0 t1 : Nat) : Prop :=
  (copt = none ∧ c1opt = none ∧ cur = none ∧ t1 = t0) ∨
  (∃ c e, copt = some c ∧ c.Fresh ∧ c.stream[0]? = some e ∧
    c1opt = some { c with calls := c.calls + 1, pos := 1 } ∧
    cur = some ⟨e.1, e.2, t0⟩ ∧ t1 = t0 + 1) ∨
  (∃ c, copt = some c ∧ c.Fresh ∧ c.stream = [] ∧
    c1opt = some { c with calls := c.calls + 1, exhausted := true } ∧
    cur = none ∧ t1 = t0)

theorem initMust_slot {s : BooleanSearcher} (hc0 : s.currMust = none)
    (hfr : ∀ c, s.mustSearcher = some c → c.Fresh) :
    ∃ s', s.initMust = (none, s') ∧
      SlotInit s.mustSearcher s'.mustSearcher s'.currMust s.nextTok s'.nextTok ∧
      s'.shouldSearcher = s.shouldSearcher ∧ s'.mustNotSearcher = s.mustNotSearcher ∧
      s'.currShould = s.currShould ∧ s'.currMustNot = s.currMustNot ∧
      s'.currentID = s.currentID ∧ s'.inited = s.inited ∧ s'.pool = s.pool := by
  match hms : s.mustSearcher with
  | none =>
    refine ⟨s, ?_, Or.inl ⟨rfl, hms, hc0, rfl⟩, rfl, rfl, rfl, rfl, rfl, rfl, rfl⟩
    simp only [BooleanSearcher.initMust, hms]
  | some c =>
    have hf := hfr c hms
    obtain ⟨hsort, hfo, hp0, hex⟩ := hf
    match he : c.stream[0]? with
    | some e =>
      have he' : c.stream[c.pos]? = some e := by rw [hp0]; exact he
      refine ⟨{ s with
          mustSearcher := some { c with calls := c.calls + 1, pos := c.pos + 1 }
          currMust := some ⟨e.1, e.2, s.nextTok⟩
          nextTok := s.nextTok + 1 }, ?_,
        Or.inr (Or.inl ⟨c, e, rfl, ⟨hsort, hfo, hp0, hex⟩, he, by rw [hp0], rfl, rfl⟩),
        rfl, rfl, rfl, rfl, rfl, rfl, rfl⟩
      simp only [BooleanSearcher.initMust, hms, hc0, Option.isSome_none,
        Bool.false_eq_true, if_false, Searcher.next_of_some hfo he']
    | none =>
      have hnil : c.stream = [] := by
        cases hs : c.stream with
        | nil => rfl
        | cons a l => rw [hs] at he; simp at he
      have he' : c.stream[c.pos]? = none := by rw [hp0]; exact he
      refine ⟨{ s with
          mustSearcher := some { c with calls := c.calls + 1, exhausted := true }
          currMust := none }, ?_,
        Or.inr (Or.inr ⟨c, rfl, ⟨hsort, hfo, hp0, hex⟩, hnil, rfl, rfl, rfl⟩),
        rfl, rfl, rfl, rfl, rfl, rfl, rfl⟩
      simp only [BooleanSearcher.initMust, hms, hc0, Option.isSome_none,
        Bool.false_eq_true, if_false, Searcher.next_of_none hfo he']

theorem initShould_slot {s : BooleanSearcher} (hc0 : s.currShould = none)
    (hfr : ∀ c, s.shouldSearcher = some c → c.Fresh) :
    ∃ s', s.initShould = (none, s') ∧
      SlotInit s.shouldSearcher s'.shouldSearcher s'.currShould s.nextTok s'.nextTok ∧
      s'.mustSearcher = s.mustSearcher ∧ s'.mustNotSearcher = s.mustNotSearcher ∧
      s'.currMust = s.currMust ∧ s'.currMustNot = s.currMustNot ∧
      s'.currentID = s.currentID ∧ s'.inited = s.inited ∧ s'.pool = s.pool := by
  match hms : s.shouldSearcher with
  | none =>
    refine ⟨s, ?_, Or.inl ⟨rfl, hms, hc0, rfl⟩, rfl, rfl, rfl, rfl, rfl, rfl, rfl⟩
    simp only [BooleanSearcher.initShould, hms]
  | some c =>
    have hf := hfr c hms
    obtain ⟨hsort, hfo, hp0, hex⟩ := hf
    match he : c.stream[0]? with
    | some e =>
      have he' : c.stream[c.pos]? = some e := by rw [hp0]; exact he
      refine ⟨{ s with
          shouldSearcher := some { c with calls := c.calls + 1, pos := c.pos + 1 }
          currShould := some ⟨e.1, e.2, s.nextTok⟩
          nextTok := s.nextTok + 1 }, ?_,
        Or.inr (Or.inl ⟨c, e, rfl, ⟨hsort, hfo, hp0, hex⟩, he, by rw [hp0], rfl, rfl⟩),
        rfl, rfl, rfl, rfl, rfl, rfl, rfl⟩
      simp only [BooleanSearcher.initShould, hms, hc0, Option.isSome_none,
        Bool.false_eq_true, if_false, Searcher.next_of_some hfo he']
    | none =>
      have hnil : c.stream = [] := by
        cases hs : c.stream with
        | nil => rfl
        | cons a l => rw [hs] at he; simp at he
      have he' : c.stream[c.pos]? = none := by rw [hp0]; exact he
      refine ⟨{ s with
          shouldSearcher := some { c with calls := c.calls + 1, exhausted := true }
          currShould := none }, ?_,
        Or.inr (Or.inr ⟨c, rfl, ⟨hsort, hfo, hp0, hex⟩, hnil, rfl, rfl, rfl⟩),
        rfl, rfl, rfl, rfl, rfl, rfl, rfl⟩
      simp only [BooleanSearcher.initShould, hms, hc0, Option.isSome_none,
        Bool.false_eq_true, if_false, Searcher.next_of_none hfo he']

theorem initMustNot_slot {s : BooleanSearcher} (hc0 : s.currMustNot = none)
    (hfr : ∀ c, s.mustNotSearcher = some c → c.Fresh) :
    ∃ s', s.initMustNot = (none, s') ∧
      SlotInit s.mustNotSearcher s'.mustNotSearcher s'.currMustNot s.nextTok s'.nextTok ∧
      s'.mustSearcher = s.mustSearcher ∧ s'.shouldSearcher = s.shouldSearcher ∧
      s'.currMust = s.currMust ∧ s'.currShould = s.currShould ∧
      s'.currentID = s.currentID ∧ s'.inited = s.inited ∧ s'.pool = s.pool := by
  match hms : s.mustNotSearcher with
  | none =>
    refine ⟨s, ?_, Or.inl ⟨rfl, hms, hc0, rfl⟩, rfl, rfl, rfl, rfl, rfl, rfl, rfl⟩
    simp only [BooleanSearcher.initMustNot, hms]
  | some c =>
    have hf := hfr c hms
    obtain ⟨hsort, hfo, hp0, hex⟩ := hf
    match he : c.stream[0]? with
    | some e =>
      have he' : c.stream[c.pos]? = some e := by rw [hp0]; exact he
      refine ⟨{ s with
          mustNotSearcher := some { c with calls := c.calls + 1, pos := c.pos + 1 }
          currMustNot := some ⟨e.1, e.2, s.nextTok⟩
          nextTok := s.nextTok + 1 }, ?_,
        Or.inr (Or.inl ⟨c, e, rfl, ⟨hsort, hfo, hp0, hex⟩, he, by rw [hp0], rfl, rfl⟩),
        rfl, rfl, rfl, rfl, rfl, rfl, rfl⟩
      simp only [BooleanSearcher.initMustNot, hms, hc0, Option.isSome_none,
        Bool.false_eq_true, if_false, Searcher.next_of_some hfo he']
    | none =>
      have hnil : c.stream = [] := by
        cases hs : c.stream with
        | nil => rfl
        | cons a l => rw [hs] at he; simp at he
      have he' : c.stream[c.pos]? = none := by rw [hp0]; exact he
      refine ⟨{ s with
          mustNotSearcher := some { c with calls := c.calls + 1, exhausted := true }
          currMustNot := none }, ?_,
        Or.inr (Or.inr ⟨c, rfl, ⟨hsort, hfo, hp0, hex⟩, hnil, rfl, rfl, rfl⟩),
        rfl, rfl, rfl, rfl, rfl, rfl, rfl⟩
      simp only [BooleanSearcher.initMustNot, hms, hc0, Option.isSome_none,
        Bool.false_eq_true, if_false, Searcher.next_of_none hfo he']

theorem SlotInit_Wfc {copt c1 : Option Searcher} {cur : Option DocMatch}
    {t0 t1 : Nat} (h : SlotInit copt c1 cur t0 t1) :
    ∀ c', c1 = some c' → c'.Wfc := by
  intro c' hc'
  rcases h with ⟨_, h1, _, _⟩ |
      ⟨c, e, _, ⟨hsort, hfo, hp0, hexh⟩, he, h1, _, _⟩ |
      ⟨c, _, ⟨hsort, hfo, hp0, hexh⟩, hnil, h1, _, _⟩
  · rw [h1] at hc'; cases hc'
  · rw [h1] at hc'
    injection hc' with hc'
    subst hc'
    refine ⟨hsort, hfo, ?_, ?_⟩
    · show 1 ≤ c.stream.length
      match hs : c.stream with
      | [] => rw [hs] at he; simp at he
      | a :: l => simp
    · intro hx
      have hx' : c.exhausted = true := hx
      rw [hexh] at hx'
      cases hx'
  · rw [h1] at hc'
    injection hc' with hc'
    subst hc'
    refine ⟨hsort, hfo, ?_, ?_⟩
    · show c.pos ≤ c.stream.length
      rw [hp0]
      simp
    · intro _
      show c.pos = c.stream.length
      rw [hp0, hnil]
      rfl

theorem SlotInit_CurOK {copt c1 : Option Searcher} {cur : Option DocMatch}
    {t0 t1 : Nat} (h : SlotInit copt c1 cur t0 t1) : CurOK c1 cur := by
  rcases h with ⟨_, h1, h2, _⟩ |
      ⟨c, e, _, ⟨hsort, hfo, hp0, hexh⟩, he, h1, h2, _⟩ |
      ⟨c, _, ⟨hsort, hfo, hp0, hexh⟩, hnil, h1, h2, _⟩
  · rw [h1, h2]; exact rfl
  · rw [h1, h2]
    refine ⟨Nat.one_pos, ?_, hexh⟩
    show c.stream[0]? = some (e.1, e.2)
    rw [he]
  · rw [h1, h2]
    exact rfl

theorem SlotInit_below {copt c1 : Option Searcher} {cur : Option DocMatch}
    {t0 t1 : Nat} (h : SlotInit copt c1 cur t0 t1) :
    ∀ c', c1 = some c' → ∀ d, belowAll c' cur d := by
  intro c' hc' d k hk e hke
  exfalso
  rcases h with ⟨_, h1, _, _⟩ |
      ⟨c, e2, _, ⟨hsort, hfo, hp0, hexh⟩, he, h1, h2, _⟩ |
      ⟨c, _, ⟨hsort, hfo, hp0, hexh⟩, hnil, h1, h2, _⟩
  · rw [h1] at hc'; cases hc'
  · rw [h1] at hc'
    injection hc' with hc'
    subst hc'
    rw [h2] at hk
    simp [spent] at hk
  · rw [h1] at hc'
    injection hc' with hc'
    subst hc'
    rw [h2] at hk
    have hk' : k < c.pos := by simpa [spent] using hk
    rw [hp0] at hk'
    omega

theorem SlotInit_cfg {copt c1 : Option Searcher} {cur : Option DocMatch}
    {t0 t1 : Nat} (h : SlotInit copt c1 cur t0 t1) :
    c1.map Searcher.cfg = copt.map Searcher.cfg := by
  rcases h with ⟨h0, h1, _, _⟩ |
      ⟨c, e, h0, _, he, h1, _, _⟩ |
      ⟨c, h0, _, hnil, h1, _, _⟩
  · rw [h0, h1]
  · rw [h0, h1]; simp [Searcher.cfg]
  · rw [h0, h1]; simp [Searcher.cfg]

theorem SlotInit_toks {copt c1 : Option Searcher} {cur : Option DocMatch}
    {t0 t1 : Nat} (h : SlotInit copt c1 cur t0 t1) :
    (cur.map DocMatch.tok).toList = List.range' t0 (t1 - t0) ∧ t0 ≤ t1 := by
  rcases h with ⟨_, _, h2, h3⟩ |
      ⟨c, e, _, _, he, _, h2, h3⟩ |
      ⟨c, _, _, hnil, _, h2, h3⟩
  · rw [h2, h3]; simp
  · rw [h2, h3]
    constructor
    · simp [List.range'_one]
    · omega
  · rw [h2, h3]; simp

theorem range_chain_pair : ∀ (x y : Nat), x ≤ y →
    List.range' 0 x ++ List.range' x (y - x) = List.range' 0 y := by
  intro x y hxy
  have h := List.range'_append 0 x (y - x) 1
  simp only [Nat.one_mul, Nat.zero_add] at h
  rw [h]
  congr 1
  omega

theorem range_chain {a b c : Nat} (hab : a ≤ b) (hbc : b ≤ c) :
    List.range' 0 a ++ List.range' a (b - a) ++ List.range' b (c - b) =
      List.range c := by
  rw [range_chain_pair a b hab, range_chain_pair b c hbc,
    List.range_eq_range' c]

theorem head_cons_drop {l : List Nat} {a : Nat} (h : l[0]? = some a) :
    a :: l.drop 1 = l := by
  cases l with
  | nil => simp at h
  | cons x xs =>
    simp at h
    subst h
    simp

/-- The identifiers of the driving clause of a fresh boolean searcher: the
must stream if present, else the should stream. -/
def drivingIds (mc sc : Option Searcher) : List Nat :=
  match mc with
  | some c => c.ids
  | none =>
    match sc with
    | some c => c.ids
    | none => []

/-- The identifiers the searcher should emit over its whole run, per the
specification: driving identifiers not vetoed and passing the should gate. -/
def specTop (mc sc nc : Option Searcher) : List Nat :=
  (drivingIds mc sc).filter (passB (mkSearcher mc sc nc))

theorem initSearchers_spec {mc sc nc : Option Searcher}
    (hm : ∀ c, mc = some c → c.Fresh) (hs : ∀ c, sc = some c → c.Fresh)
    (hn : ∀ c, nc = some c → c.Fresh) :
    ∃ s1, (mkSearcher mc sc nc).initSearchers = (none, s1) ∧ BInv s1 ∧
      acct s1 [] ∧ cfgEq (mkSearcher mc sc nc) s1 ∧
      candList s1 = drivingIds mc sc ∧ specOut s1 = specTop mc sc nc := by
  obtain ⟨sA, hA, slotM0, hAs, hAn, hAcs, hAcn, hAcid, hAin, hApool⟩ :=
    @initMust_slot (mkSearcher mc sc nc) rfl (fun c hc => hm c hc)
  have slotM : SlotInit mc sA.mustSearcher sA.currMust 0 sA.nextTok := slotM0
  obtain ⟨sB, hB, slotS0, hBm, hBn, hBcm, hBcn, hBcid, hBin, hBpool⟩ :=
    @initShould_slot sA (by rw [hAcs]; rfl) (fun c hc => hs c (by rw [hAs] at hc; exact hc))
  have slotS : SlotInit sc sB.shouldSearcher sB.currShould sA.nextTok sB.nextTok := by
    rw [hAs] at slotS0
    exact slotS0
  obtain ⟨sC, hC, slotN0, hCm, hCs, hCcm, hCcs, hCcid, hCin, hCpool⟩ :=
    @initMustNot_slot sB
      (by rw [hBcn, hAcn]; rfl)
      (fun c hc => hn c (by rw [hBn, hAn] at hc; exact hc))
  have slotN : SlotInit nc sC.mustNotSearcher sC.currMustNot sB.nextTok sC.nextTok := by
    rw [hBn, hAn] at slotN0
    exact slotN0
  obtain ⟨sF, hsFdef⟩ : ∃ sF, sF = { sC.recomputeCurrentID with inited := true } :=
    ⟨_, rfl⟩
  rw [recompute_eq] at hsFdef
  have hFm : sF.mustSearcher = sA.mustSearcher := by
    simp only [hsFdef]
    rw [hCm, hBm]
  have hFs : sF.shouldSearcher = sB.shouldSearcher := by
    simp only [hsFdef]
    rw [hCs]
  have hFn : sF.mustNotSearcher = sC.mustNotSearcher := by
    simp only [hsFdef]
  have hFcm : sF.currMust = sA.currMust := by
    simp only [hsFdef]
    rw [hCcm, hBcm]
  have hFcs : sF.currShould = sB.currShould := by
    simp only [hsFdef]
    rw [hCcs]
  have hFcn : sF.currMustNot = sC.currMustNot := by
    simp only [hsFdef]
  have hFpool : sF.pool = [] := by
    simp only [hsFdef]
    rw [hCpool, hBpool, hApool]
    rfl
  have hFtok : sF.nextTok = sC.nextTok := by
    simp only [hsFdef]
  have hdcF : driveCur sF = driveCur sC := by
    unfold driveCur
    rw [hFm, ← hBm, ← hCm, hFcm, ← hBcm, ← hCcm, hFcs, ← hCcs]
  have hFcid : sF.currentID = (driveCur sC).map DocMatch.id := by
    simp only [hsFdef]
  have hdrive_some : ∀ c, sA.mustSearcher = some c → driveCur sC = sA.currMust := by
    intro c hms
    rw [driveCur_must (by rw [hCm, hBm]; exact hms), hCcm, hBcm]
  have hdrive_none : sA.mustSearcher = none → driveCur sC = sB.currShould := by
    intro hms
    rw [driveCur_none (by rw [hCm, hBm]; exact hms), hCcs]
  have hcand : candList sF = drivingIds mc sc := by
    rcases slotM with ⟨hmc, h1, h2, _⟩ |
        ⟨c, e, hmc, ⟨hsort, hfo, hp0, hexh⟩, he, h1, h2, _⟩ |
        ⟨c, hmc, _, hnil, h1, h2, _⟩
    · -- no must clause: the should clause drives
      have hdc := hdrive_none h1
      rcases slotS with ⟨hsc, g1, g2, _⟩ |
          ⟨cS, eS, hsc, ⟨gsort, gfo, gp0, gexh⟩, ge, g1, g2, _⟩ |
          ⟨cS, hsc, _, gnil, g1, g2, _⟩
      · rw [candList_nil (by rw [hFcid, hdc, g2]; rfl)]
        simp only [drivingIds, hmc, hsc]
      · have hcidF : sF.currentID = some eS.1 := by rw [hFcid, hdc, g2]; rfl
        have hid0 : cS.ids[0]? = some eS.1 := by
          simp only [Searcher.ids, List.getElem?_map, ge, Option.map_some']
        simp only [candList, hcidF, hFm, h1, hFs, g1, drivingIds, hmc, hsc,
          Searcher.ids]
        exact head_cons_drop hid0
      · rw [candList_nil (by rw [hFcid, hdc, g2]; rfl)]
        simp only [drivingIds, hmc, hsc, Searcher.ids, gnil, List.map_nil]
    · -- must clause produced its first entry
      have hdc : driveCur sC = some ⟨e.1, e.2, 0⟩ := by
        rw [hdrive_some _ h1, h2]
      have hcidF : sF.currentID = some e.1 := by rw [hFcid, hdc]; rfl
      have hid0 : c.ids[0]? = some e.1 := by
        simp only [Searcher.ids, List.getElem?_map, he, Option.map_some']
      simp only [candList, hcidF, hFm, h1, drivingIds, hmc, Searcher.ids]
      exact head_cons_drop hid0
    · -- must clause empty
      have hdc : driveCur sC = none := by rw [hdrive_some _ h1, h2]
      rw [candList_nil (by rw [hFcid, hdc]; rfl)]
      simp only [drivingIds, hmc, Searcher.ids, hnil, List.map_nil]
  have hcfg : cfgEq (mkSearcher mc sc nc) sF := by
    refine ⟨?_, ?_, ?_⟩
    · rw [hFm]
      exact SlotInit_cfg slotM
    · rw [hFs]
      exact SlotInit_cfg slotS
    · rw [hFn]
      exact SlotInit_cfg slotN
  have hspec : specOut sF = specTop mc sc nc := by
    unfold specOut specTop
    rw [hcand]
    apply List.filter_congr
    intro x _
    exact passB_congr hcfg x
  refine ⟨sF, ?_, ?_, ?_, hcfg, hcand, hspec⟩
  · simp only [BooleanSearcher.initSearchers, hA, hB, hC, hsFdef, recompute_eq]
  · refine { inited := by simp only [hsFdef]
             wfMust := ?_
             wfShould := ?_
             wfMustNot := ?_
             curMust := ?_
             curShould := ?_
             curMustNot := ?_
             cid := ?_
             belowShould := ?_
             belowMustNot := ?_ }
    · intro c hc
      rw [hFm] at hc
      exact SlotInit_Wfc slotM c hc
    · intro c hc
      rw [hFs] at hc
      exact SlotInit_Wfc slotS c hc
    · intro c hc
      rw [hFn] at hc
      exact SlotInit_Wfc slotN c hc
    · rw [hFm, hFcm]
      exact SlotInit_CurOK slotM
    · rw [hFs, hFcs]
      exact SlotInit_CurOK slotS
    · rw [hFn, hFcn]
      exact SlotInit_CurOK slotN
    · rw [hFcid, hdcF]
    · intro d _ c hc
      rw [hFs] at hc
      rw [hFcs]
      exact SlotInit_below slotS c hc d
    · intro d _ c hc
      rw [hFn] at hc
      rw [hFcn]
      exact SlotInit_below slotN c hc d
  · obtain ⟨htm, hle1⟩ := SlotInit_toks slotM
    obtain ⟨hts, hle2⟩ := SlotInit_toks slotS
    obtain ⟨htn, hle3⟩ := SlotInit_toks slotN
    unfold acct liveToks
    rw [hFpool, hFcm, hFcs, hFcn, hFtok, htm, hts, htn]
    simp only [Nat.sub_zero, List.nil_append]
    rw [range_chain hle2 hle3]

/-! ## Run-level characterization -/

theorem next_spec {s : BooleanSearcher} {E : List Nat} (hinv : BInv s)
    (hacct : acct s E) :
    (specOut s = [] →
      ∃ s4, s.Next = (.ok none, s4) ∧ BInv s4 ∧ acct s4 E ∧ cfgEq s s4 ∧
        s4.currentID = none) ∧
    (∀ d rest, specOut s = d :: rest →
      ∃ m cons s4, s.Next = (.ok (some (m, cons)), s4) ∧ m.id = d ∧
        m.score = specScore s d ∧
        cons.map (fun x => (x.id, x.score)) = specCons s d ∧
        BInv s4 ∧ acct s4 (E ++ [m.tok]) ∧ cfgEq s s4 ∧ specOut s4 = rest) := by
  have hN : s.Next = BooleanSearcher.nextLoop s.loopMeasure s := by
    simp only [BooleanSearcher.Next, hinv.inited, if_true]
  obtain ⟨h1, h2⟩ := nextLoop_spec s.loopMeasure s E
    (le_of_eq (loopMeasure_eq_candLen s).symm) hinv hacct
  constructor
  · intro hso
    obtain ⟨s4, hl, hi, ha, hc, hn⟩ := h1 hso
    exact ⟨s4, by rw [hN]; exact hl, hi, ha, hc, hn⟩
  · intro d rest hdr
    obtain ⟨m, cons, s4, hl, hm1, hm2, hm3, hi, ha, hc, hsoF, _⟩ := h2 d rest hdr
    exact ⟨m, cons, s4, by rw [hN]; exact hl, hm1, hm2, hm3, hi, ha, hc, hsoF⟩

theorem runFrom_spec : ∀ (L : List Nat) (n : Nat) (s : BooleanSearcher)
    (E : List Nat), specOut s = L → L.length < n → BInv s → acct s E →
    ∃ (rs : List ScoredEmit) (s4 : BooleanSearcher),
      BooleanSearcher.runFrom n s = (rs, s4) ∧
      rs.map (fun r => r.1.id) = L ∧
      (∀ r ∈ rs, r.1.score = specScore s r.1.id) ∧
      BInv s4 ∧ acct s4 (E ++ rs.map (fun r => r.1.tok)) ∧ cfgEq s s4 ∧
      s4.currentID = none := by
  intro L
  induction L with
  | nil =>
    intro n s E hso hlen hinv hacct
    cases n with
    | zero => omega
    | succ n' =>
      obtain ⟨s4, hNeq, hi, ha, hc, hn⟩ := (next_spec hinv hacct).1 hso
      refine ⟨[], s4, ?_, rfl, by simp, hi, by simpa using ha, hc, hn⟩
      simp only [BooleanSearcher.runFrom, hNeq]
  | cons d rest ih =>
    intro n s E hso hlen hinv hacct
    cases n with
    | zero => omega
    | succ n' =>
      obtain ⟨m, cons, s4, hNeq, hm1, hm2, hm3, hi4, ha4, hc4, hso4⟩ :=
        (next_spec hinv hacct).2 d rest hso
      obtain ⟨rs', s5, hrun', hids', hscores', hi5, ha5, hc5, hn5⟩ :=
        ih n' s4 (E ++ [m.tok]) hso4 (by simp at hlen ⊢; omega) hi4 ha4
      refine ⟨(m, cons) :: rs', s5, ?_, ?_, ?_, hi5, ?_, cfgEq_trans hc4 hc5, hn5⟩
      · simp only [BooleanSearcher.runFrom, hNeq, hrun']
      · simp only [List.map_cons, hids', hm1]
      · intro r hr
        rcases List.mem_cons.mp hr with hr | hr
        · subst hr
          rw [hm2, hm1]
        · rw [hscores' r hr, specScore_congr hc4]
      · simpa [List.append_assoc] using ha5

theorem runFrom_congr_first {s s' : BooleanSearcher} {n : Nat}
    (h : s.Next = s'.Next) :
    BooleanSearcher.runFrom (n + 1) s = BooleanSearcher.runFrom (n + 1) s' := by
  simp only [BooleanSearcher.runFrom, h]

theorem drivingIds_length (mc sc nc : Option Searcher) :
    (drivingIds mc sc).length = (mkSearcher mc sc nc).driveLen := by
  unfold drivingIds BooleanSearcher.driveLen mkSearcher
  match mc with
  | some c => simp [Searcher.ids]
  | none =>
    match sc with
    | some c => simp [Searcher.ids]
    | none => rfl

theorem runAll_spec {mc sc nc : Option Searcher}
    (hm : ∀ c, mc = some c → c.Fresh) (hs : ∀ c, sc = some c → c.Fresh)
    (hn : ∀ c, nc = some c → c.Fresh) :
    ∃ (rs : List ScoredEmit) (s4 : BooleanSearcher),
      (mkSearcher mc sc nc).runAll = (rs, s4) ∧
      rs.map (fun r => r.1.id) = specTop mc sc nc ∧
      (∀ r ∈ rs, r.1.score = specScore (mkSearcher mc sc nc) r.1.id) ∧
      BInv s4 ∧ acct s4 (rs.map (fun r => r.1.tok)) ∧ s4.currentID = none := by
  obtain ⟨s1, hrun1, hinv1, hacct1, hcfg1, hcand1, hspec1⟩ :=
    initSearchers_spec hm hs hn
  have hNext0 : (mkSearcher mc sc nc).Next = s1.Next := by
    simp only [BooleanSearcher.Next, hrun1, hinv1.inited, if_true]
    rfl
  have hlen : (specTop mc sc nc).length < (mkSearcher mc sc nc).driveLen + 2 := by
    have h1 : (specTop mc sc nc).length ≤ (drivingIds mc sc).length :=
      List.length_filter_le _ _
    have h2 := drivingIds_length mc sc nc
    omega
  obtain ⟨rs, s4, hrun, hids, hscores, hi4, ha4, hc4, hn4⟩ :=
    runFrom_spec (specTop mc sc nc) ((mkSearcher mc sc nc).driveLen + 2) s1 []
      hspec1 hlen hinv1 hacct1
  refine ⟨rs, s4, ?_, hids, ?_, hi4, by simpa using ha4, hn4⟩
  · unfold BooleanSearcher.runAll
    show BooleanSearcher.runFrom ((mkSearcher mc sc nc).driveLen + 1 + 1)
      (mkSearcher mc sc nc) = (rs, s4)
    rw [runFrom_congr_first hNext0]
    exact hrun
  · intro r hr
    rw [hscores r hr, specScore_congr hcfg1]

/-! ## Close protocol -/

/-- Modelled from the spec: the close protocol visits the present children in
the order must, should, must-not, invoking each child's close in turn and
stopping at the first error, leaving later children unclosed. -/
def closeFold : List (Clause × Searcher) → Option Nat × List Clause
  | [] => (none, [])
  | (tag, c) :: rest =>
    match c.closeErr with
    | some e => (some e, [tag])
    | none =>
      let r := closeFold rest
      (r.1, tag :: r.2)

/-- The children present on a boolean searcher, tagged, in the close order
prescribed by the specification. -/
def presentClauses (s : BooleanSearcher) : List (Clause × Searcher) :=
  (match s.mustSearcher with | some c => [(Clause.must, c)] | none => []) ++
    (match s.shouldSearcher with | some c => [(Clause.should, c)] | none => []) ++
    (match s.mustNotSearcher with | some c => [(Clause.mustNot, c)] | none => [])

theorem close_eq_closeFold (s : BooleanSearcher) :
    s.Close = closeFold (presentClauses s) := by
  match hm : s.mustSearcher with
  | some cm =>
    match hcm : cm.closeErr with
    | some e =>
      simp [BooleanSearcher.Close, presentClauses, closeFold, hm, hcm]
    | none =>
      match hs : s.shouldSearcher with
      | some cs =>
        match hcs : cs.closeErr with
        | some e =>
          simp [BooleanSearcher.Close, presentClauses, closeFold, hm, hcm, hs, hcs]
        | none =>
          match hn : s.mustNotSearcher with
          | some cn =>
            match hcn : cn.closeErr with
            | some e =>
              simp [BooleanSearcher.Close, presentClauses, closeFold, hm, hcm, hs,
                hcs, hn, hcn]
            | none =>
              simp [BooleanSearcher.Close, presentClauses, closeFold, hm, hcm, hs,
                hcs, hn, hcn]
          | none =>
            simp [BooleanSearcher.Close, presentClauses, closeFold, hm, hcm, hs,
              hcs, hn]
      | none =>
        match hn : s.mustNotSearcher with
        | some cn =>
          match hcn : cn.closeErr with
          | some e =>
            simp [BooleanSearcher.Close, presentClauses, closeFold, hm, hcm, hs, hn, hcn]
          | none =>
            simp [BooleanSearcher.Close, presentClauses, closeFold, hm, hcm, hs, hn, hcn]
        | none =>
          simp [BooleanSearcher.Close, presentClauses, closeFold, hm, hcm, hs, hn]
  | none =>
    match hs : s.shouldSearcher with
    | some cs =>
      match hcs : cs.closeErr with
      | some e =>
        simp [BooleanSearcher.Close, presentClauses, closeFold, hm, hs, hcs]
      | none =>
        match hn : s.mustNotSearcher with
        | some cn =>
          match hcn : cn.closeErr with
          | some e =>
            simp [BooleanSearcher.Close, presentClauses, closeFold, hm, hs, hcs, hn, hcn]
          | none =>
            simp [BooleanSearcher.Close, presentClauses, closeFold, hm, hs, hcs, hn, hcn]
        | none =>
          simp [BooleanSearcher.Close, presentClauses, closeFold, hm, hs, hcs, hn]
    | none =>
      match hn : s.mustNotSearcher with
      | some cn =>
        match hcn : cn.closeErr with
        | some e =>
          simp [BooleanSearcher.Close, presentClauses, closeFold, hm, hs, hn, hcn]
        | none =>
          simp [BooleanSearcher.Close, presentClauses, closeFold, hm, hs, hn, hcn]
      | none =>
        simp [BooleanSearcher.Close, presentClauses, closeFold, hm, hs, hn]

/-! ## Query norm -/

noncomputable section

/-- `BooleanSearcher.computeQueryNorm` (source lines 50-61): the sum of the
`Weight()` values of the present must and should children (the leaf `Weight`
implementations are outside the excerpt, so the weights are parameters), then
`1 / sqrt` of it.  Arithmetic is in `ENNReal`, where an inverse of zero is `⊤`,
the model of the IEEE `+Inf` the Go code produces on a zero sum. -/
def computeQueryNorm (mw sw : Option NNReal) : ENNReal :=
  (((NNReal.sqrt (mw.getD 0 + sw.getD 0)) : ENNReal))⁻¹

/-- The `SetQueryNorm` pushes of `computeQueryNorm` (source lines 62-68): the
norm each child receives, `none` for an absent child; the must-not child is
never pushed to. -/
def pushedNorms (mw sw : Option NNReal) :
    Option ENNReal × Option ENNReal :=
  (mw.map (fun _ => computeQueryNorm mw sw),
    sw.map (fun _ => computeQueryNorm mw sw))

/-- Modelled from the spec: total weight is must-weight plus should-weight,
an absent child contributing zero and must-not never contributing; the query
norm is one over the square root of the total weight. -/
def specQueryNorm (mw sw : Option NNReal) : ENNReal :=
  1 / ((NNReal.sqrt (mw.getD 0 + sw.getD 0) : NNReal) : ENNReal)

end

/-! ## Error propagation -/

theorem Searcher.next_error {c : Searcher} {tok : Nat} {e : Nat}
    (h : (c.Next tok).1 = .error e) : ∃ k, c.failOn = some (k, e) := by
  by_cases hf : c.failsNow
  · simp only [Searcher.Next, hf, if_true] at h
    injection h with he
    match hfo : c.failOn with
    | none => simp [Searcher.failsNow, hfo] at hf
    | some ke =>
      refine ⟨ke.1, ?_⟩
      have hfc : c.failCode = ke.2 := by simp [Searcher.failCode, hfo]
      rw [hfc] at he
      rw [← he]
  · rcases hstr : c.stream[c.pos]? with _ | p <;>
      simp [Searcher.Next, hf, hstr] at h

theorem initMust_error {s : BooleanSearcher} {e : Nat} {s' : BooleanSearcher}
    (h : s.initMust = (some e, s')) :
    ∃ c k, s.mustSearcher = some c ∧ c.failOn = some (k, e) := by
  match hms : s.mustSearcher with
  | none => simp only [BooleanSearcher.initMust, hms] at h; cases h
  | some c =>
    simp only [BooleanSearcher.initMust, hms] at h
    rcases hr : (c.Next (if s.currMust.isSome then s.putPool s.currMust
        else s).nextTok).1 with e2 | m
    · rw [hr] at h
      injection h with h1 h2
      injection h1 with h1
      subst h1
      obtain ⟨k, hk⟩ := Searcher.next_error hr
      exact ⟨c, k, rfl, hk⟩
    · rw [hr] at h
      cases h

theorem initShould_error {s : BooleanSearcher} {e : Nat} {s' : BooleanSearcher}
    (h : s.initShould = (some e, s')) :
    ∃ c k, s.shouldSearcher = some c ∧ c.failOn = some (k, e) := by
  match hms : s.shouldSearcher with
  | none => simp only [BooleanSearcher.initShould, hms] at h; cases h
  | some c =>
    simp only [BooleanSearcher.initShould, hms] at h
    rcases hr : (c.Next (if s.currShould.isSome then s.putPool s.currShould
        else s).nextTok).1 with e2 | m
    · rw [hr] at h
      injection h with h1 h2
      injection h1 with h1
      subst h1
      obtain ⟨k, hk⟩ := Searcher.next_error hr
      exact ⟨c, k, rfl, hk⟩
    · rw [hr] at h
      cases h

theorem initMustNot_error {s : BooleanSearcher} {e : Nat} {s' : BooleanSearcher}
    (h : s.initMustNot = (some e, s')) :
    ∃ c k, s.mustNotSearcher = some c ∧ c.failOn = some (k, e) := by
  match hms : s.mustNotSearcher with
  | none => simp only [BooleanSearcher.initMustNot, hms] at h; cases h
  | some c =>
    simp only [BooleanSearcher.initMustNot, hms] at h
    rcases hr : (c.Next (if s.currMustNot.isSome then s.putPool s.currMustNot
        else s).nextTok).1 with e2 | m
    · rw [hr] at h
      injection h with h1 h2
      injection h1 with h1
      subst h1
      obtain ⟨k, hk⟩ := Searcher.next_error hr
      exact ⟨c, k, rfl, hk⟩
    · rw [hr] at h
      cases h

/-- The error-injection configurations of the three child slots; every
operation of the boolean searcher preserves them (children only ever mutate
their cursor state). -/
def failCfgs (s : BooleanSearcher) :
    Option (Option (Nat × Nat)) × Option (Option (Nat × Nat)) ×
      Option (Option (Nat × Nat)) :=
  (s.mustSearcher.map Searcher.failOn, s.shouldSearcher.map Searcher.failOn,
    s.mustNotSearcher.map Searcher.failOn)

/-- Some child of `s` is configured to fail with code `e`. -/
def hasErr (s : BooleanSearcher) (e : Nat) : Prop :=
  ∃ c k, (s.mustSearcher = some c ∨ s.shouldSearcher = some c ∨
    s.mustNotSearcher = some c) ∧ c.failOn = some (k, e)

theorem Searcher.next_failOn (c : Searcher) (tok : Nat) :
    ((c.Next tok).2.1).failOn = c.failOn := by
  by_cases hf : c.failsNow
  · simp [Searcher.Next, hf]
  · rcases hstr : c.stream[c.pos]? with _ | e <;> simp [Searcher.Next, hf, hstr]

theorem Searcher.advance_failOn (c : Searcher) (t tok : Nat) :
    ((c.Advance t tok).2.1).failOn = c.failOn := by
  by_cases hf : c.failsNow
  · simp [Searcher.Advance, hf]
  · match hx : c.exhausted with
    | true => simp [Searcher.Advance, hf, hx]
    | false =>
      rcases hstr : c.stream[c.pos - 1]? with _ | e
      · rcases hseek : seekList (c.stream.drop c.pos) t c.pos with _ | ej <;>
          simp [Searcher.Advance, hf, hx, hstr, hseek]
      · by_cases hcl : 0 < c.pos ∧ t ≤ e.1
        · simp [Searcher.Advance, hf, hx, hstr, hcl]
        · rcases hseek : seekList (c.stream.drop c.pos) t c.pos with _ | ej <;>
            simp [Searcher.Advance, hf, hx, hstr, hcl, hseek]

theorem Searcher.advance_error {c : Searcher} {t tok e : Nat}
    (h : (c.Advance t tok).1 = .error e) : ∃ k, c.failOn = some (k, e) := by
  by_cases hf : c.failsNow
  · simp only [Searcher.Advance, hf, if_true] at h
    injection h with he
    match hfo : c.failOn with
    | none => simp [Searcher.failsNow, hfo] at hf
    | some ke =>
      refine ⟨ke.1, ?_⟩
      have hfc : c.failCode = ke.2 := by simp [Searcher.failCode, hfo]
      rw [hfc] at he
      rw [← he]
  · match hx : c.exhausted with
    | true => simp [Searcher.Advance, hf, hx] at h
    | false =>
      rcases hstr : c.stream[c.pos - 1]? with _ | p
      · rcases hseek : seekList (c.stream.drop c.pos) t c.pos with _ | ej <;>
          simp [Searcher.Advance, hf, hx, hstr, hseek] at h
      · by_cases hcl : 0 < c.pos ∧ t ≤ p.1
        · simp [Searcher.Advance, hf, hx, hstr, hcl] at h
        · rcases hseek : seekList (c.stream.drop c.pos) t c.pos with _ | ej <;>
            simp [Searcher.Advance, hf, hx, hstr, hcl, hseek] at h

theorem hasErr_congr {s s' : BooleanSearcher}
    (h : failCfgs s' = failCfgs s) {e : Nat} : hasErr s' e → hasErr s e := by
  rintro ⟨c, k, hc, hk⟩
  obtain ⟨h1, h2, h3⟩ : s'.mustSearcher.map Searcher.failOn =
      s.mustSearcher.map Searcher.failOn ∧
      s'.shouldSearcher.map Searcher.failOn =
        s.shouldSearcher.map Searcher.failOn ∧
      s'.mustNotSearcher.map Searcher.failOn =
        s.mustNotSearcher.map Searcher.failOn := by
    have e1 := congrArg Prod.fst h
    have e2 := congrArg (fun p => p.2.1) h
    have e3 := congrArg (fun p => p.2.2) h
    exact ⟨e1, e2, e3⟩
  rcases hc with hc | hc | hc
  · rw [hc] at h1
    rcases hs2 : s.mustSearcher with _ | c2
    · rw [hs2] at h1
      cases h1
    · rw [hs2] at h1
      injection h1 with h1
      exact ⟨c2, k, Or.inl hs2, by rw [← h1]; exact hk⟩
  · rw [hc] at h2
    rcases hs2 : s.shouldSearcher with _ | c2
    · rw [hs2] at h2
      cases h2
    · rw [hs2] at h2
      injection h2 with h2
      exact ⟨c2, k, Or.inr (Or.inl hs2), by rw [← h2]; exact hk⟩
  · rw [hc] at h3
    rcases hs2 : s.mustNotSearcher with _ | c2
    · rw [hs2] at h3
      cases h3
    · rw [hs2] at h3
      injection h3 with h3
      exact ⟨c2, k, Or.inr (Or.inr hs2), by rw [← h3]; exact hk⟩

theorem putPool_slots (s : BooleanSearcher) (m : Option DocMatch) :
    (s.putPool m).mustSearcher = s.mustSearcher ∧
      (s.putPool m).shouldSearcher = s.shouldSearcher ∧
      (s.putPool m).mustNotSearcher = s.mustNotSearcher := by
  rcases m with _ | dm <;> exact ⟨rfl, rfl, rfl⟩

theorem failCfgs_putPool (s : BooleanSearcher) (m : Option DocMatch) :
    failCfgs (s.putPool m) = failCfgs s := by
  rcases m with _ | dm <;> rfl

theorem failCfgs_recompute (s : BooleanSearcher) :
    failCfgs s.recomputeCurrentID = failCfgs s := by
  rw [recompute_eq]
  rfl

theorem advanceNextMust_failCfgs {s : BooleanSearcher} {skip : Option DocMatch}
    {r : Option Nat} {s' : BooleanSearcher}
    (h : s.advanceNextMust skip = (r, s')) : failCfgs s' = failCfgs s := by
  match hms : s.mustSearcher with
  | some c =>
    have hs1s : (if sameObj s.currMust skip then s
        else s.putPool s.currMust).shouldSearcher = s.shouldSearcher := by
      by_cases hso : sameObj s.currMust skip <;>
        simp [hso, (putPool_slots s s.currMust).2.1]
    have hs1n : (if sameObj s.currMust skip then s
        else s.putPool s.currMust).mustNotSearcher = s.mustNotSearcher := by
      by_cases hso : sameObj s.currMust skip <;>
        simp [hso, (putPool_slots s s.currMust).2.2]
    simp only [BooleanSearcher.advanceNextMust, hms] at h
    rcases hr : (c.Next (if sameObj s.currMust skip then s
        else s.putPool s.currMust).nextTok).1 with e2 | m
    · rw [hr] at h
      injection h with h1 h2
      subst h2
      simp [failCfgs, hs1s, hs1n, hms, Searcher.next_failOn]
    · rw [hr] at h
      injection h with h1 h2
      subst h2
      rw [failCfgs_recompute]
      simp [failCfgs, hs1s, hs1n, hms, Searcher.next_failOn]
  | none =>
    match hss : s.shouldSearcher with
    | some c =>
      have hs1m : (if sameObj s.currShould skip then s
          else s.putPool s.currShould).mustSearcher = s.mustSearcher := by
        by_cases hso : sameObj s.currShould skip <;>
          simp [hso, (putPool_slots s s.currShould).1]
      have hs1n : (if sameObj s.currShould skip then s
          else s.putPool s.currShould).mustNotSearcher = s.mustNotSearcher := by
        by_cases hso : sameObj s.currShould skip <;>
          simp [hso, (putPool_slots s s.currShould).2.2]
      simp only [BooleanSearcher.advanceNextMust, hms, hss] at h
      rcases hr : (c.Next (if sameObj s.currShould skip then s
          else s.putPool s.currShould).nextTok).1 with e2 | m
      · rw [hr] at h
        injection h with h1 h2
        subst h2
        simp [failCfgs, hs1m, hs1n, hss, Searcher.next_failOn]
      · rw [hr] at h
        injection h with h1 h2
        subst h2
        rw [failCfgs_recompute]
        simp [failCfgs, hs1m, hs1n, hss, Searcher.next_failOn]
    | none =>
      simp only [BooleanSearcher.advanceNextMust, hms, hss] at h
      injection h with h1 h2
      subst h2
      simp [failCfgs, hms, hss]

theorem initMust_failCfgs {s : BooleanSearcher} {r : Option Nat}
    {s' : BooleanSearcher} (h : s.initMust = (r, s')) :
    failCfgs s' = failCfgs s := by
  match hms : s.mustSearcher with
  | some c =>
    have hs1a : (if s.currMust.isSome then s.putPool s.currMust
        else s).shouldSearcher = s.shouldSearcher := by
      by_cases hso : s.currMust.isSome <;>
        simp [hso, (putPool_slots s s.currMust).2.1]
    have hs1b : (if s.currMust.isSome then s.putPool s.currMust
        else s).mustNotSearcher = s.mustNotSearcher := by
      by_cases hso : s.currMust.isSome <;>
        simp [hso, (putPool_slots s s.currMust).2.2]
    simp only [BooleanSearcher.initMust, hms] at h
    rcases hr : (c.Next (if s.currMust.isSome then s.putPool s.currMust
        else s).nextTok).1 with e2 | m <;>
      rw [hr] at h <;>
      (injection h with h1 h2
       subst h2
       simp [failCfgs, hs1a, hs1b, hms, Searcher.next_failOn])
  | none =>
    simp only [BooleanSearcher.initMust, hms] at h
    injection h with h1 h2
    subst h2
    rfl

theorem initShould_failCfgs {s : BooleanSearcher} {r : Option Nat}
    {s' : BooleanSearcher} (h : s.initShould = (r, s')) :
    failCfgs s' = failCfgs s := by
  match hms : s.shouldSearcher with
  | some c =>
    have hs1a : (if s.currShould.isSome then s.putPool s.currShould
        else s).mustSearcher = s.mustSearcher := by
      by_cases hso : s.currShould.isSome <;>
        simp [hso, (putPool_slots s s.currShould).1]
    have hs1b : (if s.currShould.isSome then s.putPool s.currShould
        else s).mustNotSearcher = s.mustNotSearcher := by
      by_cases hso : s.currShould.isSome <;>
        simp [hso, (putPool_slots s s.currShould).2.2]
    simp only [BooleanSearcher.initShould, hms] at h
    rcases hr : (c.Next (if s.currShould.isSome then s.putPool s.currShould
        else s).nextTok).1 with e2 | m <;>
      rw [hr] at h <;>
      (injection h with h1 h2
       subst h2
       simp [failCfgs, hs1a, hs1b, hms, Searcher.next_failOn])
  | none =>
    simp only [BooleanSearcher.initShould, hms] at h
    injection h with h1 h2
    subst h2
    rfl

theorem initMustNot_failCfgs {s : BooleanSearcher} {r : Option Nat}
    {s' : BooleanSearcher} (h : s.initMustNot = (r, s')) :
    failCfgs s' = failCfgs s := by
  match hms : s.mustNotSearcher with
  | some c =>
    have hs1a : (if s.currMustNot.isSome then s.putPool s.currMustNot
        else s).mustSearcher = s.mustSearcher := by
      by_cases hso : s.currMustNot.isSome <;>
        simp [hso, (putPool_slots s s.currMustNot).1]
    have hs1b : (if s.currMustNot.isSome then s.putPool s.currMustNot
        else s).shouldSearcher = s.shouldSearcher := by
      by_cases hso : s.currMustNot.isSome <;>
        simp [hso, (putPool_slots s s.currMustNot).2.1]
    simp only [BooleanSearcher.initMustNot, hms] at h
    rcases hr : (c.Next (if s.currMustNot.isSome then s.putPool s.currMustNot
        else s).nextTok).1 with e2 | m <;>
      rw [hr] at h <;>
      (injection h with h1 h2
       subst h2
       simp [failCfgs, hs1a, hs1b, hms, Searcher.next_failOn])
  | none =>
    simp only [BooleanSearcher.initMustNot, hms] at h
    injection h with h1 h2
    subst h2
    rfl

theorem initSearchers_failCfgs {s : BooleanSearcher} {r : Option Nat}
    {s' : BooleanSearcher} (h : s.initSearchers = (r, s')) :
    failCfgs s' = failCfgs s := by
  rcases hA : s.initMust with ⟨rA, sA⟩
  match rA, hA with
  | some eA, hA =>
    have heq : s.initSearchers = (some eA, sA) := by
      simp only [BooleanSearcher.initSearchers, hA]
    rw [h] at heq
    injection heq with h1 h2
    rw [h2]
    exact initMust_failCfgs hA
  | none, hA =>
    rcases hB : sA.initShould with ⟨rB, sB⟩
    match rB, hB with
    | some eB, hB =>
      have heq : s.initSearchers = (some eB, sB) := by
        simp only [BooleanSearcher.initSearchers, hA, hB]
      rw [h] at heq
      injection heq with h1 h2
      rw [h2]
      rw [initShould_failCfgs hB]
      exact initMust_failCfgs hA
    | none, hB =>
      rcases hC : sB.initMustNot with ⟨rC, sC⟩
      match rC, hC with
      | some eC, hC =>
        have heq : s.initSearchers = (some eC, sC) := by
          simp only [BooleanSearcher.initSearchers, hA, hB, hC]
        rw [h] at heq
        injection heq with h1 h2
        rw [h2]
        rw [initMustNot_failCfgs hC, initShould_failCfgs hB]
        exact initMust_failCfgs hA
      | none, hC =>
        have heq : s.initSearchers =
            (none, { sC.recomputeCurrentID with inited := true }) := by
          simp only [BooleanSearcher.initSearchers, hA, hB, hC]
        rw [h] at heq
        injection heq with h1 h2
        rw [h2]
        have hrec : failCfgs ({ sC.recomputeCurrentID with inited := true }) =
            failCfgs sC.recomputeCurrentID := rfl
        rw [hrec, failCfgs_recompute, initMustNot_failCfgs hC,
          initShould_failCfgs hB]
        exact initMust_failCfgs hA

theorem advMust_failCfgs {s : BooleanSearcher} {t : Nat} {r : Option Nat}
    {s' : BooleanSearcher} (h : s.advMust t = (r, s')) :
    failCfgs s' = failCfgs s := by
  match hms : s.mustSearcher with
  | some c =>
    have hs1a : (if s.currMust.isSome then s.putPool s.currMust
        else s).shouldSearcher = s.shouldSearcher := by
      by_cases hso : s.currMust.isSome <;>
        simp [hso, (putPool_slots s s.currMust).2.1]
    have hs1b : (if s.currMust.isSome then s.putPool s.currMust
        else s).mustNotSearcher = s.mustNotSearcher := by
      by_cases hso : s.currMust.isSome <;>
        simp [hso, (putPool_slots s s.currMust).2.2]
    simp only [BooleanSearcher.advMust, hms] at h
    rcases hr : (c.Advance t (if s.currMust.isSome then s.putPool s.currMust
        else s).nextTok).1 with e2 | m <;>
      rw [hr] at h <;>
      (injection h with h1 h2
       subst h2
       simp [failCfgs, hs1a, hs1b, hms, Searcher.advance_failOn])
  | none =>
    simp only [BooleanSearcher.advMust, hms] at h
    injection h with h1 h2
    subst h2
    rfl

theorem advMust_error {s : BooleanSearcher} {t e : Nat} {s' : BooleanSearcher}
    (h : s.advMust t = (some e, s')) :
    ∃ c k, s.mustSearcher = some c ∧ c.failOn = some (k, e) := by
  match hms : s.mustSearcher with
  | none => simp only [BooleanSearcher.advMust, hms] at h; cases h
  | some c =>
    simp only [BooleanSearcher.advMust, hms] at h
    rcases hr : (c.Advance t (if s.currMust.isSome then s.putPool s.currMust
        else s).nextTok).1 with e2 | m
    · rw [hr] at h
      injection h with h1 h2
      injection h1 with h1
      subst h1
      obtain ⟨k, hk⟩ := Searcher.advance_error hr
      exact ⟨c, k, rfl, hk⟩
    · rw [hr] at h
      cases h

theorem advShould_failCfgs {s : BooleanSearcher} {t : Nat} {r : Option Nat}
    {s' : BooleanSearcher} (h : s.advShould t = (r, s')) :
    failCfgs s' = failCfgs s := by
  match hms : s.shouldSearcher with
  | some c =>
    have hs1a : (if s.currShould.isSome then s.putPool s.currShould
        else s).mustSearcher = s.mustSearcher := by
      by_cases hso : s.currShould.isSome <;>
        simp [hso, (putPool_slots s s.currShould).1]
    have hs1b : (if s.currShould.isSome then s.putPool s.currShould
        else s).mustNotSearcher = s.mustNotSearcher := by
      by_cases hso : s.currShould.isSome <;>
        simp [hso, (putPool_slots s s.currShould).2.2]
    simp only [BooleanSearcher.advShould, hms] at h
    rcases hr : (c.Advance t (if s.currShould.isSome then s.putPool s.currShould
        else s).nextTok).1 with e2 | m <;>
      rw [hr] at h <;>
      (injection h with h1 h2
       subst h2
       simp [failCfgs, hs1a, hs1b, hms, Searcher.advance_failOn])
  | none =>
    simp only [BooleanSearcher.advShould, hms] at h
    injection h with h1 h2
    subst h2
    rfl

theorem advShould_error {s : BooleanSearcher} {t e : Nat} {s' : BooleanSearcher}
    (h : s.advShould t = (some e, s')) :
    ∃ c k, s.shouldSearcher = some c ∧ c.failOn = some (k, e) := by
  match hms : s.shouldSearcher with
  | none => simp only [BooleanSearcher.advShould, hms] at h; cases h
  | some c =>
    simp only [BooleanSearcher.advShould, hms] at h
    rcases hr : (c.Advance t (if s.currShould.isSome then s.putPool s.currShould
        else s).nextTok).1 with e2 | m
    · rw [hr] at h
      injection h with h1 h2
      injection h1 with h1
      subst h1
      obtain ⟨k, hk⟩ := Searcher.advance_error hr
      exact ⟨c, k, rfl, hk⟩
    · rw [hr] at h
      cases h

theorem advMustNot_failCfgs {s : BooleanSearcher} {t : Nat} {r : Option Nat}
    {s' : BooleanSearcher} (h : s.advMustNot t = (r, s')) :
    failCfgs s' = failCfgs s := by
  match hms : s.mustNotSearcher with
  | some c =>
    have hs1a : (if s.currMustNot.isSome then s.putPool s.currMustNot
        else s).mustSearcher = s.mustSearcher := by
      by_cases hso : s.currMustNot.isSome <;>
        simp [hso, (putPool_slots s s.currMustNot).1]
    have hs1b : (if s.currMustNot.isSome then s.putPool s.currMustNot
        else s).shouldSearcher = s.shouldSearcher := by
      by_cases hso : s.currMustNot.isSome <;>
        simp [hso, (putPool_slots s s.currMustNot).2.1]
    simp only [BooleanSearcher.advMustNot, hms] at h
    rcases hr : (c.Advance t (if s.currMustNot.isSome then s.putPool s.currMustNot
        else s).nextTok).1 with e2 | m <;>
      rw [hr] at h <;>
      (injection h with h1 h2
       subst h2
       simp [failCfgs, hs1a, hs1b, hms, Searcher.advance_failOn])
  | none =>
    simp only [BooleanSearcher.advMustNot, hms] at h
    injection h with h1 h2
    subst h2
    rfl

theorem advMustNot_error {s : BooleanSearcher} {t e : Nat} {s' : BooleanSearcher}
    (h : s.advMustNot t = (some e, s')) :
    ∃ c k, s.mustNotSearcher = some c ∧ c.failOn = some (k, e) := by
  match hms : s.mustNotSearcher with
  | none => simp only [BooleanSearcher.advMustNot, hms] at h; cases h
  | some c =>
    simp only [BooleanSearcher.advMustNot, hms] at h
    rcases hr : (c.Advance t (if s.currMustNot.isSome then s.putPool s.currMustNot
        else s).nextTok).1 with e2 | m
    · rw [hr] at h
      injection h with h1 h2
      injection h1 with h1
      subst h1
      obtain ⟨k, hk⟩ := Searcher.advance_error hr
      exact ⟨c, k, rfl, hk⟩
    · rw [hr] at h
      cases h

theorem initMust_pres {s : BooleanSearcher} {r : Option Nat}
    {s' : BooleanSearcher} (h : s.initMust = (r, s')) :
    s'.shouldSearcher = s.shouldSearcher ∧
      s'.mustNotSearcher = s.mustNotSearcher := by
  match hms : s.mustSearcher with
  | none =>
    simp only [BooleanSearcher.initMust, hms] at h
    injection h with h1 h2
    subst h2
    exact ⟨rfl, rfl⟩
  | some c =>
    simp only [BooleanSearcher.initMust, hms] at h
    rcases hcm : s.currMust with _ | dm <;>
      simp only [hcm, Option.isSome_none, Option.isSome_some, if_true, if_false,
        Bool.false_eq_true, BooleanSearcher.putPool] at h <;>
      rcases hr : (c.Next s.nextTok).1 with e2 | m <;>
      [skip; skip; rw [hr] at h; rw [hr] at h] <;>
      first
      | (rw [hr] at h
         injection h with h1 h2
         subst h2
         exact ⟨rfl, rfl⟩)
      | (injection h with h1 h2
         subst h2
         simp [BooleanSearcher.recomputeCurrentID])

theorem initShould_pres {s : BooleanSearcher} {r : Option Nat}
    {s' : BooleanSearcher} (h : s.initShould = (r, s')) :
    s'.mustSearcher = s.mustSearcher ∧
      s'.mustNotSearcher = s.mustNotSearcher := by
  match hms : s.shouldSearcher with
  | none =>
    simp only [BooleanSearcher.initShould, hms] at h
    injection h with h1 h2
    subst h2
    exact ⟨rfl, rfl⟩
  | some c =>
    simp only [BooleanSearcher.initShould, hms] at h
    rcases hcm : s.currShould with _ | dm <;>
      simp only [hcm, Option.isSome_none, Option.isSome_some, if_true, if_false,
        Bool.false_eq_true, BooleanSearcher.putPool] at h <;>
      rcases hr : (c.Next s.nextTok).1 with e2 | m <;>
      rw [hr] at h <;>
      (injection h with h1 h2
       subst h2
       exact ⟨rfl, rfl⟩)

theorem initSearchers_error {s : BooleanSearcher} {e : Nat}
    {s' : BooleanSearcher} (h : s.initSearchers = (some e, s')) :
    ∃ c k, (s.mustSearcher = some c ∨ s.shouldSearcher = some c ∨
      s.mustNotSearcher = some c) ∧ c.failOn = some (k, e) := by
  rcases hA : s.initMust with ⟨rA, sA⟩
  match rA, hA with
  | some eA, hA =>
    have heq : s.initSearchers = (some eA, sA) := by
      simp only [BooleanSearcher.initSearchers, hA]
    rw [h] at heq
    injection heq with h1 h2
    injection h1 with h1
    subst h1
    obtain ⟨c, k, hc, hk⟩ := initMust_error hA
    exact ⟨c, k, Or.inl hc, hk⟩
  | none, hA =>
    obtain ⟨hAs, hAn⟩ := initMust_pres hA
    rcases hB : sA.initShould with ⟨rB, sB⟩
    match rB, hB with
    | some eB, hB =>
      have heq : s.initSearchers = (some eB, sB) := by
        simp only [BooleanSearcher.initSearchers, hA, hB]
      rw [h] at heq
      injection heq with h1 h2
      injection h1 with h1
      subst h1
      obtain ⟨c, k, hc, hk⟩ := initShould_error hB
      rw [hAs] at hc
      exact ⟨c, k, Or.inr (Or.inl hc), hk⟩
    | none, hB =>
      obtain ⟨hBm, hBn⟩ := initShould_pres hB
      rcases hC : sB.initMustNot with ⟨rC, sC⟩
      match rC, hC with
      | some eC, hC =>
        have heq : s.initSearchers = (some eC, sC) := by
          simp only [BooleanSearcher.initSearchers, hA, hB, hC]
        rw [h] at heq
        injection heq with h1 h2
        injection h1 with h1
        subst h1
        obtain ⟨c, k, hc, hk⟩ := initMustNot_error hC
        rw [hBn, hAn] at hc
        exact ⟨c, k, Or.inr (Or.inr hc), hk⟩
      | none, hC =>
        have heq : s.initSearchers =
            (none, { sC.recomputeCurrentID with inited := true }) := by
          simp only [BooleanSearcher.initSearchers, hA, hB, hC]
        rw [h] at heq
        injection heq with h1 h2
        cases h1

theorem advanceNextMust_error {s : BooleanSearcher} {skip : Option DocMatch}
    {e : Nat} {s' : BooleanSearcher}
    (h : s.advanceNextMust skip = (some e, s')) :
    ∃ c k, (s.mustSearcher = some c ∨ s.shouldSearcher = some c) ∧
      c.failOn = some (k, e) := by
  match hms : s.mustSearcher with
  | some c =>
    simp only [BooleanSearcher.advanceNextMust, hms] at h
    rcases hr : (c.Next (if sameObj s.currMust skip then s
        else s.putPool s.currMust).nextTok).1 with e2 | m
    · rw [hr] at h
      injection h with h1 h2
      injection h1 with h1
      subst h1
      obtain ⟨k, hk⟩ := Searcher.next_error hr
      exact ⟨c, k, Or.inl rfl, hk⟩
    · rw [hr] at h
      cases h
  | none =>
    match hss : s.shouldSearcher with
    | some c =>
      simp only [BooleanSearcher.advanceNextMust, hms, hss] at h
      rcases hr : (c.Next (if sameObj s.currShould skip then s
          else s.putPool s.currShould).nextTok).1 with e2 | m
      · rw [hr] at h
        injection h with h1 h2
        injection h1 with h1
        subst h1
        obtain ⟨k, hk⟩ := Searcher.next_error hr
        exact ⟨c, k, Or.inr rfl, hk⟩
      · rw [hr] at h
        cases h
    | none =>
      simp only [BooleanSearcher.advanceNextMust, hms, hss] at h
      injection h with h1 h2
      cases h1

theorem scoreAndAdvance_failCfgs_error {s : BooleanSearcher}
    {cons : List DocMatch} {r : StepRes} {s1 : BooleanSearcher}
    (h : s.scoreAndAdvance cons = (r, s1)) :
    failCfgs s1 = failCfgs s ∧ ∀ e, r = .fail e → hasErr s e := by
  rcases ha : s.advanceNextMust (some (scorerScore cons)) with ⟨ropt, s2⟩
  match ropt, ha with
  | some e2, ha =>
    have heq : s.scoreAndAdvance cons = (.fail e2, s2) := by
      simp only [BooleanSearcher.scoreAndAdvance, ha]
    rw [h] at heq
    injection heq with h1 h2
    rw [h2]
    refine ⟨advanceNextMust_failCfgs ha, ?_⟩
    intro e he
    rw [he] at h1
    injection h1 with h1
    subst h1
    obtain ⟨c, k, hc, hk⟩ := advanceNextMust_error ha
    rcases hc with hc | hc
    · exact ⟨c, k, Or.inl hc, hk⟩
    · exact ⟨c, k, Or.inr (Or.inl hc), hk⟩
  | none, ha =>
    have heq : s.scoreAndAdvance cons = (.emit (scorerScore cons) cons, s2) := by
      simp only [BooleanSearcher.scoreAndAdvance, ha]
    rw [h] at heq
    injection heq with h1 h2
    rw [h2]
    refine ⟨advanceNextMust_failCfgs ha, ?_⟩
    intro e he
    rw [he] at h1
    cases h1

theorem mustOnly_failCfgs_error {s : BooleanSearcher} {r : StepRes}
    {s1 : BooleanSearcher} (h : s.mustOnly = (r, s1)) :
    failCfgs s1 = failCfgs s ∧ ∀ e, r = .fail e → hasErr s e := by
  match hcm : s.currMust with
  | some m =>
    simp only [BooleanSearcher.mustOnly, hcm] at h
    exact scoreAndAdvance_failCfgs_error h
  | none =>
    simp only [BooleanSearcher.mustOnly, hcm] at h
    injection h with h1 h2
    rw [← h2]
    refine ⟨rfl, ?_⟩
    intro e he
    rw [he] at h1
    cases h1

theorem mustNotCheck_failCfgs_error {s : BooleanSearcher} {d : Nat}
    {r : MNRes} {s1 : BooleanSearcher} (h : s.mustNotCheck d = (r, s1)) :
    failCfgs s1 = failCfgs s ∧ ∀ e, r = .fail e → hasErr s e := by
  match hcm : s.currMustNot with
  | none =>
    simp only [BooleanSearcher.mustNotCheck, hcm] at h
    injection h with h1 h2
    rw [← h2]
    refine ⟨rfl, ?_⟩
    intro e he
    rw [he] at h1
    cases h1
  | some mn =>
    by_cases hlt : mn.id < d
    · match hmn : s.mustNotSearcher with
      | some c =>
        simp only [BooleanSearcher.mustNotCheck, hcm, hmn, if_pos hlt] at h
        rcases hr : (c.Advance d (s.putPool (some mn)).nextTok).1 with e2 | m
        · rw [hr] at h
          injection h with h1 h2
          rw [← h2]
          constructor
          · simp [failCfgs, BooleanSearcher.putPool, hmn, Searcher.advance_failOn]
          · intro e he
            rw [he] at h1
            injection h1 with h1
            subst h1
            obtain ⟨k, hk⟩ := Searcher.advance_error hr
            exact ⟨c, k, Or.inr (Or.inr hmn), hk⟩
        · rw [hr] at h
          rcases m with _ | mn2
          · injection h with h1 h2
            rw [← h2]
            constructor
            · simp [failCfgs, BooleanSearcher.putPool, hmn, Searcher.advance_failOn]
            · intro e he
              rw [he] at h1
              cases h1
          · simp only [] at h
            by_cases heq2 : mn2.id = d
            · rw [if_pos heq2] at h
              injection h with h1 h2
              rw [← h2]
              constructor
              · simp [failCfgs, BooleanSearcher.putPool, hmn, Searcher.advance_failOn]
              · intro e he
                rw [he] at h1
                cases h1
            · rw [if_neg heq2] at h
              injection h with h1 h2
              rw [← h2]
              constructor
              · simp [failCfgs, BooleanSearcher.putPool, hmn, Searcher.advance_failOn]
              · intro e he
                rw [he] at h1
                cases h1
      | none =>
        simp only [BooleanSearcher.mustNotCheck, hcm, hmn, if_pos hlt] at h
        injection h with h1 h2
        rw [← h2]
        refine ⟨failCfgs_putPool s (some mn), ?_⟩
        intro e he
        rw [he] at h1
        cases h1
    · simp only [BooleanSearcher.mustNotCheck, hcm, if_neg hlt] at h
      by_cases heq2 : mn.id = d
      · rw [if_pos heq2] at h
        injection h with h1 h2
        rw [← h2]
        refine ⟨rfl, ?_⟩
        intro e he
        rw [he] at h1
        cases h1
      · rw [if_neg heq2] at h
        injection h with h1 h2
        rw [← h2]
        refine ⟨rfl, ?_⟩
        intro e he
        rw [he] at h1
        cases h1

theorem shouldPart_failCfgs_error {s : BooleanSearcher} {d : Nat}
    {r : StepRes} {s1 : BooleanSearcher} (h : s.shouldPart d = (r, s1)) :
    failCfgs s1 = failCfgs s ∧ ∀ e, r = .fail e → hasErr s e := by
  match hcs : s.currShould with
  | none =>
    simp only [BooleanSearcher.shouldPart, hcs] at h
    match hss : s.shouldSearcher with
    | some c =>
      simp only [hss] at h
      by_cases hmv : c.minVal = 0
      · rw [if_pos hmv] at h
        exact mustOnly_failCfgs_error h
      · rw [if_neg hmv] at h
        injection h with h1 h2
        rw [← h2]
        refine ⟨rfl, ?_⟩
        intro e he
        rw [he] at h1
        cases h1
    | none =>
      simp only [hss] at h
      exact mustOnly_failCfgs_error h
  | some sh =>
    by_cases hlt : sh.id < d
    · match hss : s.shouldSearcher with
      | none =>
        simp only [BooleanSearcher.shouldPart, hcs, if_pos hlt, hss] at h
        injection h with h1 h2
        rw [← h2]
        refine ⟨failCfgs_putPool s (some sh), ?_⟩
        intro e he
        rw [he] at h1
        cases h1
      | some c =>
        simp only [BooleanSearcher.shouldPart, hcs, if_pos hlt, hss] at h
        rcases hr : (c.Advance d (s.putPool (some sh)).nextTok).1 with e2 | m
        · rw [hr] at h
          injection h with h1 h2
          rw [← h2]
          constructor
          · simp [failCfgs, BooleanSearcher.putPool, hss, Searcher.advance_failOn]
          · intro e he
            rw [he] at h1
            injection h1 with h1
            subst h1
            obtain ⟨k, hk⟩ := Searcher.advance_error hr
            exact ⟨c, k, Or.inr (Or.inl hss), hk⟩
        · rw [hr] at h
          simp only [] at h
          rcases m with _ | sh2
          · simp only [] at h
            by_cases hmv : (c.Advance d (s.putPool (some sh)).nextTok).2.1.minVal = 0
            · rw [if_pos hmv] at h
              obtain ⟨hf, he⟩ := mustOnly_failCfgs_error h
              constructor
              · rw [hf]
                simp [failCfgs, BooleanSearcher.putPool, hss, Searcher.advance_failOn]
              · intro e hre
                refine hasErr_congr ?_ (he e hre)
                simp [failCfgs, BooleanSearcher.putPool, hss, Searcher.advance_failOn]
            · rw [if_neg hmv] at h
              injection h with h1 h2
              rw [← h2]
              constructor
              · simp [failCfgs, BooleanSearcher.putPool, hss, Searcher.advance_failOn]
              · intro e he
                rw [he] at h1
                cases h1
          · simp only [] at h
            by_cases hid : sh2.id = d
            · rw [if_pos hid] at h
              obtain ⟨hf, he⟩ := scoreAndAdvance_failCfgs_error h
              constructor
              · rw [hf]
                simp [failCfgs, BooleanSearcher.putPool, hss, Searcher.advance_failOn]
              · intro e hre
                refine hasErr_congr ?_ (he e hre)
                simp [failCfgs, BooleanSearcher.putPool, hss, Searcher.advance_failOn]
            · rw [if_neg hid] at h
              by_cases hmv : (c.Advance d (s.putPool (some sh)).nextTok).2.1.minVal = 0
              · rw [if_pos hmv] at h
                obtain ⟨hf, he⟩ := mustOnly_failCfgs_error h
                constructor
                · rw [hf]
                  simp [failCfgs, BooleanSearcher.putPool, hss,
                    Searcher.advance_failOn]
                · intro e hre
                  refine hasErr_congr ?_ (he e hre)
                  simp [failCfgs, BooleanSearcher.putPool, hss,
                    Searcher.advance_failOn]
              · rw [if_neg hmv] at h
                injection h with h1 h2
                rw [← h2]
                constructor
                · simp [failCfgs, BooleanSearcher.putPool, hss,
                    Searcher.advance_failOn]
                · intro e he
                  rw [he] at h1
                  cases h1
    · by_cases hid : sh.id = d
      · simp only [BooleanSearcher.shouldPart, hcs, if_neg hlt, if_pos hid] at h
        exact scoreAndAdvance_failCfgs_error h
      · simp only [BooleanSearcher.shouldPart, hcs, if_neg hlt, if_neg hid] at h
        match hss : s.shouldSearcher with
        | some c =>
          simp only [hss] at h
          by_cases hmv : c.minVal = 0
          · rw [if_pos hmv] at h
            exact mustOnly_failCfgs_error h
          · rw [if_neg hmv] at h
            injection h with h1 h2
            rw [← h2]
            refine ⟨rfl, ?_⟩
            intro e he
            rw [he] at h1
            cases h1
        | none =>
          simp only [hss] at h
          exact mustOnly_failCfgs_error h

theorem nextBody_failCfgs_error {s : BooleanSearcher} {d : Nat}
    {r : StepRes} {s1 : BooleanSearcher} (h : s.nextBody d = (r, s1)) :
    failCfgs s1 = failCfgs s ∧ ∀ e, r = .fail e → hasErr s e := by
  rcases hmn : s.mustNotCheck d with ⟨rm, sm⟩
  obtain ⟨hf1, he1⟩ := mustNotCheck_failCfgs_error hmn
  match rm, hmn with
  | .fail e2, hmn =>
    have heq : s.nextBody d = (.fail e2, sm) := by
      simp only [BooleanSearcher.nextBody, hmn]
    rw [h] at heq
    injection heq with h1 h2
    rw [h2]
    refine ⟨hf1, ?_⟩
    intro e he
    rw [he] at h1
    injection h1 with h1
    subst h1
    exact he1 e rfl
  | .veto, hmn =>
    rcases ha : sm.advanceNextMust none with ⟨ra, sa⟩
    match ra, ha with
    | some e2, ha =>
      have heq : s.nextBody d = (.fail e2, sa) := by
        simp only [BooleanSearcher.nextBody, hmn, ha]
      rw [h] at heq
      injection heq with h1 h2
      rw [h2]
      refine ⟨(advanceNextMust_failCfgs ha).trans hf1, ?_⟩
      intro e he
      rw [he] at h1
      injection h1 with h1
      subst h1
      obtain ⟨c, k, hc, hk⟩ := advanceNextMust_error ha
      refine hasErr_congr hf1 ?_
      rcases hc with hc | hc
      · exact ⟨c, k, Or.inl hc, hk⟩
      · exact ⟨c, k, Or.inr (Or.inl hc), hk⟩
    | none, ha =>
      have heq : s.nextBody d = (.cont, sa) := by
        simp only [BooleanSearcher.nextBody, hmn, ha]
      rw [h] at heq
      injection heq with h1 h2
      rw [h2]
      refine ⟨(advanceNextMust_failCfgs ha).trans hf1, ?_⟩
      intro e he
      rw [he] at h1
      cases h1
  | .clear, hmn =>
    rcases hsp : sm.shouldPart d with ⟨rs2, ss⟩
    obtain ⟨hf2, he2⟩ := shouldPart_failCfgs_error hsp
    match rs2, hsp with
    | .fail e2, hsp =>
      have heq : s.nextBody d = (.fail e2, ss) := by
        simp only [BooleanSearcher.nextBody, hmn, hsp]
      rw [h] at heq
      injection heq with h1 h2
      rw [h2]
      refine ⟨hf2.trans hf1, ?_⟩
      intro e he
      rw [he] at h1
      injection h1 with h1
      subst h1
      exact hasErr_congr hf1 (he2 e rfl)
    | .emit m cons, hsp =>
      have heq : s.nextBody d = (.emit m cons, ss) := by
        simp only [BooleanSearcher.nextBody, hmn, hsp]
      rw [h] at heq
      injection heq with h1 h2
      rw [h2]
      refine ⟨hf2.trans hf1, ?_⟩
      intro e he
      rw [he] at h1
      cases h1
    | .cont, hsp =>
      rcases ha : ss.advanceNextMust none with ⟨ra, sa⟩
      match ra, ha with
      | some e2, ha =>
        have heq : s.nextBody d = (.fail e2, sa) := by
          simp only [BooleanSearcher.nextBody, hmn, hsp, ha]
        rw [h] at heq
        injection heq with h1 h2
        rw [h2]
        refine ⟨((advanceNextMust_failCfgs ha).trans hf2).trans hf1, ?_⟩
        intro e he
        rw [he] at h1
        injection h1 with h1
        subst h1
        obtain ⟨c, k, hc, hk⟩ := advanceNextMust_error ha
        refine hasErr_congr (hf2.trans hf1) ?_
        rcases hc with hc | hc
        · exact ⟨c, k, Or.inl hc, hk⟩
        · exact ⟨c, k, Or.inr (Or.inl hc), hk⟩
      | none, ha =>
        have heq : s.nextBody d = (.cont, sa) := by
          simp only [BooleanSearcher.nextBody, hmn, hsp, ha]
        rw [h] at heq
        injection heq with h1 h2
        rw [h2]
        refine ⟨((advanceNextMust_failCfgs ha).trans hf2).trans hf1, ?_⟩
        intro e he
        rw [he] at h1
        cases h1

theorem nextLoop_error : ∀ (n : Nat) (s : BooleanSearcher) (e : Nat)
    (s' : BooleanSearcher), BooleanSearcher.nextLoop n s = (.error e, s') →
    hasErr s e := by
  intro n
  induction n with
  | zero =>
    intro s e s' h
    injection h with h1 h2
    cases h1
  | succ n ih =>
    intro s e s' h
    match hcid : s.currentID with
    | none =>
      have heq : BooleanSearcher.nextLoop (n + 1) s = (.ok none, s) := by
        simp only [BooleanSearcher.nextLoop, hcid]
      rw [h] at heq
      injection heq with h1 h2
      cases h1
    | some d =>
      rcases hb : s.nextBody d with ⟨rb, sb⟩
      obtain ⟨hf, he⟩ := nextBody_failCfgs_error hb
      match rb, hb with
      | .fail e2, hb =>
        have heq : BooleanSearcher.nextLoop (n + 1) s = (.error e2, sb) := by
          simp only [BooleanSearcher.nextLoop, hcid, hb]
        rw [h] at heq
        injection heq with h1 h2
        injection h1 with h1
        subst h1
        exact he e rfl
      | .emit m cons, hb =>
        have heq : BooleanSearcher.nextLoop (n + 1) s =
            (.ok (some (m, cons)), sb) := by
          simp only [BooleanSearcher.nextLoop, hcid, hb]
        rw [h] at heq
        injection heq with h1 h2
        cases h1
      | .cont, hb =>
        have heq : BooleanSearcher.nextLoop (n + 1) s =
            BooleanSearcher.nextLoop n sb := by
          simp only [BooleanSearcher.nextLoop, hcid, hb]
        rw [heq] at h
        exact hasErr_congr hf (ih sb e s' h)

theorem Next_error {s : BooleanSearcher} {e : Nat} {s' : BooleanSearcher}
    (h : s.Next = (.error e, s')) : hasErr s e := by
  by_cases hin : s.inited
  · have heq : s.Next = BooleanSearcher.nextLoop s.loopMeasure s := by
      simp only [BooleanSearcher.Next, hin, if_true]
    rw [heq] at h
    exact nextLoop_error _ s e s' h
  · rcases hI : s.initSearchers with ⟨rI, sI⟩
    match rI, hI with
    | some eI, hI =>
      have heq : s.Next = (.error eI, sI) := by
        simp only [BooleanSearcher.Next, if_neg hin, hI]
      rw [h] at heq
      injection heq with h1 h2
      injection h1 with h1
      subst h1
      exact initSearchers_error hI
    | none, hI =>
      have heq : s.Next = BooleanSearcher.nextLoop sI.loopMeasure sI := by
        simp only [BooleanSearcher.Next, if_neg hin, hI]
      rw [heq] at h
      exact hasErr_congr (initSearchers_failCfgs hI) (nextLoop_error _ sI e s' h)

theorem Advance_error {s : BooleanSearcher} {t e : Nat} {s' : BooleanSearcher}
    (h : s.Advance t = (.error e, s')) : hasErr s e := by
  have main : ∀ (s1 : BooleanSearcher), failCfgs s1 = failCfgs s →
      (s.Advance t = (match s1.advMust t with
        | (some e2, s2) => ((.error e2 : Except Nat (Option ScoredEmit)), s2)
        | (none, s2) =>
          match s2.advShould t with
          | (some e2, s3) => (.error e2, s3)
          | (none, s3) =>
            match s3.advMustNot t with
            | (some e2, s4) => (.error e2, s4)
            | (none, s4) => s4.recomputeCurrentID.Next)) → hasErr s e := by
    intro s1 hcfg1 hred
    rcases hA : s1.advMust t with ⟨rA, sA⟩
    match rA, hA with
    | some eA, hA =>
      rw [hA] at hred
      rw [h] at hred
      injection hred with h1 h2
      injection h1 with h1
      subst h1
      obtain ⟨c, k, hc, hk⟩ := advMust_error hA
      exact hasErr_congr hcfg1 ⟨c, k, Or.inl hc, hk⟩
    | none, hA =>
      rcases hB : sA.advShould t with ⟨rB, sB⟩
      match rB, hB with
      | some eB, hB =>
        rw [hA] at hred
        simp only [] at hred
        rw [hB] at hred
        rw [h] at hred
        injection hred with h1 h2
        injection h1 with h1
        subst h1
        obtain ⟨c, k, hc, hk⟩ := advShould_error hB
        refine hasErr_congr hcfg1 (hasErr_congr (advMust_failCfgs hA) ?_)
        exact ⟨c, k, Or.inr (Or.inl hc), hk⟩
      | none, hB =>
        rcases hC : sB.advMustNot t with ⟨rC, sC⟩
        match rC, hC with
        | some eC, hC =>
          rw [hA] at hred
          simp only [] at hred
          rw [hB] at hred
          simp only [] at hred
          rw [hC] at hred
          rw [h] at hred
          injection hred with h1 h2
          injection h1 with h1
          subst h1
          obtain ⟨c, k, hc, hk⟩ := advMustNot_error hC
          refine hasErr_congr hcfg1 (hasErr_congr (advMust_failCfgs hA)
            (hasErr_congr (advShould_failCfgs hB) ?_))
          exact ⟨c, k, Or.inr (Or.inr hc), hk⟩
        | none, hC =>
          rw [hA] at hred
          simp only [] at hred
          rw [hB] at hred
          simp only [] at hred
          rw [hC] at hred
          simp only [] at hred
          rw [hred] at h
          refine hasErr_congr hcfg1 (hasErr_congr (advMust_failCfgs hA)
            (hasErr_congr (advShould_failCfgs hB)
              (hasErr_congr (advMustNot_failCfgs hC) ?_)))
          refine hasErr_congr (failCfgs_recompute sC) (Next_error h)
  by_cases hin : s.inited
  · refine main s rfl ?_
    simp only [BooleanSearcher.Advance, hin, if_true]
  · rcases hI : s.initSearchers with ⟨rI, sI⟩
    match rI, hI with
    | some eI, hI =>
      have heq : s.Advance t = (.error eI, sI) := by
        simp only [BooleanSearcher.Advance, if_neg hin, hI]
      rw [h] at heq
      injection heq with h1 h2
      injection h1 with h1
      subst h1
      exact initSearchers_error hI
    | none, hI =>
      refine main sI (initSearchers_failCfgs hI) ?_
      simp only [BooleanSearcher.Advance, if_neg hin, hI]

/-! ## Advance characterization -/

/-- The candidate identifiers a child cursor still offers: its current match
followed by the unconsumed stream. -/
def candFrag (c : Searcher) (cur : Option DocMatch) : List Nat :=
  match cur with
  | some m => m.id :: c.ids.drop c.pos
  | none => []

theorem dropWhile_eq_drop {t : Nat} : ∀ (l : List Nat) (n : Nat),
    (∀ k, k < n → ∀ x, l[k]? = some x → x < t) →
    (∀ x, l[n]? = some x → ¬x < t) →
    l.dropWhile (fun x => decide (x < t)) = l.drop n := by
  intro l
  induction l with
  | nil => intro n _ _; simp
  | cons a xs ih =>
    intro n h1 h2
    match n with
    | 0 =>
      have ha : ¬a < t := h2 a (by simp)
      simp [List.dropWhile_cons, ha]
    | k + 1 =>
      have ha : a < t := h1 0 (by omega) a (by simp)
      simp only [List.dropWhile_cons, ha, decide_True, if_true, List.drop_succ_cons]
      exact ih k (fun j hj x hx => h1 (j + 1) (by omega) x (by simpa using hx))
        (fun x hx => h2 x (by simpa using hx))

theorem dropWhile_all {t : Nat} : ∀ (l : List Nat),
    (∀ x ∈ l, x < t) → l.dropWhile (fun x => decide (x < t)) = [] := by
  intro l
  induction l with
  | nil => simp
  | cons a xs ih =>
    intro h
    have ha : a < t := h a (by simp)
    simp only [List.dropWhile_cons, ha, decide_True, if_true]
    exact ih (fun x hx => h x (by simp [hx]))

theorem belowAll_of_sorted {c : Searcher} {m : DocMatch}
    (hsort : c.ids.Pairwise (· < ·)) (hcur : CurOK (some c) (some m))
    {t : Nat} (hlt : m.id < t) : belowAll c (some m) t := by
  obtain ⟨hpos, hent, hx⟩ := hcur
  intro k hk e he
  have hk' : k < c.pos - 1 := by simpa [spent] using hk
  have := sorted_entry_lt hsort hk' he hent
  omega

theorem Searcher.advance_full {c : Searcher} {cur : Option DocMatch} {t : Nat}
    (hwf : c.Wfc) (hcur : CurOK (some c) cur) (tok : Nat) :
    ∃ cur2 c2 tok2, c.Advance t tok = (.ok cur2, c2, tok2) ∧
      c2.cfg = c.cfg ∧ c2.Wfc ∧ CurOK (some c2) cur2 ∧
      tok2 = (if cur2.isSome then tok + 1 else tok) ∧
      (cur2.map DocMatch.tok).toList = List.range' tok (tok2 - tok) ∧
      (∀ d0 d', belowAll c cur d0 → d0 ≤ d' → t ≤ d' → belowAll c2 cur2 d') ∧
      (∀ m2, cur2 = some m2 → t ≤ m2.id) ∧
      candFrag c2 cur2 = (candFrag c cur).dropWhile (fun x => decide (x < t)) := by
  obtain ⟨hsort, hfail, hposle, hexh⟩ := hwf
  match hcu : cur with
  | none =>
    have hx : c.exhausted = true := hcur
    refine ⟨none, { c with calls := c.calls + 1 }, tok,
      Searcher.advance_exhausted hfail hx t tok, rfl,
      ⟨hsort, hfail, hposle, fun h => hexh h⟩, hx, by simp, by simp, ?_, ?_, ?_⟩
    · intro d0 d' hb h1 h2 k hk e he
      exact lt_of_lt_of_le (hb k (by simpa [spent] using hk) e he) h1
    · intro m2 hm2
      cases hm2
    · rfl
  | some m =>
    have hpos : 0 < c.pos := hcur.1
    have hent : c.stream[c.pos - 1]? = some (m.id, m.score) := hcur.2.1
    have hx : c.exhausted = false := hcur.2.2
    by_cases hge : t ≤ m.id
    · have hclamp := Searcher.advance_clamp hfail hx hent hpos hge tok
      have hnlt : ¬m.id < t := by omega
      refine ⟨some ⟨m.id, m.score, tok⟩, { c with calls := c.calls + 1 },
        tok + 1, hclamp, rfl, ⟨hsort, hfail, hposle, hexh⟩, ⟨hpos, hent, hx⟩,
        by simp, by simp [List.range'_one], ?_, ?_, ?_⟩
      · intro d0 d' hb h1 h2 k hk e he
        exact lt_of_lt_of_le (hb k (by simpa [spent] using hk) e he) h1
      · intro m2 hm2
        injection hm2 with h
        subst h
        exact hge
      · have hd : decide (m.id < t) = false := by simpa using hnlt
        simp only [candFrag, List.dropWhile_cons, hd, Bool.false_eq_true, if_false]
        rfl
    · push_neg at hge
      have hbt : belowAll c (some m) t :=
        belowAll_of_sorted hsort ⟨hpos, hent, hx⟩ hge
      obtain ⟨cur2, c2, tok2, hadv, hst, hmin, hfo2, hcl, hposle2, hwf2, hcur2,
        hbel2, hsome2, hnone2, htok2⟩ :=
        Searcher.align ⟨hsort, hfail, hposle, hexh⟩ ⟨hpos, hent, hx⟩ hbt hge tok
      refine ⟨cur2, c2, tok2, hadv, ?_, hwf2, hcur2, htok2, ?_, ?_, ?_, ?_⟩
      · simp [Searcher.cfg, hst, hmin, hfo2, hcl]
      · match hc2 : cur2 with
        | some m2 =>
          obtain ⟨-, -, -, htk⟩ := hsome2 m2 rfl
          have ht2 : tok2 = tok + 1 := by simpa using htok2
          simp [ht2, htk, List.range'_one]
        | none =>
          have ht2 : tok2 = tok := by simpa using htok2
          simp [ht2]
      · intro d0 d' hb h1 h2
        exact belowAll_mono hbel2 h2
      · intro m2 hm2
        exact (hsome2 m2 hm2).1
      · have hlt1 : ∀ e, c.stream[c.pos - 1]? = some e → e.1 < t := by
          intro e he
          rw [hent] at he
          cases he
          exact hge
        match hseek : seekList (c.stream.drop c.pos) t c.pos with
        | some ej =>
          have heq := Searcher.advance_seek_some hfail hx hlt1 hseek tok
          rw [hadv] at heq
          injection heq with h1 hrest
          injection hrest with h2 h3
          injection h1 with h1
          subst h1
          subst h2
          obtain ⟨hij, hget, hge2, hskip⟩ := seekList_some t _ _ hseek
          have hgetabs : c.stream[ej.2]? = some ej.1 := by
            rw [List.getElem?_drop] at hget
            rwa [Nat.add_sub_cancel' hij] at hget
          have hidget : c.ids[ej.2]? = some ej.1.1 := by
            simp [Searcher.ids, List.getElem?_map, hgetabs]
          have hejlen : ej.2 < c.ids.length := (List.getElem?_eq_some.mp hidget).1
          have hdw : (c.ids.drop c.pos).dropWhile (fun x => decide (x < t)) =
              (c.ids.drop c.pos).drop (ej.2 - c.pos) := by
            apply dropWhile_eq_drop
            · intro k hk x hxk
              rw [List.getElem?_drop] at hxk
              rcases hs : c.stream[c.pos + k]? with _ | e
              · rw [show c.ids = c.stream.map Prod.fst from rfl,
                  List.getElem?_map, hs] at hxk
                cases hxk
              · have hex : e.1 = x := by
                  have h2 : (c.stream[c.pos + k]?).map Prod.fst = some x := by
                    rw [← List.getElem?_map]
                    exact hxk
                  rw [hs] at h2
                  simpa using h2
                subst hex
                refine hskip k hk e ?_
                rw [List.getElem?_drop]
                exact hs
            · intro x hxk
              rw [List.getElem?_drop] at hxk
              have : c.ids[c.pos + (ej.2 - c.pos)]? = some x := hxk
              rw [Nat.add_sub_cancel' hij] at this
              rw [hidget] at this
              injection this with this
              omega
          have hdrop2 : (c.ids.drop c.pos).drop (ej.2 - c.pos) =
              c.ids.drop ej.2 := by
            rw [List.drop_drop]
            congr 1
            omega
          have hcons : c.ids.drop ej.2 = ej.1.1 :: c.ids.drop (ej.2 + 1) := by
            have := List.drop_eq_getElem_cons hejlen
            rw [this]
            congr 1
            have : c.ids[ej.2] = ej.1.1 := by
              have h2 := List.getElem?_eq_getElem hejlen
              rw [hidget] at h2
              injection h2 with h2
              exact h2.symm
            exact this
          simp only [candFrag, Searcher.ids, List.dropWhile_cons]
          have hmlt : decide (m.id < t) = true := by simpa using hge
          rw [hmlt]
          simp only [if_true]
          show ej.1.1 :: (c.stream.map Prod.fst).drop (ej.2 + 1) =
            ((c.stream.map Prod.fst).drop c.pos).dropWhile
              (fun x => decide (x < t))
          rw [show (c.stream.map Prod.fst) = c.ids from rfl, hdw, hdrop2, hcons]
        | none =>
          have heq := Searcher.advance_seek_none hfail hx hlt1 hseek tok
          rw [hadv] at heq
          injection heq with h1 hrest
          injection hrest with h2 h3
          injection h1 with h1
          subst h1
          subst h2
          have hall := seekList_none t _ _ hseek
          simp only [candFrag]
          symm
          apply dropWhile_all
          intro x hx2
          rcases List.mem_cons.mp hx2 with hx2 | hx2
          · subst hx2
            exact hge
          · obtain ⟨k, hk⟩ := List.mem_iff_getElem?.mp hx2
            rw [List.getElem?_drop] at hk
            rcases hs : c.stream[c.pos + k]? with _ | e
            · rw [show c.ids = c.stream.map Prod.fst from rfl] at hk
              rw [List.getElem?_map] at hk
              rw [hs] at hk
              cases hk
            · have hex : e.1 = x := by
                have h2 : (c.stream[c.pos + k]?).map Prod.fst = some x := by
                  rw [← List.getElem?_map]
                  exact hk
                rw [hs] at h2
                simpa using h2
              subst hex
              refine hall k e ?_
              rw [List.getElem?_drop]
              exact hs

theorem range'_pair {a b c : Nat} (hab : a ≤ b) (hbc : b ≤ c) :
    List.range' a (b - a) ++ List.range' b (c - b) = List.range' a (c - a) := by
  have h := List.range'_append a (b - a) (c - b) 1
  simp only [Nat.one_mul] at h
  rw [show a + (b - a) = b from by omega] at h
  rw [h]
  congr 1
  omega

theorem sorted_get_lt {l : List Nat} (hs : l.Pairwise (· < ·)) {i j : Nat}
    (hij : i < j) {x y : Nat} (h1 : l[i]? = some x) (h2 : l[j]? = some y) :
    x < y := by
  rw [List.pairwise_iff_getElem] at hs
  have hi := List.getElem?_eq_some.mp h1
  have hj := List.getElem?_eq_some.mp h2
  have := hs i j hi.1 hj.1 hij
  rw [hi.2, hj.2] at this
  exact this

theorem sorted_candFrag {c : Searcher} {cur : Option DocMatch}
    (hwf : c.Wfc) (hcur : CurOK (some c) cur) :
    (candFrag c cur).Pairwise (· < ·) := by
  obtain ⟨hsort, -, -, -⟩ := hwf
  match hcu : cur with
  | none => exact List.Pairwise.nil
  | some m =>
    obtain ⟨hpos, hent, -⟩ := hcur
    have hident : c.ids[c.pos - 1]? = some m.id := by
      simp [Searcher.ids, List.getElem?_map, hent]
    have hdropsort : (c.ids.drop c.pos).Pairwise (· < ·) :=
      hsort.sublist (List.drop_sublist _ _)
    refine List.pairwise_cons.mpr ⟨?_, hdropsort⟩
    intro x hx
    obtain ⟨k, hk⟩ := List.mem_iff_getElem?.mp hx
    rw [List.getElem?_drop] at hk
    have hlt : c.pos - 1 < c.pos + k := by omega
    exact sorted_get_lt hsort hlt hident hk

theorem candFrag_lb {c : Searcher} {cur : Option DocMatch}
    (hwf : c.Wfc) (hcur : CurOK (some c) cur) {m : DocMatch}
    (hm : cur = some m) : ∀ x ∈ candFrag c cur, m.id ≤ x := by
  intro x hx
  subst hm
  have hs := sorted_candFrag hwf hcur
  rcases List.mem_cons.mp hx with h | h
  · omega
  · have := (List.pairwise_cons.mp hs).1 x h
    omega

theorem dropWhile_ge {t : Nat} : ∀ l : List Nat, (∀ x ∈ l, ¬x < t) →
    l.dropWhile (fun x => decide (x < t)) = l := by
  intro l h
  match l with
  | [] => rfl
  | a :: xs =>
    have ha : ¬a < t := h a (by simp)
    simp [List.dropWhile_cons, ha]

theorem filter_dropWhile {t : Nat} (p : Nat → Bool) :
    ∀ l : List Nat, l.Pairwise (· < ·) →
    (l.dropWhile (fun x => decide (x < t))).filter p =
      (l.filter p).dropWhile (fun x => decide (x < t)) := by
  intro l
  induction l with
  | nil => intro _; rfl
  | cons a xs ih =>
    intro hs
    obtain ⟨hlt, hxs⟩ := List.pairwise_cons.mp hs
    by_cases ha : a < t
    · rw [show (a :: xs).dropWhile (fun x => decide (x < t)) =
        xs.dropWhile (fun x => decide (x < t)) from by simp [List.dropWhile_cons, ha]]
      rw [ih hxs]
      rw [List.filter_cons]
      by_cases hpa : p a
      · simp only [hpa, if_true]
        rw [show (a :: xs.filter p).dropWhile (fun x => decide (x < t)) =
          (xs.filter p).dropWhile (fun x => decide (x < t)) from by
            simp [List.dropWhile_cons, ha]]
      · simp only [hpa, Bool.false_eq_true, if_false]
    · have hall : ∀ x ∈ a :: xs, ¬x < t := by
        intro x hx
        rcases List.mem_cons.mp hx with h | h
        · omega
        · have := hlt x h
          omega
      rw [dropWhile_ge _ hall]
      have hallf : ∀ x ∈ (a :: xs).filter p, ¬x < t := by
        intro x hx
        exact hall x (List.mem_of_mem_filter hx)
      rw [dropWhile_ge _ hallf]

theorem advMust_slot {s : BooleanSearcher} (t : Nat)
    (hwf : ∀ c, s.mustSearcher = some c → c.Wfc)
    (hcur : CurOK s.mustSearcher s.currMust) :
    ∃ s2, s.advMust t = (none, s2) ∧
      s2.shouldSearcher = s.shouldSearcher ∧ s2.mustNotSearcher = s.mustNotSearcher ∧
      s2.currShould = s.currShould ∧ s2.currMustNot = s.currMustNot ∧
      s2.currentID = s.currentID ∧ s2.inited = s.inited ∧
      s2.pool = s.pool ++ (s.currMust.map DocMatch.tok).toList ∧
      s2.mustSearcher.map Searcher.cfg = s.mustSearcher.map Searcher.cfg ∧
      (∀ c2, s2.mustSearcher = some c2 → c2.Wfc) ∧
      CurOK s2.mustSearcher s2.currMust ∧
      (s2.currMust.map DocMatch.tok).toList =
        List.range' s.nextTok (s2.nextTok - s.nextTok) ∧
      s.nextTok ≤ s2.nextTok ∧
      (∀ c c2, s.mustSearcher = some c → s2.mustSearcher = some c2 →
        (∀ d0 d', belowAll c s.currMust d0 → d0 ≤ d' → t ≤ d' →
          belowAll c2 s2.currMust d') ∧
        candFrag c2 s2.currMust =
          (candFrag c s.currMust).dropWhile (fun x => decide (x < t))) ∧
      (∀ m2, s2.currMust = some m2 → t ≤ m2.id) ∧
      (s.mustSearcher = none → s2 = s) := by
  rcases hms : s.mustSearcher with _ | c
  · have hcm : s.currMust = none := by rw [hms] at hcur; exact hcur
    refine ⟨s, by simp only [BooleanSearcher.advMust, hms], rfl, rfl, rfl, rfl,
      rfl, rfl, ?_, by rw [hms], hwf, hcur, ?_, le_refl _, ?_, ?_, fun _ => rfl⟩
    · rw [hcm]
      simp
    · rw [hcm]
      simp
    · intro c c2 hc hc2
      simp [hms] at hc
    · intro m2 hm2
      rw [hcm] at hm2
      cases hm2
  · have hwfc := hwf c hms
    have hcur' : CurOK (some c) s.currMust := by rw [hms] at hcur; exact hcur
    obtain ⟨cur2, c2, tok2, hadv, hcfg2, hwf2, hcur2, htokf, htoks, hbelow,
      hgem, hcand⟩ := @Searcher.advance_full c _ t hwfc hcur' s.nextTok
    have hle : s.nextTok ≤ tok2 := by
      rw [htokf]
      rcases cur2 with _ | m2 <;> simp
    rcases hcm : s.currMust with _ | dm
    · rw [hcm] at hcand hbelow
      refine ⟨{ s with mustSearcher := some c2, currMust := cur2, nextTok := tok2 }, ?_,
        rfl, rfl, rfl, rfl, rfl, rfl, by simp, by simpa using hcfg2, ?_, hcur2,
        htoks, hle, ?_, ?_, ?_⟩
      · simp [BooleanSearcher.advMust, hms, hcm, Option.isSome_none,
          Bool.false_eq_true, if_false, hadv]
      · intro c2' hc2'
        injection hc2' with hc2'
        subst hc2'
        exact hwf2
      · intro c' c2' hc' hc2'
        injection hc' with hc'
        subst hc'
        injection hc2' with hc2'
        subst hc2'
        exact ⟨fun d0 d' hb h1 h2 => hbelow d0 d' hb h1 h2, hcand⟩
      · exact hgem
      · intro h
        simp [hms] at h
    · rw [hcm] at hcand hbelow
      refine ⟨{ s with pool := s.pool ++ [dm.tok], mustSearcher := some c2, currMust := cur2, nextTok := tok2 }, ?_,
        rfl, rfl, rfl, rfl, rfl, rfl, by simp, by simpa using hcfg2, ?_, hcur2,
        htoks, hle, ?_, ?_, ?_⟩
      · simp [BooleanSearcher.advMust, hms, hcm, Option.isSome_some, if_true,
          BooleanSearcher.putPool, hadv]
      · intro c2' hc2'
        injection hc2' with hc2'
        subst hc2'
        exact hwf2
      · intro c' c2' hc' hc2'
        injection hc' with hc'
        subst hc'
        injection hc2' with hc2'
        subst hc2'
        exact ⟨fun d0 d' hb h1 h2 => hbelow d0 d' hb h1 h2, hcand⟩
      · exact hgem
      · intro h
        simp [hms] at h

theorem advShould_slot {s : BooleanSearcher} (t : Nat)
    (hwf : ∀ c, s.shouldSearcher = some c → c.Wfc)
    (hcur : CurOK s.shouldSearcher s.currShould) :
    ∃ s2, s.advShould t = (none, s2) ∧
      s2.mustSearcher = s.mustSearcher ∧ s2.mustNotSearcher = s.mustNotSearcher ∧
      s2.currMust = s.currMust ∧ s2.currMustNot = s.currMustNot ∧
      s2.currentID = s.currentID ∧ s2.inited = s.inited ∧
      s2.pool = s.pool ++ (s.currShould.map DocMatch.tok).toList ∧
      s2.shouldSearcher.map Searcher.cfg = s.shouldSearcher.map Searcher.cfg ∧
      (∀ c2, s2.shouldSearcher = some c2 → c2.Wfc) ∧
      CurOK s2.shouldSearcher s2.currShould ∧
      (s2.currShould.map DocMatch.tok).toList =
        List.range' s.nextTok (s2.nextTok - s.nextTok) ∧
      s.nextTok ≤ s2.nextTok ∧
      (∀ c c2, s.shouldSearcher = some c → s2.shouldSearcher = some c2 →
        (∀ d0 d', belowAll c s.currShould d0 → d0 ≤ d' → t ≤ d' →
          belowAll c2 s2.currShould d') ∧
        candFrag c2 s2.currShould =
          (candFrag c s.currShould).dropWhile (fun x => decide (x < t))) ∧
      (∀ m2, s2.currShould = some m2 → t ≤ m2.id) ∧
      (s.shouldSearcher = none → s2 = s) := by
  rcases hms : s.shouldSearcher with _ | c
  · have hcm : s.currShould = none := by rw [hms] at hcur; exact hcur
    refine ⟨s, by simp only [BooleanSearcher.advShould, hms], rfl, rfl, rfl, rfl,
      rfl, rfl, ?_, by rw [hms], hwf, hcur, ?_, le_refl _, ?_, ?_, fun _ => rfl⟩
    · rw [hcm]
      simp
    · rw [hcm]
      simp
    · intro c c2 hc hc2
      simp [hms] at hc
    · intro m2 hm2
      rw [hcm] at hm2
      cases hm2
  · have hwfc := hwf c hms
    have hcur' : CurOK (some c) s.currShould := by rw [hms] at hcur; exact hcur
    obtain ⟨cur2, c2, tok2, hadv, hcfg2, hwf2, hcur2, htokf, htoks, hbelow,
      hgem, hcand⟩ := @Searcher.advance_full c _ t hwfc hcur' s.nextTok
    have hle : s.nextTok ≤ tok2 := by
      rw [htokf]
      rcases cur2 with _ | m2 <;> simp
    rcases hcm : s.currShould with _ | dm
    · rw [hcm] at hcand hbelow
      refine ⟨{ s with shouldSearcher := some c2, currShould := cur2, nextTok := tok2 }, ?_,
        rfl, rfl, rfl, rfl, rfl, rfl, by simp, by simpa using hcfg2, ?_, hcur2,
        htoks, hle, ?_, ?_, ?_⟩
      · simp [BooleanSearcher.advShould, hms, hcm, Option.isSome_none,
          Bool.false_eq_true, if_false, hadv]
      · intro c2' hc2'
        injection hc2' with hc2'
        subst hc2'
        exact hwf2
      · intro c' c2' hc' hc2'
        injection hc' with hc'
        subst hc'
        injection hc2' with hc2'
        subst hc2'
        exact ⟨fun d0 d' hb h1 h2 => hbelow d0 d' hb h1 h2, hcand⟩
      · exact hgem
      · intro h
        simp [hms] at h
    · rw [hcm] at hcand hbelow
      refine ⟨{ s with pool := s.pool ++ [dm.tok], shouldSearcher := some c2, currShould := cur2, nextTok := tok2 }, ?_,
        rfl, rfl, rfl, rfl, rfl, rfl, by simp, by simpa using hcfg2, ?_, hcur2,
        htoks, hle, ?_, ?_, ?_⟩
      · simp [BooleanSearcher.advShould, hms, hcm, Option.isSome_some, if_true,
          BooleanSearcher.putPool, hadv]
      · intro c2' hc2'
        injection hc2' with hc2'
        subst hc2'
        exact hwf2
      · intro c' c2' hc' hc2'
        injection hc' with hc'
        subst hc'
        injection hc2' with hc2'
        subst hc2'
        exact ⟨fun d0 d' hb h1 h2 => hbelow d0 d' hb h1 h2, hcand⟩
      · exact hgem
      · intro h
        simp [hms] at h

theorem advMustNot_slot {s : BooleanSearcher} (t : Nat)
    (hwf : ∀ c, s.mustNotSearcher = some c → c.Wfc)
    (hcur : CurOK s.mustNotSearcher s.currMustNot) :
    ∃ s2, s.advMustNot t = (none, s2) ∧
      s2.mustSearcher = s.mustSearcher ∧ s2.shouldSearcher = s.shouldSearcher ∧
      s2.currMust = s.currMust ∧ s2.currShould = s.currShould ∧
      s2.currentID = s.currentID ∧ s2.inited = s.inited ∧
      s2.pool = s.pool ++ (s.currMustNot.map DocMatch.tok).toList ∧
      s2.mustNotSearcher.map Searcher.cfg = s.mustNotSearcher.map Searcher.cfg ∧
      (∀ c2, s2.mustNotSearcher = some c2 → c2.Wfc) ∧
      CurOK s2.mustNotSearcher s2.currMustNot ∧
      (s2.currMustNot.map DocMatch.tok).toList =
        List.range' s.nextTok (s2.nextTok - s.nextTok) ∧
      s.nextTok ≤ s2.nextTok ∧
      (∀ c c2, s.mustNotSearcher = some c → s2.mustNotSearcher = some c2 →
        (∀ d0 d', belowAll c s.currMustNot d0 → d0 ≤ d' → t ≤ d' →
          belowAll c2 s2.currMustNot d') ∧
        candFrag c2 s2.currMustNot =
          (candFrag c s.currMustNot).dropWhile (fun x => decide (x < t))) ∧
      (∀ m2, s2.currMustNot = some m2 → t ≤ m2.id) ∧
      (s.mustNotSearcher = none → s2 = s) := by
  rcases hms : s.mustNotSearcher with _ | c
  · have hcm : s.currMustNot = none := by rw [hms] at hcur; exact hcur
    refine ⟨s, by simp only [BooleanSearcher.advMustNot, hms], rfl, rfl, rfl, rfl,
      rfl, rfl, ?_, by rw [hms], hwf, hcur, ?_, le_refl _, ?_, ?_, fun _ => rfl⟩
    · rw [hcm]
      simp
    · rw [hcm]
      simp
    · intro c c2 hc hc2
      simp [hms] at hc
    · intro m2 hm2
      rw [hcm] at hm2
      cases hm2
  · have hwfc := hwf c hms
    have hcur' : CurOK (some c) s.currMustNot := by rw [hms] at hcur; exact hcur
    obtain ⟨cur2, c2, tok2, hadv, hcfg2, hwf2, hcur2, htokf, htoks, hbelow,
      hgem, hcand⟩ := @Searcher.advance_full c _ t hwfc hcur' s.nextTok
    have hle : s.nextTok ≤ tok2 := by
      rw [htokf]
      rcases cur2 with _ | m2 <;> simp
    rcases hcm : s.currMustNot with _ | dm
    · rw [hcm] at hcand hbelow
      refine ⟨{ s with mustNotSearcher := some c2, currMustNot := cur2, nextTok := tok2 }, ?_,
        rfl, rfl, rfl, rfl, rfl, rfl, by simp, by simpa using hcfg2, ?_, hcur2,
        htoks, hle, ?_, ?_, ?_⟩
      · simp [BooleanSearcher.advMustNot, hms, hcm, Option.isSome_none,
          Bool.false_eq_true, if_false, hadv]
      · intro c2' hc2'
        injection hc2' with hc2'
        subst hc2'
        exact hwf2
      · intro c' c2' hc' hc2'
        injection hc' with hc'
        subst hc'
        injection hc2' with hc2'
        subst hc2'
        exact ⟨fun d0 d' hb h1 h2 => hbelow d0 d' hb h1 h2, hcand⟩
      · exact hgem
      · intro h
        simp [hms] at h
    · rw [hcm] at hcand hbelow
      refine ⟨{ s with pool := s.pool ++ [dm.tok], mustNotSearcher := some c2, currMustNot := cur2, nextTok := tok2 }, ?_,
        rfl, rfl, rfl, rfl, rfl, rfl, by simp, by simpa using hcfg2, ?_, hcur2,
        htoks, hle, ?_, ?_, ?_⟩
      · simp [BooleanSearcher.advMustNot, hms, hcm, Option.isSome_some, if_true,
          BooleanSearcher.putPool, hadv]
      · intro c2' hc2'
        injection hc2' with hc2'
        subst hc2'
        exact hwf2
      · intro c' c2' hc' hc2'
        injection hc' with hc'
        subst hc'
        injection hc2' with hc2'
        subst hc2'
        exact ⟨fun d0 d' hb h1 h2 => hbelow d0 d' hb h1 h2, hcand⟩
      · exact hgem
      · intro h
        simp [hms] at h

theorem candList_frag_must {x : BooleanSearcher} {c : Searcher}
    (hcid : x.currentID = (driveCur x).map DocMatch.id)
    (hms : x.mustSearcher = some c) : candList x = candFrag c x.currMust := by
  unfold candList candFrag
  rw [hcid, driveCur_must hms]
  rcases hcm : x.currMust with _ | m
  · rfl
  · simp only [Option.map_some']
    rw [hms]

theorem candList_frag_should {x : BooleanSearcher} {c : Searcher}
    (hcid : x.currentID = (driveCur x).map DocMatch.id)
    (hms : x.mustSearcher = none) (hss : x.shouldSearcher = some c) :
    candList x = candFrag c x.currShould := by
  unfold candList candFrag
  rw [hcid, driveCur_none hms]
  rcases hcm : x.currShould with _ | m
  · rfl
  · simp only [Option.map_some']
    rw [hms, hss]

theorem candList_frag_none {x : BooleanSearcher}
    (hcid : x.currentID = (driveCur x).map DocMatch.id)
    (hms : x.mustSearcher = none) (hcs : x.currShould = none) :
    candList x = [] := by
  apply candList_nil
  rw [hcid, driveCur_none hms, hcs]
  rfl

theorem candList_sorted {s : BooleanSearcher} (hinv : BInv s) :
    (candList s).Pairwise (· < ·) := by
  rcases hms : s.mustSearcher with _ | c
  · rcases hss : s.shouldSearcher with _ | c
    · have hcs : s.currShould = none := by
        have := hinv.curShould
        rw [hss] at this
        exact this
      rw [candList_frag_none hinv.cid hms hcs]
      exact List.Pairwise.nil
    · rw [candList_frag_should hinv.cid hms hss]
      refine sorted_candFrag (hinv.wfShould c hss) ?_
      have := hinv.curShould
      rw [hss] at this
      exact this
  · rw [candList_frag_must hinv.cid hms]
    refine sorted_candFrag (hinv.wfMust c hms) ?_
    have := hinv.curMust
    rw [hms] at this
    exact this

theorem opt_cfg_some {a b : Option Searcher}
    (h : a.map Searcher.cfg = b.map Searcher.cfg) {x : Searcher}
    (hx : a = some x) : ∃ y, b = some y := by
  rcases hb : b with _ | y
  · rw [hx, hb] at h
    cases h
  · exact ⟨y, rfl⟩

theorem dropWhile_head_false {p : Nat → Bool} :
    ∀ (l : List Nat) {a : Nat} {r : List Nat},
      l.dropWhile p = a :: r → p a = false := by
  intro l
  induction l with
  | nil => intro a r h; cases h
  | cons x xs ih =>
    intro a r h
    by_cases hx : p x
    · rw [List.dropWhile_cons, if_pos hx] at h
      exact ih h
    · rw [List.dropWhile_cons, if_neg hx] at h
      injection h with h1 h2
      subst h1
      simpa using hx

theorem Advance_spec {s : BooleanSearcher} {E : List Nat} (t : Nat)
    (hinv : BInv s) (hacct : acct s E) :
    ∃ sR, s.Advance t = sR.Next ∧ BInv sR ∧ acct sR E ∧ cfgEq s sR ∧
      specOut sR = (specOut s).dropWhile (fun x => decide (x < t)) := by
  obtain ⟨sA, hA, hAs, hAn, hAcs, hAcn, hAcid, hAin, hApool, hAcfg, hAwf, hAcur,
    hAtoks, hAle, hAkey, hAgem, hAnone⟩ := advMust_slot t hinv.wfMust hinv.curMust
  obtain ⟨sB, hB, hBm, hBn, hBcm, hBcn, hBcid, hBin, hBpool, hBcfg, hBwf, hBcur,
    hBtoks, hBle, hBkey, hBgem, hBnone⟩ :=
    @advShould_slot sA t (by rw [hAs]; exact hinv.wfShould)
      (by rw [hAs, hAcs]; exact hinv.curShould)
  obtain ⟨sC, hC, hCm, hCs, hCcm, hCcs, hCcid, hCin, hCpool, hCcfg, hCwf, hCcur,
    hCtoks, hCle, hCkey, hCgem, hCnone⟩ :=
    @advMustNot_slot sB t (by rw [hBn, hAn]; exact hinv.wfMustNot)
      (by rw [hBn, hAn, hBcn, hAcn]; exact hinv.curMustNot)
  obtain ⟨sR, hsRdef⟩ : ∃ x, x = sC.recomputeCurrentID := ⟨_, rfl⟩
  rw [recompute_eq] at hsRdef
  have hRm : sR.mustSearcher = sA.mustSearcher := by
    simp only [hsRdef]
    rw [hCm, hBm]
  have hRs : sR.shouldSearcher = sB.shouldSearcher := by
    simp only [hsRdef]
    rw [hCs]
  have hRn : sR.mustNotSearcher = sC.mustNotSearcher := by
    simp only [hsRdef]
  have hRcm : sR.currMust = sA.currMust := by
    simp only [hsRdef]
    rw [hCcm, hBcm]
  have hRcs : sR.currShould = sB.currShould := by
    simp only [hsRdef]
    rw [hCcs]
  have hRcn : sR.currMustNot = sC.currMustNot := by
    simp only [hsRdef]
  have hRpool : sR.pool = sC.pool := by
    simp only [hsRdef]
  have hRtok : sR.nextTok = sC.nextTok := by
    simp only [hsRdef]
  have hRin : sR.inited = true := by
    simp only [hsRdef]
    rw [hCin, hBin, hAin]
    exact hinv.inited
  have hRcid : sR.currentID = (driveCur sC).map DocMatch.id := by
    simp only [hsRdef]
  have hdcR : driveCur sR = driveCur sC := by
    unfold driveCur
    rw [hRm, ← hBm, ← hCm, hRcm, ← hBcm, ← hCcm, hRcs, ← hCcs]
  have hRcidok : sR.currentID = (driveCur sR).map DocMatch.id := by
    rw [hRcid, hdcR]
  have hrun : s.Advance t = sR.Next := by
    simp only [BooleanSearcher.Advance, hinv.inited, if_true, hA, hB, hC,
      hsRdef, recompute_eq]
  have hcfg : cfgEq s sR := by
    refine ⟨?_, ?_, ?_⟩
    · rw [hRm]
      exact hAcfg
    · rw [hRs, hBcfg, hAs]
    · rw [hRn, hCcfg, hBn, hAn]
  -- the candidate list after repositioning
  have hcand : candList sR = (candList s).dropWhile (fun x => decide (x < t)) := by
    rcases hms : s.mustSearcher with _ | cM
    · have hsA : sA = s := hAnone hms
      rcases hss : s.shouldSearcher with _ | cS
      · have hsB : sB = sA := hBnone (by rw [hAs, hss])
        have hcs0 : s.currShould = none := by
          have := hinv.curShould
          rw [hss] at this
          exact this
        have h1 : candList s = [] := candList_frag_none hinv.cid hms hcs0
        have h2 : candList sR = [] := by
          apply candList_nil
          rw [hRcid]
          have : driveCur sC = sC.currShould :=
            driveCur_none (by rw [hCm, hBm, hsA]; exact hms)
          rw [this, hCcs, hsB, hsA, hcs0]
          rfl
        rw [h1, h2]
        rfl
      · have hAss : sA.shouldSearcher = some cS := by rw [hAs]; exact hss
        obtain ⟨cS2, hBss⟩ := opt_cfg_some hBcfg.symm hAss
        have hkeyB := hBkey cS cS2 hAss hBss
        have h1 : candList s = candFrag cS s.currShould :=
          candList_frag_should hinv.cid hms hss
        have h2 : candList sR = candFrag cS2 sB.currShould := by
          rw [← hRcs]
          exact candList_frag_should hRcidok (by rw [hRm, hsA]; exact hms)
            (by rw [hRs]; exact hBss)
        rw [h1, h2, hkeyB.2, hsA]
    · obtain ⟨cM2, hAms⟩ := opt_cfg_some hAcfg.symm hms
      have hkeyA := hAkey cM cM2 hms hAms
      have h1 : candList s = candFrag cM s.currMust :=
        candList_frag_must hinv.cid hms
      have h2 : candList sR = candFrag cM2 sA.currMust := by
        rw [← hRcm]
        exact candList_frag_must hRcidok (by rw [hRm]; exact hAms)
      rw [h1, h2, hkeyA.2]
  -- every new candidate is at least t and at least the old candidate
  have hkeyid : ∀ d', sR.currentID = some d' →
      t ≤ d' ∧ ∃ d0, s.currentID = some d0 ∧ d0 ≤ d' := by
    intro d' hd'
    have hconsR := candList_cons hd'
    have hcl : (candList s).dropWhile (fun x => decide (x < t)) =
        d' :: (candList sR).tail := by
      rw [← hcand]
      exact hconsR
    have hpt : decide (d' < t) = false := dropWhile_head_false _ hcl
    have ht' : t ≤ d' := by
      have : ¬d' < t := by simpa using hpt
      omega
    refine ⟨ht', ?_⟩
    rcases hcid0 : s.currentID with _ | d0
    · have hnil : candList s = [] := candList_nil hcid0
      rw [hnil] at hcl
      cases hcl
    · refine ⟨d0, rfl, ?_⟩
      have hcons0 := candList_cons hcid0
      have hmem : d' ∈ candList s := by
        have hm0 : d' ∈ (candList s).dropWhile (fun x => decide (x < t)) := by
          rw [hcl]
          exact List.mem_cons_self _ _
        exact (List.dropWhile_sublist (fun x => decide (x < t))).subset hm0
      have hsorted := candList_sorted hinv
      rw [hcons0] at hmem hsorted
      rcases List.mem_cons.mp hmem with h | h
      · omega
      · have := (List.pairwise_cons.mp hsorted).1 d' h
        omega
  refine ⟨sR, hrun, ?_, ?_, hcfg, ?_⟩
  · -- the invariant at the repositioned state
    refine { inited := hRin
             wfMust := ?_
             wfShould := ?_
             wfMustNot := ?_
             curMust := ?_
             curShould := ?_
             curMustNot := ?_
             cid := hRcidok
             belowShould := ?_
             belowMustNot := ?_ }
    · intro c hc
      rw [hRm] at hc
      exact hAwf c hc
    · intro c hc
      rw [hRs] at hc
      exact hBwf c hc
    · intro c hc
      rw [hRn] at hc
      exact hCwf c hc
    · rw [hRm, hRcm]
      exact hAcur
    · rw [hRs, hRcs]
      exact hBcur
    · rw [hRn, hRcn]
      exact hCcur
    · intro d' hd' cS2 hcs2
      obtain ⟨ht', d0, hd0, hle0⟩ := hkeyid d' hd'
      have hcs2' : sB.shouldSearcher = some cS2 := by rw [← hRs]; exact hcs2
      obtain ⟨cS, hAss⟩ := opt_cfg_some hBcfg hcs2'
      rw [hRcs]
      refine (hBkey cS cS2 hAss hcs2').1 d0 d' ?_ hle0 ht'
      rw [hAcs]
      refine hinv.belowShould d0 hd0 cS ?_
      rw [← hAs]
      exact hAss
    · intro d' hd' cN2 hcn2
      obtain ⟨ht', d0, hd0, hle0⟩ := hkeyid d' hd'
      have hcn2' : sC.mustNotSearcher = some cN2 := by rw [← hRn]; exact hcn2
      obtain ⟨cN, hBnn⟩ := opt_cfg_some hCcfg hcn2'
      rw [hRcn]
      refine (hCkey cN cN2 hBnn hcn2').1 d0 d' ?_ hle0 ht'
      rw [hBcn, hAcn]
      refine hinv.belowMustNot d0 hd0 cN ?_
      rw [← hAn, ← hBn]
      exact hBnn
  · -- pool accounting is preserved
    have hliveR : liveToks sR =
        List.range' s.nextTok (sC.nextTok - s.nextTok) := by
      unfold liveToks
      rw [hRcm, hRcs, hRcn, hAtoks, hBtoks, hCtoks, range'_pair hAle hBle,
        range'_pair (le_trans hAle hBle) hCle]
    have hpoolR : sR.pool = s.pool ++ (s.currMust.map DocMatch.tok).toList ++
        (s.currShould.map DocMatch.tok).toList ++
        (s.currMustNot.map DocMatch.tok).toList := by
      rw [hRpool, hCpool, hBpool, hApool, hBcn, hAcn, hAcs]
    have hsplit : List.range sC.nextTok =
        List.range s.nextTok ++ List.range' s.nextTok (sC.nextTok - s.nextTok) := by
      rw [List.range_eq_range', List.range_eq_range']
      exact (range_chain_pair s.nextTok sC.nextTok
        (le_trans hAle (le_trans hBle hCle))).symm
    unfold acct at hacct ⊢
    unfold liveToks at hacct
    rw [List.perm_iff_count] at hacct ⊢
    intro x
    have hx := hacct x
    rw [hpoolR, hliveR, hRtok, hsplit]
    simp only [List.count_append] at hx ⊢
    omega
  · -- the emitted stream is the old one past t
    show specOut sR = (specOut s).dropWhile (fun x => decide (x < t))
    unfold specOut
    rw [hcand]
    calc ((candList s).dropWhile (fun x => decide (x < t))).filter (passB sR)
        = ((candList s).dropWhile (fun x => decide (x < t))).filter (passB s) :=
          List.filter_congr (fun x _ => passB_congr hcfg x)
      _ = ((candList s).filter (passB s)).dropWhile (fun x => decide (x < t)) :=
          filter_dropWhile (passB s) (candList s) (candList_sorted hinv)

theorem nextUntil_spec : ∀ (L : List Nat) (n : Nat) (s : BooleanSearcher)
    (E : List Nat) (t : Nat), specOut s = L → L.length < n → BInv s →
    acct s E →
    ((L.dropWhile (fun x => decide (x < t)) = [] →
      ∃ s4, BooleanSearcher.nextUntil n s t = (.ok none, s4)) ∧
     (∀ d rest, L.dropWhile (fun x => decide (x < t)) = d :: rest →
      ∃ m cons s4, BooleanSearcher.nextUntil n s t = (.ok (some (m, cons)), s4) ∧
        m.id = d ∧ m.score = specScore s d)) := by
  intro L
  induction L with
  | nil =>
    intro n s E t hso hlen hinv hacct
    cases n with
    | zero => omega
    | succ n' =>
      obtain ⟨s4, hNeq, -, -, -, -⟩ := (next_spec hinv hacct).1 hso
      constructor
      · intro _
        refine ⟨s4, ?_⟩
        simp only [BooleanSearcher.nextUntil, hNeq]
      · intro d rest h
        simp at h
  | cons d0 rest0 ih =>
    intro n s E t hso hlen hinv hacct
    cases n with
    | zero => omega
    | succ n' =>
      obtain ⟨m, cons, s4, hNeq, hm1, hm2, hm3, hi4, ha4, hc4, hso4⟩ :=
        (next_spec hinv hacct).2 d0 rest0 hso
      by_cases ht0 : t ≤ d0
      · have hres : BooleanSearcher.nextUntil (n' + 1) s t =
            (.ok (some (m, cons)), s4) := by
          simp only [BooleanSearcher.nextUntil, hNeq, hm1, if_pos ht0]
        have hd : decide (d0 < t) = false := by
          simp
          omega
        constructor
        · intro h
          rw [List.dropWhile_cons, hd] at h
          simp at h
        · intro d rest h
          rw [List.dropWhile_cons, hd] at h
          simp only [Bool.false_eq_true, if_false] at h
          injection h with h1 h2
          refine ⟨m, cons, s4, hres, by rw [hm1]; exact h1, by rw [hm2, h1]⟩
      · push_neg at ht0
        have hstep : BooleanSearcher.nextUntil (n' + 1) s t =
            BooleanSearcher.nextUntil n' s4 t := by
          simp only [BooleanSearcher.nextUntil, hNeq, hm1,
            if_neg (by omega : ¬t ≤ d0)]
        have hdw : (d0 :: rest0).dropWhile (fun x => decide (x < t)) =
            rest0.dropWhile (fun x => decide (x < t)) := by
          rw [List.dropWhile_cons]
          have hdt : decide (d0 < t) = true := by simpa using ht0
          rw [hdt]
          simp
        obtain ⟨ih1, ih2⟩ := ih n' s4 (E ++ [m.tok]) t hso4
          (by simp at hlen; omega) hi4 ha4
        constructor
        · intro h
          rw [hdw] at h
          obtain ⟨s5, hr⟩ := ih1 h
          exact ⟨s5, by rw [hstep]; exact hr⟩
        · intro d rest h
          rw [hdw] at h
          obtain ⟨m2, cons2, s5, hr, hh1, hh2⟩ := ih2 d rest h
          exact ⟨m2, cons2, s5, by rw [hstep]; exact hr, hh1,
            by rw [hh2, specScore_congr hc4]⟩

/-! ## Witness configurations -/

theorem fresh_of_eq {x : Searcher} (hx : x.Fresh) :
    ∀ c, some x = some c → c.Fresh := by
  intro c hc
  injection hc with h
  exact h ▸ hx

theorem fresh_none : ∀ c : Searcher, (none : Option Searcher) = some c → c.Fresh :=
  fun _ hc => nomatch hc

/-- A boolean searcher over no children at all, already initialized. -/
def emptyBS : BooleanSearcher :=
  { mustSearcher := none, shouldSearcher := none, mustNotSearcher := none,
    currMust := none, currShould := none, currMustNot := none,
    currentID := none, inited := true, pool := [], nextTok := 0 }

theorem BInv_emptyBS : BInv emptyBS :=
  { inited := rfl
    wfMust := fun _ hc => nomatch hc
    wfShould := fun _ hc => nomatch hc
    wfMustNot := fun _ hc => nomatch hc
    curMust := rfl
    curShould := rfl
    curMustNot := rfl
    cid := rfl
    belowShould := fun _ _ _ hc => nomatch hc
    belowMustNot := fun _ _ _ hc => nomatch hc }

theorem acct_emptyBS : acct emptyBS [] := by
  unfold acct liveToks emptyBS
  decide

/-- The state of a must-only searcher over the stream [(1, 10)] right after
initialization. -/
def W3 : BooleanSearcher :=
  { mustSearcher := some { stream := [(1, 10)], minVal := 0, pos := 1, exhausted := false, calls := 1, failOn := none, closeErr := none },
    shouldSearcher := none, mustNotSearcher := none,
    currMust := some ⟨1, 10, 0⟩, currShould := none, currMustNot := none,
    currentID := some 1, inited := true, pool := [], nextTok := 1 }

theorem BInv_W3 : BInv W3 := by
  refine { inited := rfl
           wfMust := ?_
           wfShould := fun _ hc => nomatch hc
           wfMustNot := fun _ hc => nomatch hc
           curMust := ?_
           curShould := rfl
           curMustNot := rfl
           cid := rfl
           belowShould := fun _ _ _ hc => nomatch hc
           belowMustNot := fun _ _ _ hc => nomatch hc }
  · intro c hc
    injection hc with h
    refine h ▸ ⟨?_, rfl, ?_, ?_⟩ <;> decide
  · exact ⟨by decide, rfl, rfl⟩

theorem acct_W3 : acct W3 [] := by
  unfold acct liveToks W3
  decide

/-- The qualification predicate of a freshly built boolean searcher, spelled
out over the child configurations. -/
theorem passB_mk_true_iff (mc sc nc : Option Searcher) (d : Nat) :
    passB (mkSearcher mc sc nc) d = true ↔
      ((∀ c, nc = some c → d ∉ c.ids) ∧
        (∀ c, sc = some c → d ∈ c.ids ∨ c.minVal = 0)) := by
  unfold passB mustNotMemB gateB mkSearcher
  rcases nc with _ | cn <;> rcases sc with _ | cs <;>
    simp <;> tauto

theorem mkChild_fresh (l : List (Nat × Int)) (v : Nat)
    (h : (l.map Prod.fst).Pairwise (· < ·)) : (mkChild l v).Fresh :=
  ⟨h, rfl, rfl, rfl⟩

/-! ## Claims -/

/-- C1 (amended): iterated to exhaustion over fresh, error-free children, a
boolean searcher emits an identifier if and only if it appears in the driving
stream (must, or should when no must clause exists), does not appear in the
must-not stream, AND passes the should gate: the should clause is absent, or
matches the identifier, or has minimum zero.  The claim as stated omits the
final conjunct; `C1_counterexample` refutes it. -/
theorem C1_emit_iff {mc sc nc : Option Searcher}
    (hm : ∀ c, mc = some c → c.Fresh) (hs : ∀ c, sc = some c → c.Fresh)
    (hn : ∀ c, nc = some c → c.Fresh) (d : Nat) :
    (d ∈ (mkSearcher mc sc nc).runAll.1.map (fun r => r.1.id)) ↔
      (d ∈ drivingIds mc sc ∧ (∀ c, nc = some c → d ∉ c.ids) ∧
        (∀ c, sc = some c → d ∈ c.ids ∨ c.minVal = 0)) := by
  obtain ⟨rs, s4, hrun, hids, -, -, -, -⟩ := runAll_spec hm hs hn
  simp only [hrun]
  rw [hids]
  unfold specTop
  rw [List.mem_filter, passB_mk_true_iff]

/-- C1 counterexample: with must stream [(1,10)] and should stream [(2,20)]
of minimum 1, identifier 1 is in the must stream and in no must-not stream,
yet nothing is emitted — the claim's biconditional fails at 1. -/
theorem C1_counterexample :
    ((mkSearcher (some (mkChild [(1, 10)] 0)) (some (mkChild [(2, 20)] 1))
      none).runAll.1.map (fun r => r.1.id) = []) ∧
    1 ∈ drivingIds (some (mkChild [(1, 10)] 0)) (some (mkChild [(2, 20)] 1)) ∧
    (∀ c : Searcher, (none : Option Searcher) = some c → 1 ∉ c.ids) := by
  refine ⟨by decide, by decide, ?_⟩
  intro c hc
  cases hc

theorem C1_emit_iff_witness :
    (mkChild [(1, 10), (3, 11), (5, 12)] 0).Fresh ∧
    ((3 ∈ (mkSearcher (some (mkChild [(1, 10), (3, 11), (5, 12)] 0))
        (some (mkChild [(3, 100), (4, 101)] 0))
        (some (mkChild [(4, 7)] 0))).runAll.1.map (fun r => r.1.id)) ↔
      (3 ∈ drivingIds (some (mkChild [(1, 10), (3, 11), (5, 12)] 0))
          (some (mkChild [(3, 100), (4, 101)] 0)) ∧
        (∀ c, some (mkChild [(4, 7)] 0) = some c → 3 ∉ c.ids) ∧
        (∀ c, some (mkChild [(3, 100), (4, 101)] 0) = some c →
          3 ∈ c.ids ∨ c.minVal = 0))) :=
  ⟨mkChild_fresh _ _ (by decide),
    C1_emit_iff (fresh_of_eq (mkChild_fresh _ _ (by decide)))
      (fresh_of_eq (mkChild_fresh _ _ (by decide)))
      (fresh_of_eq (mkChild_fresh _ _ (by decide))) 3⟩

/-- C2: over fresh, error-free children with strictly increasing streams, the
identifiers emitted by a full run are strictly increasing, hence duplicate
free. -/
theorem C2_increasing {mc sc nc : Option Searcher}
    (hm : ∀ c, mc = some c → c.Fresh) (hs : ∀ c, sc = some c → c.Fresh)
    (hn : ∀ c, nc = some c → c.Fresh) :
    ((mkSearcher mc sc nc).runAll.1.map (fun r => r.1.id)).Pairwise (· < ·) := by
  obtain ⟨rs, s4, hrun, hids, -, -, -, -⟩ := runAll_spec hm hs hn
  simp only [hrun]
  rw [hids]
  unfold specTop
  apply List.Pairwise.filter
  unfold drivingIds
  match mc with
  | some c => exact (hm c rfl).1
  | none =>
    match sc with
    | some c => exact (hs c rfl).1
    | none => exact List.Pairwise.nil

theorem C2_increasing_witness :
    (mkChild [(1, 10), (3, 11), (5, 12)] 0).Fresh ∧
    ((mkSearcher (some (mkChild [(1, 10), (3, 11), (5, 12)] 0))
      (some (mkChild [(3, 100), (4, 101)] 0))
      (some (mkChild [(4, 7)] 0))).runAll.1.map
        (fun r => r.1.id)).Pairwise (· < ·) :=
  ⟨mkChild_fresh _ _ (by decide),
    C2_increasing (fresh_of_eq (mkChild_fresh _ _ (by decide)))
      (fresh_of_eq (mkChild_fresh _ _ (by decide)))
      (fresh_of_eq (mkChild_fresh _ _ (by decide)))⟩

/-- C5 (amended): over a full error-free iteration of a boolean searcher to
exhaustion, every allocated document match is exactly once in the pool, in
the emitted results, or still held in a cursor field of the final state; and
no match object is read after being returned to the pool: in any state
satisfying the accounting invariant — which every state of a run does — the
matches held live in the cursor fields, the only ones a later step reads, are
in neither the pool nor the emitted results.  The claim's accounting as
stated (pool or emitted only) is refuted by `C5_counterexample`: a
non-driving cursor match that is still live when the driving stream ends is
recycled nowhere. -/
theorem C5_pool_accounting {mc sc nc : Option Searcher}
    (hm : ∀ c, mc = some c → c.Fresh) (hs : ∀ c, sc = some c → c.Fresh)
    (hn : ∀ c, nc = some c → c.Fresh) :
    (∃ rs s4, (mkSearcher mc sc nc).runAll = (rs, s4) ∧
      (s4.pool ++ rs.map (fun r => r.1.tok) ++ liveToks s4).Perm
        (List.range s4.nextTok)) ∧
    (∀ (s : BooleanSearcher) (E : List Nat), acct s E →
      ∀ v ∈ liveToks s, v ∉ s.pool ∧ v ∉ E) := by
  constructor
  · obtain ⟨rs, s4, hrun, -, -, -, ha, -⟩ := runAll_spec hm hs hn
    exact ⟨rs, s4, hrun, ha⟩
  · intro s E ha v hv
    have hp : (s.pool ++ E ++ liveToks s).Perm (List.range s.nextTok) := ha
    have hnd : (s.pool ++ E ++ liveToks s).Nodup :=
      hp.symm.nodup (List.nodup_range s.nextTok)
    rw [List.nodup_append] at hnd
    obtain ⟨-, -, hdisj⟩ := hnd
    exact ⟨fun hvp => hdisj (List.mem_append.mpr (Or.inl hvp)) hv,
      fun hvE => hdisj (List.mem_append.mpr (Or.inr hvE)) hv⟩

/-- C5 counterexample: must stream [(1,10)], should stream [(5,20)] of
minimum 0.  The run allocates two matches; the should match (token 1) is
still live in the final cursor, in neither the pool nor the results. -/
theorem C5_counterexample :
    1 < ((mkSearcher (some (mkChild [(1, 10)] 0)) (some (mkChild [(5, 20)] 0))
      none).runAll.2).nextTok ∧
    1 ∉ ((mkSearcher (some (mkChild [(1, 10)] 0)) (some (mkChild [(5, 20)] 0))
      none).runAll.2).pool ∧
    1 ∉ ((mkSearcher (some (mkChild [(1, 10)] 0)) (some (mkChild [(5, 20)] 0))
      none).runAll.1).map (fun r => r.1.tok) := by
  refine ⟨by decide, by decide, by decide⟩

theorem C5_pool_accounting_witness :
    (mkChild [(1, 10), (3, 11), (5, 12)] 0).Fresh ∧
    ((∃ rs s4, (mkSearcher (some (mkChild [(1, 10), (3, 11), (5, 12)] 0))
        (some (mkChild [(3, 100), (4, 101)] 0))
        (some (mkChild [(4, 7)] 0))).runAll = (rs, s4) ∧
      (s4.pool ++ rs.map (fun r => r.1.tok) ++ liveToks s4).Perm
        (List.range s4.nextTok)) ∧
    (∀ (s : BooleanSearcher) (E : List Nat), acct s E →
      ∀ v ∈ liveToks s, v ∉ s.pool ∧ v ∉ E)) :=
  ⟨mkChild_fresh _ _ (by decide),
    C5_pool_accounting (fresh_of_eq (mkChild_fresh _ _ (by decide)))
      (fresh_of_eq (mkChild_fresh _ _ (by decide)))
      (fresh_of_eq (mkChild_fresh _ _ (by decide)))⟩

/-- C8: with must stream [1,3,5], should stream [3,4] (minimum 0) and
must-not stream [4], the full run emits exactly 1, 3, 5 in order, 3 scored
from the must and should constituents, 1 and 5 from the must constituent
alone. -/
theorem C8_concrete :
    ((mkSearcher (some (mkChild [(1, 10), (3, 11), (5, 12)] 0))
      (some (mkChild [(3, 100), (4, 101)] 0))
      (some (mkChild [(4, 7)] 0))).runAll.1.map
        (fun r => (r.1.id, r.1.score, r.2.map (fun x => (x.id, x.score))))) =
      [(1, 10, [(1, 10)]), (3, 111, [(3, 11), (3, 100)]),
        (5, 12, [(5, 12)])] := by
  decide

/-- C3: from any invariant-satisfying state (the reachable states of an
error-free searcher), `Advance t` returns the same first qualifying match —
same identifier, same score — as repeatedly calling `Next` until a result
with identifier at least `t` is returned, with end-of-stream in both cases
when no such match exists. -/
theorem C3_advance_next_equiv {s : BooleanSearcher} {E : List Nat} (t : Nat)
    (hinv : BInv s) (hacct : acct s E) :
    ((s.Advance t).1 = .ok none ∧
      (s.nextUntil ((specOut s).length + 1) t).1 = .ok none) ∨
    (∃ mA consA mN consN, (s.Advance t).1 = .ok (some (mA, consA)) ∧
      (s.nextUntil ((specOut s).length + 1) t).1 = .ok (some (mN, consN)) ∧
      mA.id = mN.id ∧ mA.score = mN.score) := by
  obtain ⟨sR, hrun, hinvR, hacctR, hcfgR, hspecR⟩ := Advance_spec t hinv hacct
  obtain ⟨hu1, hu2⟩ := nextUntil_spec (specOut s) ((specOut s).length + 1) s E t
    rfl (by omega) hinv hacct
  rcases hdw : (specOut s).dropWhile (fun x => decide (x < t)) with _ | ⟨d, rest⟩
  · left
    obtain ⟨s4, hN, -, -, -, -⟩ := (next_spec hinvR hacctR).1
      (by rw [hspecR, hdw])
    obtain ⟨s5, hU⟩ := hu1 hdw
    constructor
    · rw [hrun, hN]
    · rw [hU]
  · right
    obtain ⟨mA, consA, s4, hN, hid, hsc, -, -, -, -, -⟩ :=
      (next_spec hinvR hacctR).2 d rest (by rw [hspecR, hdw])
    obtain ⟨mN, consN, s5, hU, hidN, hscN⟩ := hu2 d rest hdw
    refine ⟨mA, consA, mN, consN, by rw [hrun, hN], by rw [hU],
      by rw [hid, hidN], ?_⟩
    rw [hsc, hscN]
    exact specScore_congr hcfgR d

theorem C3_advance_next_equiv_witness :
    BInv W3 ∧
    (((W3.Advance 1).1 = .ok none ∧
      (W3.nextUntil ((specOut W3).length + 1) 1).1 = .ok none) ∨
    (∃ mA consA mN consN, (W3.Advance 1).1 = .ok (some (mA, consA)) ∧
      (W3.nextUntil ((specOut W3).length + 1) 1).1 = .ok (some (mN, consN)) ∧
      mA.id = mN.id ∧ mA.score = mN.score)) :=
  ⟨BInv_W3, C3_advance_next_equiv 1 BInv_W3 acct_W3⟩

/-- C4 (amended): whenever `Next` or `Advance` returns an error, that error
is the configured failure code of one of the child searchers, propagated
verbatim — never wrapped or substituted.  This covers every child call made
during the two operations: initialization, the must/should merge-join and the
should and must-not catch-up advances inside `Next`, and the three
repositioning advances inside `Advance`.  The claim's further assertion that
the internal state is left as before the failing call is refuted by
`C4_counterexample`: the superseded driving match is recycled to the pool and
the driving current-match field is overwritten before the error returns. -/
theorem C4_error_codes :
    (∀ (s : BooleanSearcher) (e : Nat) (sFin : BooleanSearcher),
      s.Next = (.error e, sFin) → hasErr s e) ∧
    (∀ (s : BooleanSearcher) (t e : Nat) (sFin : BooleanSearcher),
      s.Advance t = (.error e, sFin) → hasErr s e) :=
  ⟨fun _ _ _ h => Next_error h, fun _ _ _ _ h => Advance_error h⟩

/-- C4 counterexample: must stream [(1,10)] whose child fails on its second
call with code 77, must-not stream [(1,5)].  The first `Next` returns error
77 unchanged, but the state is not as before the failing call: the must
match allocated at initialization (token 0) has been recycled to the pool and
`currMust` has been overwritten to nil, while `currentID` still names the
stale candidate. -/
theorem C4_counterexample :
    (mkSearcher (some { mkChild [(1, 10)] 0 with failOn := some (2, 77) })
      none (some (mkChild [(1, 5)] 0))).Next =
      ((.error 77 : Except Nat (Option ScoredEmit)),
        { mustSearcher := some { stream := [(1, 10)], minVal := 0, pos := 1, exhausted := false, calls := 2, failOn := some (2, 77), closeErr := none },
          shouldSearcher := none,
          mustNotSearcher := some { stream := [(1, 5)], minVal := 0, pos := 1, exhausted := false, calls := 1, failOn := none, closeErr := none },
          currMust := none, currShould := none,
          currMustNot := some ⟨1, 5, 1⟩, currentID := some 1,
          inited := true, pool := [0], nextTok := 2 }) := by
  rfl

theorem C4_error_codes_witness :
    hasErr (mkSearcher
      (some { mkChild [(1, 10)] 0 with failOn := some (2, 77) })
      none (some (mkChild [(1, 5)] 0))) 77 :=
  C4_error_codes.1
    (mkSearcher (some { mkChild [(1, 10)] 0 with failOn := some (2, 77) })
      none (some (mkChild [(1, 5)] 0)))
    77
    ((mkSearcher (some { mkChild [(1, 10)] 0 with failOn := some (2, 77) })
      none (some (mkChild [(1, 5)] 0))).Next).2
    (by rfl)

/-- C6: the query norm is computed from the summed weights of the present
must and should children (an absent child contributing zero, the must-not
child never consulted), as one over the square root of the total; both
present children are pushed exactly that norm; and the norm is the
non-finite value `⊤` exactly when the total weight is zero. -/
theorem C6_query_norm (mw sw : Option NNReal) :
    computeQueryNorm mw sw = specQueryNorm mw sw ∧
    pushedNorms mw sw =
      (mw.map (fun _ => computeQueryNorm mw sw),
        sw.map (fun _ => computeQueryNorm mw sw)) ∧
    (computeQueryNorm mw sw = (⊤ : ENNReal) ↔ mw.getD 0 + sw.getD 0 = 0) := by
  refine ⟨?_, rfl, ?_⟩
  · unfold computeQueryNorm specQueryNorm
    rw [one_div]
  · unfold computeQueryNorm
    rw [ENNReal.inv_eq_top]
    rw [ENNReal.coe_eq_zero]
    exact NNReal.sqrt_eq_zero

/-- C7: `Close` visits must, then should, then must-not, in that order,
returning the first child close error and skipping the children after it —
exactly the fold of the close protocol over the present clauses. -/
theorem C7_close_order (s : BooleanSearcher) :
    s.Close = closeFold (presentClauses s) :=
  close_eq_closeFold s

/-- C9: a boolean searcher with no must and no should child returns
end-of-stream from its first `Next` without error, whatever the must-not
child holds; and from any invariant state, once `Next` has returned
end-of-stream every further `Next` returns end-of-stream again. -/
theorem C9_no_driver_end :
    (∀ (nc : Option Searcher), (∀ c, nc = some c → c.Fresh) →
      ∃ s4, (mkSearcher none none nc).Next = (.ok none, s4)) ∧
    (∀ (s : BooleanSearcher) (E : List Nat), BInv s → acct s E →
      ∀ s1, s.Next = (.ok none, s1) → ∃ s2, s1.Next = (.ok none, s2)) := by
  constructor
  · intro nc hn
    obtain ⟨s1, hrun1, hinv1, hacct1, hcfg1, hcand1, hspec1⟩ :=
      @initSearchers_spec none none nc fresh_none fresh_none hn
    have hspec0 : specOut s1 = [] := by
      rw [hspec1]
      rfl
    obtain ⟨s4, hN, -, -, -, -⟩ := (next_spec hinv1 hacct1).1 hspec0
    refine ⟨s4, ?_⟩
    have hNext0 : (mkSearcher none none nc).Next = s1.Next := by
      simp only [BooleanSearcher.Next, hrun1, hinv1.inited, if_true]
      rfl
    rw [hNext0, hN]
  · intro s E hinv hacct s1 hNr
    rcases hspec : specOut s with _ | ⟨d, rest⟩
    · obtain ⟨s4, hN, hinv4, hacct4, -, hcid4⟩ := (next_spec hinv hacct).1 hspec
      rw [hNr] at hN
      injection hN with h1 h2
      subst h2
      have hspec4 : specOut s1 = [] := by
        unfold specOut
        rw [candList_nil hcid4]
        rfl
      obtain ⟨s5, hN5, -, -, -, -⟩ := (next_spec hinv4 hacct4).1 hspec4
      exact ⟨s5, hN5⟩
    · obtain ⟨m, cons, s4, hN, -, -, -, -, -, -, -⟩ :=
        (next_spec hinv hacct).2 d rest hspec
      rw [hNr] at hN
      injection hN with h1 h2
      injection h1 with h1
      cases h1

theorem C9_no_driver_end_witness :
    (∃ s4, (mkSearcher none none
      (some (mkChild [(4, 7)] 0))).Next = (.ok none, s4)) ∧
    (∃ s2, emptyBS.Next = ((.ok none : Except Nat (Option ScoredEmit)), s2)) :=
  ⟨C9_no_driver_end.1 (some (mkChild [(4, 7)] 0))
      (fresh_of_eq (mkChild_fresh _ _ (by decide))),
    C9_no_driver_end.2 emptyBS [] BInv_emptyBS acct_emptyBS emptyBS (by rfl)⟩

/-- C10: `Min` returns 0 for every boolean searcher; in particular a
should-only searcher whose should child reports a nonzero minimum still
reports 0, so the requirement is not propagated upward. -/
theorem C10_min_zero (s : BooleanSearcher) :
    s.Min = 0 ∧
      ∀ c, s.shouldSearcher = some c → c.minVal ≠ 0 → s.Min ≠ c.minVal := by
  refine ⟨rfl, ?_⟩
  intro c hc hne
  simp only [BooleanSearcher.Min]
  omega

theorem C10_min_zero_witness :
    (mkSearcher none (some (mkChild [(2, 20)] 1)) none).shouldSearcher =
      some (mkChild [(2, 20)] 1) ∧
    (mkChild [(2, 20)] 1).minVal ≠ 0 ∧
    (mkSearcher none (some (mkChild [(2, 20)] 1)) none).Min ≠
      (mkChild [(2, 20)] 1).minVal :=
  ⟨rfl, by decide,
    (C10_min_zero (mkSearcher none (some (mkChild [(2, 20)] 1)) none)).2
      (mkChild [(2, 20)] 1) rfl (by decide)⟩
